import Mathlib

/-!
# DynaNDE-Simulator: data-movement operations and their cost model

A shallow embedding of `src/operations/ActivationMovement.{h,cc}` and
`src/operations/ExpertParamLoad.cc`.

Conventions of the embedding.

* Machine integers are natural numbers.  A `uint64_t` product or sum that can
  leave the 64-bit range is reduced with `u64`, a value stored in a `uint32_t`
  with `u32`.
* A `double` is a binary64 number `m * 2^e`.  Every floating-point operation
  (a conversion from an integer, a decimal literal, a product, a quotient) is
  the exact result rounded to the nearest number with a 53-bit significand,
  ties to the even significand (`Dbl.rne`).  The values met here lie far inside
  the normal range of binary64, so the exponent is not bounded.  A division by
  zero yields `+∞`, and a finite value divided by `+∞` is zero.
* The conversion `(uint64_t)x` truncates.  For a value of 2^64 or more C++
  leaves the result undefined: the embedding takes it from the parameter `oor`
  (what the platform yields for the out-of-range value), so that a theorem
  stated for every `oor` holds whatever the platform does.
* Objects reached through shared pointers are values; a method that mutates
  the object returns the new value.
* A failed `assert` and an access past the end of a `std::vector` are faults.
-/

set_option maxRecDepth 8192

namespace DynaNDE

/-! ## Machine integers -/

/-- The value a `uint32_t` holds after `n` is assigned to it. -/
def u32 (n : Nat) : Nat := n % 2 ^ 32

/-- The value a `uint64_t` holds after `n` is assigned to it. -/
def u64 (n : Nat) : Nat := n % 2 ^ 64

/-! ## Binary64 arithmetic -/

/-- A finite non-negative binary64 number, `m * 2^e`. -/
structure Dbl where
  m : Nat
  e : Int
deriving DecidableEq

namespace Dbl

/-- The integer nearest to `N / D`, the even one of the two when `N / D` lies
half-way between them. -/
def round_half_even (N D : Nat) : Nat :=
  if 2 * (N % D) < D then N / D
  else if D < 2 * (N % D) then N / D + 1
  else if (N / D) % 2 = 0 then N / D else N / D + 1

/-- The position of the leading bit of `n`, by halving at most `fuel` times. -/
def log2_fuel : Nat → Nat → Nat
  | 0, _ => 0
  | fuel + 1, n => if n < 2 then 0 else log2_fuel fuel (n / 2) + 1

/-- The position of the leading bit of `n`: `2^(ilog2 n) ≤ n < 2^(ilog2 n + 1)`
for `n ≠ 0`. -/
def ilog2 (n : Nat) : Nat := log2_fuel n n

/-- Round to nearest, ties to even: the binary64 number nearest to
`n / d * 2^s`.  The quotient is scaled by a power of two into
`[2^52, 2^53)` and rounded to an integer there. -/
def rne (n d : Nat) (s : Int) : Dbl :=
  if n = 0 then ⟨0, 0⟩
  else
    let t : Int := (ilog2 n : Int) - (ilog2 d : Int) - 52
    let N : Nat := n * 2 ^ (-t).toNat
    let D : Nat := d * 2 ^ t.toNat
    if N < 2 ^ 52 * D then ⟨round_half_even (2 * N) D, t - 1 + s⟩
    else ⟨round_half_even N D, t + s⟩

/-- The rational number a binary64 number stands for. -/
def val (x : Dbl) : ℚ := (x.m : ℚ) * (2 : ℚ) ^ x.e

/-- The conversion of an unsigned integer to `double`. -/
def of_uint (n : Nat) : Dbl := rne n 1 0

/-- The decimal literal `num / den` as a `double` (`1e9` is `of_decimal (10^9) 1`,
`0.10` is `of_decimal 10 100`). -/
def of_decimal (num den : Nat) : Dbl := rne num den 0

/-- The product of two `double`s. -/
def mul (x y : Dbl) : Dbl := rne (x.m * y.m) 1 (x.e + y.e)

/-- The quotient of two `double`s, the divisor not zero. -/
def div (x y : Dbl) : Dbl := rne x.m y.m (x.e - y.e)

/-- The quotient of a positive `double` by a `double`: `none` is `+∞`, the
result of a division by zero. -/
def div_or_inf (x y : Dbl) : Option Dbl := if y.m = 0 then none else some (x.div y)

/-- The quotient of a finite `double` by a positive `double` or `+∞` (`none`);
a finite value divided by `+∞` is zero. -/
def div_by (x : Dbl) : Option Dbl → Dbl
  | none => ⟨0, 0⟩
  | some y => x.div y

/-- The integer part of a `double`. -/
def trunc (x : Dbl) : Nat := x.m * 2 ^ x.e.toNat / 2 ^ (-x.e).toNat

/-- The conversion `(uint64_t)x`: the integer part when it is below 2^64;
otherwise the result is undefined in C++ and is what the platform yields,
`oor` applied to the integer part, as a 64-bit value. -/
def to_uint64 (oor : Nat → Nat) (x : Dbl) : Nat :=
  if x.trunc < 2 ^ 64 then x.trunc else (oor x.trunc) % 2 ^ 64

end Dbl

/-- The method `std::vector::resize(n)` on a vector of pointers: keeps the
first `n` entries and pads with the default entry `d`. -/
def resize {α : Type} (l : List α) (n : Nat) (d : α) : List α :=
  l.take n ++ List.replicate (n - l.length) d

/-- The ways an execution can stop before returning. -/
inductive Fault where
  /-- A failed `assert`. -/
  | assertion
  /-- An index past the end of a `std::vector`. -/
  | out_of_range
deriving DecidableEq

/-! ## Collaborators declared outside the files embedded here -/

/-- Modelled from the spec: the shared `SimulationConfig` (its header is outside
the files embedded here): core clock frequency in MHz, element precision in
bytes per value, default setup latency of a parameter load. -/
structure SimulationConfig where
  core_freq : Nat
  precision : Nat
  expert_load_latency : Nat
deriving DecidableEq

/-- Modelled from the spec: the buffer class of a tensor (`NPUTensorBufType`
is declared outside the files embedded here); only `ACT` is used here. -/
inductive NPUTensorBufType where
  | WGT
  | KV
  | ACT
deriving DecidableEq

/-- Modelled from the spec: a tensor descriptor as seen through `Ptr<BTensor>`:
name, ordered dimension sequence, buffer class, and the flag passed last to the
`NPUTensor` constructor; a tensor is not changed after its creation.  The
reference to the producing operation, which the code embedded here never
reads or sets, is left out. -/
structure BTensor where
  _name : String
  _dims : List Nat
  _buf_type : NPUTensorBufType
  _produced : Bool
deriving DecidableEq

/-- Modelled from the spec: `BTensor::get_dims`, the dimension sequence. -/
def BTensor.get_dims (t : BTensor) : List Nat := t._dims

/-- One inner tensor of an `NPUTensor`; `_size` is its size in bytes. -/
structure NPUTensorInner where
  _size : Nat
deriving DecidableEq

/-- Modelled from the spec: an `NPUTensor` (declared in `tensor/NPUTensor.h`,
outside the files embedded here): a tensor descriptor stored as a vector of inner
tensors. -/
structure NPUTensor extends BTensor where
  _inners : List NPUTensorInner
deriving DecidableEq

/-- Modelled from the spec: the tensor built by
`std::make_shared<NPUTensor>(name, dims, buf_type, flag)`, seen through
`Ptr<BTensor>`. -/
def make_NPUTensor (name : String) (dims : List Nat) (buf_type : NPUTensorBufType)
    (flag : Bool) : BTensor :=
  { _name := name, _dims := dims, _buf_type := buf_type, _produced := flag }

/-- Modelled from the spec: the opcodes (the enumeration is declared outside
the files embedded here); `DUMMY` is the cost-injection opcode, the only one used
here. -/
inductive Opcode where
  | MOVIN
  | MOVOUT
  | GEMM
  | DUMMY
deriving DecidableEq

/-- Modelled from the spec: an instruction: opcode, destination address, size
(a cycle count for `DUMMY`), source addresses.  The `size` field is taken wide
enough for the value assigned to it. -/
structure Instruction where
  opcode : Opcode
  dest_addr : Nat
  size : Nat
  src_addrs : List Nat
deriving DecidableEq

/-- Modelled from the spec: the states of a tile. -/
inductive Tile.Status where
  | INITIALIZED
  | RUNNING
  | COMPLETED
deriving DecidableEq

/-- Modelled from the spec: a tile, with the fields the two operations set and
its instruction list. -/
structure Tile where
  status : Tile.Status
  optype : String
  operation_id : Nat
  batch : Nat
  K : Nat
  accum : Bool
  instructions : List Instruction
deriving DecidableEq

/-- Modelled from the spec: the state of the `Operation` base class
(`Operation.h` is outside the files embedded here): name, id, the configuration,
input slots, output list, tile list.  An empty slot is a null pointer. -/
structure Operation where
  _name : String
  _id : Nat
  _config : SimulationConfig
  _inputs : List (Option BTensor)
  _outputs : List (Option BTensor)
  _tiles : List Tile
deriving DecidableEq

/-- Modelled from the spec: the base constructor `Operation(name)`: the
operation gets its name, the id `id` handed out for it, the process-wide
configuration `cfg`, and no input slot, output or tile. -/
def Operation.new (cfg : SimulationConfig) (id : Nat) (name : String) : Operation :=
  { _name := name, _id := id, _config := cfg, _inputs := [], _outputs := [], _tiles := [] }

/-- Modelled from the spec: `Operation::get_name`. -/
def Operation.get_name (self : Operation) : String := self._name

/-- A dependency registration: the operation that produced `tensor` is a
predecessor of the operation `dependent`. -/
structure Dependency where
  tensor : BTensor
  dependent : Nat
deriving DecidableEq

/-- Modelled from the spec: `Operation::set_as_parent_tensor` (its body is
outside the files embedded here).  In the words of the specification output
binding "registers the input's producing Operation as a dependency
predecessor": for every tensor passed, the operation that produced it is
registered as a predecessor of this operation.  The result lists the
registrations made. -/
def Operation.set_as_parent_tensor (self : Operation) (inputs : List BTensor) :
    List Dependency :=
  inputs.map (fun t => { tensor := t, dependent := self._id })

/-- The state an output-binding call leaves behind: the operation, the
dependency registrations the call made, and the returned vector or the fault
that stopped the call. -/
structure Binding (Op : Type) where
  self : Op
  registered : List Dependency
  result : Except Fault (List (Option BTensor))

/-! ## ActivationMovement -/

/-- The fields of `class ActivationMovement : public Operation`. -/
structure ActivationMovement extends Operation where
  _num_tokens : Nat
  _E : Nat
  _activation_size_bytes : Nat
  _movement_cycles : Nat
deriving DecidableEq

/-- The values passed to the `spdlog::info` call that ends
`calculate_movement_cycles`. -/
structure MovementLog where
  num_tokens : Nat
  E : Nat
  activation_size_bytes : Nat
  movement_cycles : Nat
  transfer_cycles : Nat
  base_latency : Nat
  size_overhead : Nat
  hbm_overhead : Nat
  variance : Nat
  write_overhead : Nat
deriving DecidableEq

/-- The test `name.find("activation_movement_2") != std::string::npos`. -/
def name_has_movement_2 (name : String) : Bool :=
  decide ("activation_movement_2".data <:+: name.data)

/-- The method `ActivationMovement::calculate_movement_cycles`: the object
with `_movement_cycles` set, and the logged breakdown.  `oor` is what the
platform yields when a `double` of 2^64 or more is converted to `uint64_t`. -/
def ActivationMovement.calculate_movement_cycles (oor : Nat → Nat) (self : ActivationMovement) :
    ActivationMovement × MovementLog :=
  let icnt_bandwidth_gbps : Nat := 22
  let core_freq_mhz : Nat := u32 self._config.core_freq
  let bytes_per_cycle : Option Dbl :=
    Dbl.div_or_inf ((Dbl.of_uint icnt_bandwidth_gbps).mul (Dbl.of_decimal (10 ^ 9) 1))
      ((Dbl.of_uint core_freq_mhz).mul (Dbl.of_decimal (10 ^ 6) 1))
  let transfer_cycles : Nat :=
    Dbl.to_uint64 oor ((Dbl.of_uint self._activation_size_bytes).div_by bytes_per_cycle)
  let base_latency : Nat := 1000
  let size_overhead : Nat :=
    if self._activation_size_bytes < 64 * 1024 then 500
    else if self._activation_size_bytes < 1024 * 1024 then 300
    else if self._activation_size_bytes < 8 * 1024 * 1024 then 100
    else 0
  let hbm_overhead : Nat :=
    if self._activation_size_bytes > 4 * 1024 * 1024 then
      (self._activation_size_bytes / (4 * 1024 * 1024)) * 200
    else 0
  let variance : Nat :=
    Dbl.to_uint64 oor ((Dbl.of_uint transfer_cycles).mul (Dbl.of_decimal 10 100))
  let variance : Nat := variance / 2
  let write_overhead : Nat := if name_has_movement_2 self._name then 200 else 0
  let movement_cycles : Nat :=
    u32 (u64 (transfer_cycles + base_latency + size_overhead + hbm_overhead + variance
      + write_overhead))
  ({ self with _movement_cycles := movement_cycles },
   { num_tokens := self._num_tokens, E := self._E,
     activation_size_bytes := self._activation_size_bytes,
     movement_cycles := movement_cycles, transfer_cycles := transfer_cycles,
     base_latency := base_latency, size_overhead := size_overhead,
     hbm_overhead := hbm_overhead, variance := variance, write_overhead := write_overhead })

/-- The constructor `ActivationMovement(name, num_tokens, E)`, for the
configuration `cfg` and the operation id `id`; `num_tokens` and `E` are the
values of its `uint32_t` parameters.  The second component is the diagnostic
record the construction logs. -/
def ActivationMovement.new (oor : Nat → Nat) (cfg : SimulationConfig) (id : Nat) (name : String)
    (num_tokens E : Nat) : ActivationMovement × MovementLog :=
  let base := Operation.new cfg id name
  let self : ActivationMovement :=
    { base with
      _num_tokens := num_tokens, _E := E,
      _activation_size_bytes := u64 (num_tokens * E * base._config.precision),
      _movement_cycles := 0 }
  let self : ActivationMovement := { self with _inputs := resize self._inputs 1 none }
  self.calculate_movement_cycles oor

/-- The method `ActivationMovement::initialize_tiles`; `ACCUM_SPAD_BASE` is the
address constant of that name, defined outside the files embedded here. -/
def ActivationMovement.initialize_tiles (ACCUM_SPAD_BASE : Nat) (self : ActivationMovement) :
    ActivationMovement :=
  let tile : Tile :=
    { status := Tile.Status.INITIALIZED, optype := self.get_name, operation_id := self._id,
      batch := 0, K := 0, accum := false, instructions := [] }
  let tile : Tile :=
    { tile with
      instructions := tile.instructions ++
        [{ opcode := Opcode.DUMMY, dest_addr := ACCUM_SPAD_BASE, size := self._movement_cycles,
           src_addrs := [] }] }
  { self with _tiles := self._tiles ++ [tile] }

/-- The method `ActivationMovement::get_outputs`. -/
def ActivationMovement.get_outputs (ACCUM_SPAD_BASE : Nat) (self : ActivationMovement)
    (inputs : List BTensor) : Binding ActivationMovement :=
  let registered := self.set_as_parent_tensor inputs
  if inputs.length = 1 then
    match inputs[0]? with
    | none => { self := self, registered := registered, result := .error .out_of_range }
    | some input0 =>
      let self : ActivationMovement := { self with _inputs := self._inputs.set 0 (some input0) }
      let input_dim := input0.get_dims
      let self : ActivationMovement := { self with _outputs := resize self._outputs 1 none }
      let self : ActivationMovement :=
        { self with
          _outputs := self._outputs.set 0
            (some (make_NPUTensor (self._name ++ "_output") input_dim NPUTensorBufType.ACT false)) }
      let self := self.initialize_tiles ACCUM_SPAD_BASE
      { self := self, registered := registered, result := .ok self._outputs }
  else { self := self, registered := registered, result := .error .assertion }

/-! ## ExpertParamLoad -/

/-- The fields of `class ExpertParamLoad : public Operation`.  The header
`ExpertParamLoad.h` is outside the files embedded here: `_param_size_bytes` is
taken to be 64 bits wide, like the local `param_bytes` it is copied to, and the
width of `_load_cycles` is a parameter of the functions that assign it. -/
structure ExpertParamLoad extends Operation where
  _expert_id : Nat
  _data_tensor : BTensor
  _expert_weights : List NPUTensor
  _param_size_bytes : Nat
  _load_cycles : Nat
deriving DecidableEq

/-- The values passed to the `spdlog::info` call that ends
`calculate_load_cycles`. -/
structure ParamLoadLog where
  expert_id : Nat
  param_bytes : Nat
  load_cycles : Nat
  transfer_cycles : Nat
  base_latency : Nat
  size_overhead : Nat
  hbm_overhead : Nat
  variance : Nat
deriving DecidableEq

/-- The method `ExpertParamLoad::calculate_load_cycles`: the object with
`_load_cycles` set, and the logged breakdown.  `oor` is what the platform yields
when a `double` of 2^64 or more is converted to `uint64_t`; `load_cycles_bits` is
the width in bits of the unsigned field `_load_cycles`. -/
def ExpertParamLoad.calculate_load_cycles (oor : Nat → Nat) (load_cycles_bits : Nat)
    (self : ExpertParamLoad) : ExpertParamLoad × ParamLoadLog :=
  let param_bytes : Nat := u64 self._param_size_bytes
  let icnt_bandwidth_gbps : Nat := 22
  let core_freq_mhz : Nat := u32 self._config.core_freq
  let bytes_per_cycle : Option Dbl :=
    Dbl.div_or_inf ((Dbl.of_uint icnt_bandwidth_gbps).mul (Dbl.of_decimal (10 ^ 9) 1))
      ((Dbl.of_uint core_freq_mhz).mul (Dbl.of_decimal (10 ^ 6) 1))
  let transfer_cycles : Nat :=
    Dbl.to_uint64 oor ((Dbl.of_uint param_bytes).div_by bytes_per_cycle)
  let base_latency : Nat := u64 self._config.expert_load_latency
  let size_overhead : Nat :=
    if param_bytes < 64 * 1024 then 500
    else if param_bytes < 1024 * 1024 then 300
    else if param_bytes < 8 * 1024 * 1024 then 100
    else 0
  let hbm_overhead : Nat :=
    if param_bytes > 4 * 1024 * 1024 then (param_bytes / (4 * 1024 * 1024)) * 200 else 0
  let variance : Nat :=
    Dbl.to_uint64 oor ((Dbl.of_uint transfer_cycles).mul (Dbl.of_decimal 7 100))
  let variance : Nat := variance / 2
  let load_cycles : Nat :=
    u64 (transfer_cycles + base_latency + size_overhead + hbm_overhead + variance)
      % 2 ^ load_cycles_bits
  ({ self with _load_cycles := load_cycles },
   { expert_id := self._expert_id, param_bytes := param_bytes, load_cycles := load_cycles,
     transfer_cycles := transfer_cycles, base_latency := base_latency,
     size_overhead := size_overhead, hbm_overhead := hbm_overhead, variance := variance })

/-- The loop `for (auto weight : expert_weights) _param_size_bytes +=
weight->_inners[0]->_size;` started with the running total `acc`. -/
def ExpertParamLoad.sum_param_size : List NPUTensor → Nat → Except Fault Nat
  | [], acc => .ok acc
  | weight :: rest, acc =>
    match weight._inners[0]? with
    | none => .error .out_of_range
    | some inner => ExpertParamLoad.sum_param_size rest (u64 (acc + inner._size))

/-- The loop `for (i = 0; i < expert_weights.size(); ++i) _inputs[i + 1] =
expert_weights[i];` from index `i` on, `rest` being the weights not yet
stored. -/
def ExpertParamLoad.store_weights : List NPUTensor → Nat → List (Option BTensor) →
    List (Option BTensor)
  | [], _, slots => slots
  | weight :: rest, i, slots =>
    ExpertParamLoad.store_weights rest (i + 1) (slots.set (i + 1) (some weight.toBTensor))

/-- The constructor `ExpertParamLoad(name, expert_id, expert_weights,
data_tensor)`, for the configuration `cfg` and the operation id `id`; the second
component is the diagnostic record the construction logs. -/
def ExpertParamLoad.new (oor : Nat → Nat) (load_cycles_bits : Nat) (cfg : SimulationConfig)
    (id : Nat) (name : String) (expert_id : Nat) (expert_weights : List NPUTensor)
    (data_tensor : BTensor) : Except Fault (ExpertParamLoad × ParamLoadLog) :=
  let base := Operation.new cfg id name
  match ExpertParamLoad.sum_param_size expert_weights 0 with
  | .error f => .error f
  | .ok param_size_bytes =>
    let self : ExpertParamLoad :=
      { base with
        _expert_id := expert_id, _data_tensor := data_tensor, _expert_weights := expert_weights,
        _param_size_bytes := param_size_bytes, _load_cycles := 0 }
    let self : ExpertParamLoad :=
      { self with _inputs := resize self._inputs (expert_weights.length + 1) none }
    let self : ExpertParamLoad :=
      { self with _inputs := ExpertParamLoad.store_weights expert_weights 0 self._inputs }
    .ok (self.calculate_load_cycles oor load_cycles_bits)

/-- The method `ExpertParamLoad::initialize_tiles`; `ACCUM_SPAD_BASE` is the
address constant of that name, defined outside the files embedded here. -/
def ExpertParamLoad.initialize_tiles (ACCUM_SPAD_BASE : Nat) (self : ExpertParamLoad) :
    ExpertParamLoad :=
  let tile : Tile :=
    { status := Tile.Status.INITIALIZED, optype := self.get_name, operation_id := self._id,
      batch := 0, K := 0, accum := false, instructions := [] }
  let tile : Tile :=
    { tile with
      instructions := tile.instructions ++
        [{ opcode := Opcode.DUMMY, dest_addr := ACCUM_SPAD_BASE, size := self._load_cycles,
           src_addrs := [] }] }
  { self with _tiles := self._tiles ++ [tile] }

/-- The method `ExpertParamLoad::get_outputs`. -/
def ExpertParamLoad.get_outputs (ACCUM_SPAD_BASE : Nat) (self : ExpertParamLoad)
    (inputs : List BTensor) : Binding ExpertParamLoad :=
  let registered := self.set_as_parent_tensor inputs
  if inputs.length = 1 then
    match inputs[0]? with
    | none => { self := self, registered := registered, result := .error .out_of_range }
    | some input0 =>
      let self : ExpertParamLoad := { self with _inputs := self._inputs.set 0 (some input0) }
      let self : ExpertParamLoad := { self with _outputs := resize self._outputs 2 none }
      let self : ExpertParamLoad :=
        { self with
          _outputs := self._outputs.set 0
            (some (make_NPUTensor (self._name ++ "_data_output") self._data_tensor.get_dims
              NPUTensorBufType.ACT false)) }
      let self : ExpertParamLoad :=
        { self with
          _outputs := self._outputs.set 1
            (some (make_NPUTensor (self._name ++ "_completion_signal") [1]
              NPUTensorBufType.ACT false)) }
      let self := self.initialize_tiles ACCUM_SPAD_BASE
      { self := self, registered := registered, result := .ok self._outputs }
  else { self := self, registered := registered, result := .error .assertion }

/-! ## The floating-point terms of the two cost computations -/

/-- The value of `(double)icnt_bandwidth_gbps * 1e9 / (core_freq_mhz * 1e6)` with
`icnt_bandwidth_gbps = 22`; `none` is `+∞`. -/
def code_bytes_per_cycle (core_freq_mhz : Nat) : Option Dbl :=
  Dbl.div_or_inf ((Dbl.of_uint 22).mul (Dbl.of_decimal (10 ^ 9) 1))
    ((Dbl.of_uint core_freq_mhz).mul (Dbl.of_decimal (10 ^ 6) 1))

/-- The `double` `bytes / bytes_per_cycle` that both computations convert to
`transfer_cycles`. -/
def code_transfer_quotient (core_freq_mhz bytes : Nat) : Dbl :=
  (Dbl.of_uint bytes).div_by (code_bytes_per_cycle core_freq_mhz)

/-- The value both computations give `transfer_cycles`. -/
def code_transfer_cycles (oor : Nat → Nat) (core_freq_mhz bytes : Nat) : Nat :=
  Dbl.to_uint64 oor (code_transfer_quotient core_freq_mhz bytes)

/-- The `double` `transfer_cycles * 0.10` (resp. `transfer_cycles * 0.07`), the
literal being `num / den`. -/
def code_variance_product (num den transfer_cycles : Nat) : Dbl :=
  (Dbl.of_uint transfer_cycles).mul (Dbl.of_decimal num den)

/-- The value both computations give `variance`: the product converted to
`uint64_t`, then halved. -/
def code_variance (oor : Nat → Nat) (num den transfer_cycles : Nat) : Nat :=
  Dbl.to_uint64 oor (code_variance_product num den transfer_cycles) / 2

/-- The six-term sum of `calculate_movement_cycles` before it is reduced to the
width of a machine integer. -/
def code_movement_sum (oor : Nat → Nat) (core_freq_mhz bytes : Nat) (write_back : Bool) : Nat :=
  code_transfer_cycles oor core_freq_mhz bytes + 1000
    + (if bytes < 64 * 1024 then 500 else if bytes < 1024 * 1024 then 300
        else if bytes < 8 * 1024 * 1024 then 100 else 0)
    + (if bytes > 4 * 1024 * 1024 then (bytes / (4 * 1024 * 1024)) * 200 else 0)
    + code_variance oor 10 100 (code_transfer_cycles oor core_freq_mhz bytes)
    + (if write_back then 200 else 0)

/-- The five-term sum of `calculate_load_cycles` before it is reduced to the
width of a machine integer. -/
def code_load_sum (oor : Nat → Nat) (core_freq_mhz base_latency bytes : Nat) : Nat :=
  code_transfer_cycles oor core_freq_mhz bytes + base_latency
    + (if bytes < 64 * 1024 then 500 else if bytes < 1024 * 1024 then 300
        else if bytes < 8 * 1024 * 1024 then 100 else 0)
    + (if bytes > 4 * 1024 * 1024 then (bytes / (4 * 1024 * 1024)) * 200 else 0)
    + code_variance oor 7 100 (code_transfer_cycles oor core_freq_mhz bytes)

/-! ## The cost model in the words of the specification -/

/-- The step function `size_tier_overhead` of the specification:
`[0, 64KiB) → 500`, `[64KiB, 1MiB) → 300`, `[1MiB, 8MiB) → 100`, `[8MiB, ∞) → 0`. -/
def spec_size_tier_overhead (b : Nat) : Nat :=
  if b < 65536 then 500
  else if 65536 ≤ b ∧ b < 1048576 then 300
  else if 1048576 ≤ b ∧ b < 8388608 then 100
  else 0

/-- The function `hbm_overhead` of the specification: `0` if
`transfer_bytes ≤ 4MiB`, else `floor(transfer_bytes / 4MiB) × 200`. -/
def spec_hbm_overhead (b : Nat) : Nat :=
  if b ≤ 4194304 then 0 else b / 4194304 * 200

/-- The quantity `transfer_cycles = floor(transfer_bytes / bytes_per_cycle)` of
the specification, with `bytes_per_cycle = 22 × 1e9 / (core_freq × 1e6)`, that
is `22 × 1000 / core_freq`. -/
def spec_transfer_cycles (core_freq b : Nat) : Nat :=
  ⌊(b : ℚ) / (22 * 1000 / (core_freq : ℚ))⌋₊

/-- The quantity `variance = floor(transfer_cycles × variance_fraction / 2)` of
the specification. -/
def spec_variance (variance_fraction : ℚ) (transfer_cycles : Nat) : Nat :=
  ⌊(transfer_cycles : ℚ) * variance_fraction / 2⌋₊

/-- The term `direction_overhead` of the specification: 200 for a write-back
instance, 0 for a read instance. -/
def spec_direction_overhead (write_back : Bool) : Nat :=
  if write_back then 200 else 0

/-- The sum `total_cost` of the specification for an activation movement of
`b` bytes. -/
def spec_movement_cost (core_freq b : Nat) (write_back : Bool) : Nat :=
  spec_transfer_cycles core_freq b + 1000 + spec_size_tier_overhead b + spec_hbm_overhead b
    + spec_variance (10 / 100) (spec_transfer_cycles core_freq b)
    + spec_direction_overhead write_back

/-- The sum `total_cost` of the specification for a parameter load of `b`
bytes with setup latency `base_latency`. -/
def spec_load_cost (core_freq base_latency b : Nat) : Nat :=
  spec_transfer_cycles core_freq b + base_latency + spec_size_tier_overhead b
    + spec_hbm_overhead b + spec_variance (7 / 100) (spec_transfer_cycles core_freq b)

/-! ## The tile of a data movement -/

/-- The tile `initialize_tiles` appends: status INITIALIZED, one DUMMY
instruction of the given size with no source address. -/
def cost_tile (ACCUM_SPAD_BASE : Nat) (optype : String) (operation_id size : Nat) : Tile :=
  { status := Tile.Status.INITIALIZED, optype := optype, operation_id := operation_id,
    batch := 0, K := 0, accum := false,
    instructions :=
      [{ opcode := Opcode.DUMMY, dest_addr := ACCUM_SPAD_BASE, size := size, src_addrs := [] }] }

/-! ## Fixtures for the concrete instances -/

/-- The configuration of the end-to-end examples: 1000 MHz, 2 bytes per value,
setup latency 1000. -/
def example_config : SimulationConfig :=
  { core_freq := 1000, precision := 2, expert_load_latency := 1000 }

/-- A platform whose conversion to `uint64_t` yields 0 for a `double` of 2^64 or
more, as the code x86-64 compilers emit for the conversion does. -/
def example_conversion : Nat → Nat := fun _ => 0

/-- A platform whose conversion to `uint64_t` saturates: it yields 2^64 - 1 for
a `double` of 2^64 or more, as the conversion instruction of AArch64 does. -/
def example_saturating_conversion : Nat → Nat := fun _ => 2 ^ 64 - 1

/-- A configuration with a 2500 MHz clock (8.8 bytes per cycle, not a binary64
number), 2 bytes per value, setup latency 1000. -/
def example_config_2500 : SimulationConfig :=
  { core_freq := 2500, precision := 2, expert_load_latency := 1000 }

/-- A configuration with the largest clock a `uint32_t` holds, 4294967295 MHz. -/
def example_config_max : SimulationConfig :=
  { core_freq := 4294967295, precision := 2, expert_load_latency := 1000 }

/-- An activation tensor descriptor with the given name and dimensions. -/
def example_tensor (name : String) (dims : List Nat) : BTensor :=
  make_NPUTensor name dims NPUTensorBufType.ACT false

/-- A weight tensor stored as one inner tensor of `size` bytes. -/
def example_weight (name : String) (dims : List Nat) (size : Nat) : NPUTensor :=
  { toBTensor := make_NPUTensor name dims NPUTensorBufType.WGT true,
    _inners := [{ _size := size }] }

/-- The two weight tensors of example B: 8 MiB each, 16 MiB in total. -/
def example_weights : List NPUTensor :=
  [example_weight "fc1" [4096, 1024] 8388608, example_weight "fc2" [1024, 4096] 8388608]

/-- The state of the ExpertParamLoad of example B when its constructor calls
`calculate_load_cycles`. -/
def example_load : ExpertParamLoad :=
  { _name := "expert_0_param_load", _id := 0, _config := example_config,
    _inputs := ExpertParamLoad.store_weights example_weights 0
      (resize [] (example_weights.length + 1) none),
    _outputs := [], _tiles := [], _expert_id := 0,
    _data_tensor := example_tensor "x" [1, 4096], _expert_weights := example_weights,
    _param_size_bytes := 16777216, _load_cycles := 0 }

/-! ## Repeated output binding -/

/-- A caller that binds the outputs of one ActivationMovement once per tensor
of the list, each call being passed that single tensor; the result is the
operation after the last call. -/
def ActivationMovement.bind_each (ACCUM_SPAD_BASE : Nat) :
    ActivationMovement → List BTensor → ActivationMovement
  | self, [] => self
  | self, t :: rest =>
    ActivationMovement.bind_each ACCUM_SPAD_BASE (self.get_outputs ACCUM_SPAD_BASE [t]).self rest

/-- A caller that binds the outputs of one ExpertParamLoad once per tensor of
the list, each call being passed that single tensor; the result is the
operation after the last call. -/
def ExpertParamLoad.bind_each (ACCUM_SPAD_BASE : Nat) :
    ExpertParamLoad → List BTensor → ExpertParamLoad
  | self, [] => self
  | self, t :: rest =>
    ExpertParamLoad.bind_each ACCUM_SPAD_BASE (self.get_outputs ACCUM_SPAD_BASE [t]).self rest

/-! ## The transfer size in the words of the specification -/

/-- The byte size of a weight tensor: the sizes of all the inner tensors it is
stored as, together. -/
def NPUTensor.byte_size (t : NPUTensor) : Nat :=
  (t._inners.map (fun inner => inner._size)).sum

/-- The quantity `transfer_bytes = sum of weight-tensor byte sizes` of the
specification. -/
def spec_transfer_bytes (weights : List NPUTensor) : Nat :=
  (weights.map NPUTensor.byte_size).sum

/-- A weight tensor stored as two inner tensors of `size` bytes each. -/
def example_split_weight (name : String) (dims : List Nat) (size : Nat) : NPUTensor :=
  { toBTensor := make_NPUTensor name dims NPUTensorBufType.WGT true,
    _inners := [{ _size := size }, { _size := size }] }

/-- A weight tensor descriptor with no inner tensor. -/
def example_hollow_weight (name : String) (dims : List Nat) : NPUTensor :=
  { toBTensor := make_NPUTensor name dims NPUTensorBufType.WGT true, _inners := [] }

/-! ## The untruncated total -/

/-- The sum of the six terms logged by `calculate_movement_cycles`, before it is
stored in the 32-bit field. -/
def MovementLog.total (log : MovementLog) : Nat :=
  log.transfer_cycles + log.base_latency + log.size_overhead + log.hbm_overhead + log.variance
    + log.write_overhead

/-- The sum of the five terms logged by `calculate_load_cycles`, before it is
stored in the field `_load_cycles`. -/
def ParamLoadLog.total (log : ParamLoadLog) : Nat :=
  log.transfer_cycles + log.base_latency + log.size_overhead + log.hbm_overhead + log.variance

/-- The state of an ExpertParamLoad of 16 MiB held in one weight tensor, with
another name, id, expert id and data tensor than `example_load`, when its
constructor calls `calculate_load_cycles`. -/
def example_load_other : ExpertParamLoad :=
  { _name := "expert_1_param_load", _id := 5, _config := example_config,
    _inputs := ExpertParamLoad.store_weights [example_weight "fc" [4096, 2048] 16777216] 0
      (resize [] ([example_weight "fc" [4096, 2048] 16777216].length + 1) none),
    _outputs := [], _tiles := [], _expert_id := 1,
    _data_tensor := example_tensor "y" [8, 4096],
    _expert_weights := [example_weight "fc" [4096, 2048] 16777216],
    _param_size_bytes := 16777216, _load_cycles := 0 }

/-! ## Binary64: rounding to nearest -/

namespace Dbl

theorem log2_fuel_spec : ∀ (fuel n : Nat), n ≤ fuel → n ≠ 0 →
    2 ^ log2_fuel fuel n ≤ n ∧ n < 2 ^ (log2_fuel fuel n + 1) := by
  intro fuel
  induction fuel with
  | zero => intro n h h0; omega
  | succ fuel ih =>
    intro n h h0
    unfold log2_fuel
    split_ifs with h2
    · constructor <;> simp <;> omega
    · have := ih (n / 2) (by omega) (by omega)
      obtain ⟨h3, h4⟩ := this
      constructor
      · rw [pow_succ]; omega
      · rw [pow_succ]; omega

theorem ilog2_spec (n : Nat) (h : n ≠ 0) : 2 ^ ilog2 n ≤ n ∧ n < 2 ^ (ilog2 n + 1) :=
  log2_fuel_spec n n le_rfl h

theorem rhe_ge (N D : Nat) : N / D ≤ round_half_even N D := by
  unfold round_half_even; split_ifs <;> omega

theorem rhe_le (N D : Nat) : round_half_even N D ≤ N / D + 1 := by
  unfold round_half_even; split_ifs <;> omega

theorem rhe_of_dvd (K D : Nat) (hD : 0 < D) : round_half_even (K * D) D = K := by
  unfold round_half_even
  have h1 : K * D % D = 0 := Nat.mul_mod_left K D
  have h2 : K * D / D = K := Nat.mul_div_cancel K hD
  rw [h1, h2]
  simp [hD]

theorem rhe_mono (N1 D1 N2 D2 : Nat) (h1 : 0 < D1) (h2 : 0 < D2) (h : N1 * D2 ≤ N2 * D1) :
    round_half_even N1 D1 ≤ round_half_even N2 D2 := by
  have hq : N1 / D1 ≤ N2 / D2 := by
    rw [Nat.le_div_iff_mul_le h2]
    have : N1 / D1 * D1 ≤ N1 := Nat.div_mul_le_self N1 D1
    have h3 : N1 / D1 * D2 * D1 ≤ N2 * D1 := by
      calc N1 / D1 * D2 * D1 = N1 / D1 * D1 * D2 := by ring
        _ ≤ N1 * D2 := Nat.mul_le_mul_right D2 this
        _ ≤ N2 * D1 := h
    exact Nat.le_of_mul_le_mul_right h3 h1
  rcases Nat.lt_or_ge (N1 / D1) (N2 / D2) with hlt | hge
  · exact le_trans (rhe_le N1 D1) (le_trans hlt (rhe_ge N2 D2))
  · have heq : N1 / D1 = N2 / D2 := le_antisymm hq hge
    have e1 := Nat.div_add_mod N1 D1
    have e2 := Nat.div_add_mod N2 D2
    -- remainders
    have hr : N1 % D1 * D2 ≤ N2 % D2 * D1 := by
      have : (D1 * (N1 / D1) + N1 % D1) * D2 ≤ (D2 * (N2 / D2) + N2 % D2) * D1 := by
        rw [e1, e2]; exact h
      rw [heq] at this
      nlinarith
    unfold round_half_even
    rw [heq]
    split_ifs with a1 a2 a3 a4 a5 a6 a7 a8 <;> try omega
    all_goals (exfalso; nlinarith)

theorem two_zpow_toNat (t : Int) :
    ((2 : ℚ) ^ (-t).toNat) / (2 : ℚ) ^ t.toNat = (2 : ℚ) ^ (-t) := by
  rcases le_or_lt 0 t with h | h
  · have h1 : (-t).toNat = 0 := Int.toNat_eq_zero.mpr (by omega)
    have h2 : ((t.toNat : ℕ) : ℤ) = t := Int.toNat_of_nonneg h
    rw [h1, pow_zero, zpow_neg, one_div]
    congr 1
    rw [← zpow_natCast, h2]
  · have h1 : t.toNat = 0 := Int.toNat_eq_zero.mpr (by omega)
    have h2 : (((-t).toNat : ℕ) : ℤ) = -t := Int.toNat_of_nonneg (by omega)
    rw [h1, pow_zero, div_one, ← zpow_natCast, h2]

theorem scale_bounds (n d : Nat) (hn : n ≠ 0) (hd : d ≠ 0) :
    2 ^ 51 * (d * 2 ^ ((ilog2 n : Int) - (ilog2 d : Int) - 52).toNat)
        ≤ n * 2 ^ (-((ilog2 n : Int) - (ilog2 d : Int) - 52)).toNat
    ∧ n * 2 ^ (-((ilog2 n : Int) - (ilog2 d : Int) - 52)).toNat
        < 2 ^ 53 * (d * 2 ^ ((ilog2 n : Int) - (ilog2 d : Int) - 52).toNat) := by
  obtain ⟨ha1, ha2⟩ := ilog2_spec n hn
  obtain ⟨hb1, hb2⟩ := ilog2_spec d hd
  generalize ilog2 n = a at *
  generalize ilog2 d = b at *
  rcases le_or_lt (0 : Int) ((a : Int) - (b : Int) - 52) with h | h
  · obtain ⟨k, hk⟩ : ∃ k : Nat, a = b + 52 + k := ⟨a - b - 52, by omega⟩
    subst hk
    have h1 : (-(((b + 52 + k : ℕ) : Int) - (b : Int) - 52)).toNat = 0 := by
      apply Int.toNat_eq_zero.mpr; omega
    have h2 : ((((b + 52 + k : ℕ) : Int) - (b : Int) - 52)).toNat = k := by omega
    rw [h1, h2, pow_zero, mul_one]
    have e1 : 2 ^ (b + 52 + k) = 2 ^ 51 * (2 ^ (b + 1) * 2 ^ k) := by ring
    have e2 : 2 ^ (b + 52 + k + 1) = 2 ^ 53 * (2 ^ b * 2 ^ k) := by ring
    have hk : 0 < 2 ^ k := by positivity
    constructor
    · have : d * 2 ^ k ≤ 2 ^ (b + 1) * 2 ^ k := Nat.mul_le_mul_right _ hb2.le
      calc 2 ^ 51 * (d * 2 ^ k) ≤ 2 ^ 51 * (2 ^ (b + 1) * 2 ^ k) := Nat.mul_le_mul_left _ this
        _ = 2 ^ (b + 52 + k) := e1.symm
        _ ≤ n := ha1
    · have : 2 ^ b * 2 ^ k ≤ d * 2 ^ k := Nat.mul_le_mul_right _ hb1
      calc n < 2 ^ (b + 52 + k + 1) := ha2
        _ = 2 ^ 53 * (2 ^ b * 2 ^ k) := e2
        _ ≤ 2 ^ 53 * (d * 2 ^ k) := Nat.mul_le_mul_left _ this
  · obtain ⟨k, hk⟩ : ∃ k : Nat, b + 52 = a + k := ⟨b + 52 - a, by omega⟩
    have h1 : (-(((a : ℕ) : Int) - (b : Int) - 52)).toNat = k := by omega
    have h2 : ((((a : ℕ) : Int) - (b : Int) - 52)).toNat = 0 := by
      apply Int.toNat_eq_zero.mpr; omega
    rw [h1, h2, pow_zero, mul_one]
    have e1 : 2 ^ 51 * 2 ^ (b + 1) = 2 ^ (a + k) := by rw [← hk]; ring
    have e2 : 2 ^ (a + 1) * 2 ^ k = 2 ^ 53 * 2 ^ b := by
      have : 2 ^ (a + 1) * 2 ^ k = 2 * 2 ^ (a + k) := by ring
      rw [this, ← hk]; ring
    have hk0 : 0 < 2 ^ k := by positivity
    constructor
    · calc 2 ^ 51 * d ≤ 2 ^ 51 * 2 ^ (b + 1) := Nat.mul_le_mul_left _ hb2.le
        _ = 2 ^ (a + k) := e1
        _ = 2 ^ a * 2 ^ k := by ring
        _ ≤ n * 2 ^ k := Nat.mul_le_mul_right _ ha1
    · calc n * 2 ^ k < 2 ^ (a + 1) * 2 ^ k := Nat.mul_lt_mul_of_pos_right ha2 hk0
        _ = 2 ^ 53 * 2 ^ b := e2
        _ ≤ 2 ^ 53 * d := Nat.mul_le_mul_left _ hb1

/-- What `rne` returns for a positive quotient. -/
theorem rne_spec (n d : Nat) (s : Int) (hn : n ≠ 0) (hd : d ≠ 0) :
    ∃ N D : Nat, 0 < D ∧ 2 ^ 52 * D ≤ N ∧ N < 2 ^ 53 * D
      ∧ ((N : ℚ) / (D : ℚ)) * (2 : ℚ) ^ (rne n d s).e = (n : ℚ) / (d : ℚ) * (2 : ℚ) ^ s
      ∧ (rne n d s).m = round_half_even N D := by
  obtain ⟨hb1, hb2⟩ := scale_bounds n d hn hd
  have hval := two_zpow_toNat ((ilog2 n : Int) - (ilog2 d : Int) - 52)
  unfold rne
  rw [if_neg hn]
  simp only
  generalize ((ilog2 n : Int) - (ilog2 d : Int) - 52) = t at *
  have hdq : (d : ℚ) ≠ 0 := by exact_mod_cast hd
  have hD : 0 < d * 2 ^ t.toNat := by positivity
  have hp : (2 : ℚ) ^ t.toNat ≠ 0 := by positivity
  have key : ((n * 2 ^ (-t).toNat : ℕ) : ℚ) / ((d * 2 ^ t.toNat : ℕ) : ℚ)
      = (n : ℚ) / (d : ℚ) * (2 : ℚ) ^ (-t) := by
    rw [← hval]; push_cast; field_simp
  split_ifs with hlt
  · refine ⟨2 * (n * 2 ^ (-t).toNat), d * 2 ^ t.toNat, hD, by omega, by omega, ?_, rfl⟩
    have : ((2 * (n * 2 ^ (-t).toNat) : ℕ) : ℚ) / ((d * 2 ^ t.toNat : ℕ) : ℚ)
        = 2 * ((n : ℚ) / (d : ℚ) * (2 : ℚ) ^ (-t)) := by
      rw [← key]; push_cast; ring
    rw [this]
    have e : (2 : ℚ) ^ (t - 1 + s) = (2 : ℚ) ^ t * (2 : ℚ) ^ (-1 : ℤ) * (2 : ℚ) ^ s := by
      rw [← zpow_add₀ (two_ne_zero), ← zpow_add₀ (two_ne_zero)]; congr 1
    rw [e, zpow_neg, zpow_neg]
    have ht : (2 : ℚ) ^ t ≠ 0 := by positivity
    field_simp
    ring
  · refine ⟨n * 2 ^ (-t).toNat, d * 2 ^ t.toNat, hD, by omega, hb2, ?_, rfl⟩
    rw [key, zpow_add₀ (two_ne_zero), zpow_neg]
    have ht : (2 : ℚ) ^ t ≠ 0 := by positivity
    field_simp
    ring

theorem val_nonneg (x : Dbl) : 0 ≤ x.val := by unfold val; positivity

theorem rne_zero (d : Nat) (s : Int) : rne 0 d s = ⟨0, 0⟩ := by simp [rne]

theorem rhe_bounds (N D : Nat) (hD : 0 < D) (h1 : 2 ^ 52 * D ≤ N) (h2 : N < 2 ^ 53 * D) :
    2 ^ 52 ≤ round_half_even N D ∧ round_half_even N D ≤ 2 ^ 53 := by
  have a : 2 ^ 52 ≤ N / D := (Nat.le_div_iff_mul_le hD).mpr h1
  have b : N / D < 2 ^ 53 := (Nat.div_lt_iff_lt_mul hD).mpr h2
  exact ⟨le_trans a (rhe_ge N D), le_trans (rhe_le N D) b⟩

/-- Rounding is monotone. -/
theorem rne_mono (n1 d1 n2 d2 : Nat) (s1 s2 : Int) (hd1 : d1 ≠ 0) (hd2 : d2 ≠ 0)
    (h : (n1 : ℚ) / (d1 : ℚ) * (2 : ℚ) ^ s1 ≤ (n2 : ℚ) / (d2 : ℚ) * (2 : ℚ) ^ s2) :
    (rne n1 d1 s1).val ≤ (rne n2 d2 s2).val := by
  rcases Nat.eq_zero_or_pos n1 with h0 | h0
  · subst h0; rw [rne_zero]; simp only [val]; simp; exact val_nonneg _
  have hn2 : n2 ≠ 0 := by
    rintro rfl
    have hpos : (0 : ℚ) < (n1 : ℚ) / (d1 : ℚ) * (2 : ℚ) ^ s1 := by
      have : (0 : ℚ) < n1 := by exact_mod_cast h0
      have : (0 : ℚ) < d1 := by exact_mod_cast Nat.pos_of_ne_zero hd1
      positivity
    simp at h
    linarith
  obtain ⟨N1, D1, hD1, a1, b1, v1, m1⟩ := rne_spec n1 d1 s1 (by omega) hd1
  obtain ⟨N2, D2, hD2, a2, b2, v2, m2⟩ := rne_spec n2 d2 s2 hn2 hd2
  unfold val
  rw [m1, m2]
  generalize (rne n1 d1 s1).e = e1 at *
  generalize (rne n2 d2 s2).e = e2 at *
  have hD1q : (0 : ℚ) < D1 := by exact_mod_cast hD1
  have hD2q : (0 : ℚ) < D2 := by exact_mod_cast hD2
  have p1 : (0 : ℚ) < (2 : ℚ) ^ e1 := by positivity
  have p2 : (0 : ℚ) < (2 : ℚ) ^ e2 := by positivity
  -- x1 ≥ 2^52 * 2^e1 and x2 < 2^53 * 2^e2
  have lo1 : (2 : ℚ) ^ 52 ≤ (N1 : ℚ) / D1 := by
    rw [le_div_iff₀ hD1q]; exact_mod_cast a1
  have hi2 : (N2 : ℚ) / D2 < (2 : ℚ) ^ 53 := by
    rw [div_lt_iff₀ hD2q]; exact_mod_cast b2
  have hx : (N1 : ℚ) / D1 * (2 : ℚ) ^ e1 ≤ (N2 : ℚ) / D2 * (2 : ℚ) ^ e2 := by
    rw [v1, v2]; exact h
  have hee : e1 ≤ e2 := by
    by_contra hc
    push_neg at hc
    have h1 : (2 : ℚ) ^ (e2 + 1) ≤ (2 : ℚ) ^ e1 := zpow_le_zpow_right₀ (by norm_num) (by omega)
    have h2 : (2 : ℚ) ^ (e2 + 1) = 2 * (2 : ℚ) ^ e2 := by
      rw [zpow_add₀ (two_ne_zero), zpow_one]; ring
    have h3 : (2 : ℚ) ^ 53 * (2 : ℚ) ^ e2 ≤ (2 : ℚ) ^ 52 * (2 : ℚ) ^ e1 := by
      rw [h2] at h1; nlinarith
    have h4 : (N2 : ℚ) / D2 * (2 : ℚ) ^ e2 < (2 : ℚ) ^ 53 * (2 : ℚ) ^ e2 :=
      mul_lt_mul_of_pos_right hi2 p2
    have h5 : (2 : ℚ) ^ 52 * (2 : ℚ) ^ e1 ≤ (N1 : ℚ) / D1 * (2 : ℚ) ^ e1 :=
      mul_le_mul_of_nonneg_right lo1 p1.le
    linarith
  obtain ⟨r1lo, r1hi⟩ := rhe_bounds N1 D1 hD1 a1 b1
  obtain ⟨r2lo, r2hi⟩ := rhe_bounds N2 D2 hD2 a2 b2
  rcases eq_or_lt_of_le hee with heq | hlt
  · subst heq
    have hq : (N1 : ℚ) / D1 ≤ (N2 : ℚ) / D2 := le_of_mul_le_mul_right hx p1
    have hnat : N1 * D2 ≤ N2 * D1 := by
      rw [div_le_div_iff₀ hD1q hD2q] at hq
      exact_mod_cast hq
    have := rhe_mono N1 D1 N2 D2 hD1 hD2 hnat
    have hc : (round_half_even N1 D1 : ℚ) ≤ (round_half_even N2 D2 : ℚ) := by exact_mod_cast this
    exact mul_le_mul_of_nonneg_right hc p1.le
  · have h1 : (2 : ℚ) ^ (e1 + 1) ≤ (2 : ℚ) ^ e2 := zpow_le_zpow_right₀ (by norm_num) (by omega)
    have h2 : (2 : ℚ) ^ (e1 + 1) = 2 * (2 : ℚ) ^ e1 := by
      rw [zpow_add₀ (two_ne_zero), zpow_one]; ring
    rw [h2] at h1
    have c1 : (round_half_even N1 D1 : ℚ) ≤ (2 : ℚ) ^ 53 := by exact_mod_cast r1hi
    have c2 : (2 : ℚ) ^ 52 ≤ (round_half_even N2 D2 : ℚ) := by exact_mod_cast r2lo
    calc (round_half_even N1 D1 : ℚ) * (2 : ℚ) ^ e1 ≤ (2 : ℚ) ^ 53 * (2 : ℚ) ^ e1 :=
          mul_le_mul_of_nonneg_right c1 p1.le
      _ = (2 : ℚ) ^ 52 * (2 * (2 : ℚ) ^ e1) := by ring
      _ ≤ (2 : ℚ) ^ 52 * (2 : ℚ) ^ e2 := by
          apply mul_le_mul_of_nonneg_left h1; positivity
      _ ≤ (round_half_even N2 D2 : ℚ) * (2 : ℚ) ^ e2 := mul_le_mul_of_nonneg_right c2 p2.le

/-- Rounding leaves a value with a significand below 2^53 unchanged. -/
theorem rne_exact (n d : Nat) (s : Int) (hd : d ≠ 0) (M : Nat) (E : Int) (hM : M < 2 ^ 53)
    (h : (n : ℚ) / (d : ℚ) * (2 : ℚ) ^ s = (M : ℚ) * (2 : ℚ) ^ E) :
    (rne n d s).val = (M : ℚ) * (2 : ℚ) ^ E := by
  rcases Nat.eq_zero_or_pos n with h0 | h0
  · subst h0; rw [rne_zero]; simp [val] at h ⊢; exact h
  obtain ⟨N, D, hD, a, b, v, m⟩ := rne_spec n d s (by omega) hd
  unfold val
  rw [m]
  generalize (rne n d s).e = e at *
  have hDq : (0 : ℚ) < D := by exact_mod_cast hD
  have p : (0 : ℚ) < (2 : ℚ) ^ e := by positivity
  have pE : (0 : ℚ) < (2 : ℚ) ^ E := by positivity
  have lo : (2 : ℚ) ^ 52 ≤ (N : ℚ) / D := by
    rw [le_div_iff₀ hDq]; exact_mod_cast a
  have hx : (N : ℚ) / D * (2 : ℚ) ^ e = (M : ℚ) * (2 : ℚ) ^ E := by rw [v, h]
  have hMq : (M : ℚ) < (2 : ℚ) ^ 53 := by exact_mod_cast hM
  -- e ≤ E
  have hee : e ≤ E := by
    by_contra hc
    push_neg at hc
    have h1 : (2 : ℚ) ^ (E + 1) ≤ (2 : ℚ) ^ e := zpow_le_zpow_right₀ (by norm_num) (by omega)
    have h2 : (2 : ℚ) ^ (E + 1) = 2 * (2 : ℚ) ^ E := by
      rw [zpow_add₀ (two_ne_zero), zpow_one]; ring
    rw [h2] at h1
    have h5 : (2 : ℚ) ^ 52 * (2 : ℚ) ^ e ≤ (N : ℚ) / D * (2 : ℚ) ^ e :=
      mul_le_mul_of_nonneg_right lo p.le
    have h6 : (M : ℚ) * (2 : ℚ) ^ E < (2 : ℚ) ^ 53 * (2 : ℚ) ^ E :=
      mul_lt_mul_of_pos_right hMq pE
    have h7 : (N : ℚ) / D < (2 : ℚ) ^ 53 := by
      rw [div_lt_iff₀ hDq]; exact_mod_cast b
    have h8 : (N : ℚ) / D * (2 : ℚ) ^ e < (2 : ℚ) ^ 53 * (2 : ℚ) ^ e :=
      mul_lt_mul_of_pos_right h7 p
    have h9 : (2 : ℚ) ^ 52 * (2 * (2 : ℚ) ^ E) ≤ (2 : ℚ) ^ 52 * (2 : ℚ) ^ e :=
      mul_le_mul_of_nonneg_left h1 (by positivity)
    linarith
  obtain ⟨k, hk⟩ : ∃ k : Nat, E = e + k := ⟨(E - e).toNat, by omega⟩
  subst hk
  have hpk : (2 : ℚ) ^ (e + (k : ℤ)) = (2 : ℚ) ^ e * (2 : ℚ) ^ k := by
    rw [zpow_add₀ (two_ne_zero), zpow_natCast]
  rw [hpk] at hx ⊢
  have hq : (N : ℚ) / D = ((M * 2 ^ k : ℕ) : ℚ) := by
    have : (N : ℚ) / D * (2 : ℚ) ^ e = (M : ℚ) * (2 : ℚ) ^ k * (2 : ℚ) ^ e := by rw [hx]; ring
    have := mul_right_cancel₀ p.ne' this
    rw [this]; push_cast; ring
  have hN : N = M * 2 ^ k * D := by
    rw [div_eq_iff hDq.ne'] at hq
    exact_mod_cast hq
  rw [hN, rhe_of_dvd _ _ hD]
  push_cast; ring


/-- Rounding adds at most one part in 2^53. -/
theorem rne_le_add (n d : Nat) (s : Int) (hd : d ≠ 0) :
    (rne n d s).val
      ≤ (n : ℚ) / (d : ℚ) * (2 : ℚ) ^ s + (n : ℚ) / (d : ℚ) * (2 : ℚ) ^ s / 2 ^ 53 := by
  rcases Nat.eq_zero_or_pos n with h0 | h0
  · subst h0; rw [rne_zero]; simp [val]
  obtain ⟨N, D, hD, a, b, v, m⟩ := rne_spec n d s (by omega) hd
  unfold val
  rw [m, ← v]
  generalize (rne n d s).e = e at *
  have hDq : (0 : ℚ) < D := by exact_mod_cast hD
  have p : (0 : ℚ) < (2 : ℚ) ^ e := by positivity
  have lo : (2 : ℚ) ^ 52 ≤ (N : ℚ) / D := by
    rw [le_div_iff₀ hDq]; exact_mod_cast a
  have herr : 2 * round_half_even N D * D ≤ 2 * N + D := by
    have e1 := Nat.div_add_mod N D
    have hm : N % D < D := Nat.mod_lt _ hD
    have e2 : 2 * (N / D) * D = 2 * (D * (N / D)) := by ring
    have e3 : 2 * (N / D + 1) * D = 2 * (D * (N / D)) + 2 * D := by ring
    unfold round_half_even
    split_ifs <;> first | (rw [e2]; omega) | (rw [e3]; omega)
  have hq : (round_half_even N D : ℚ) ≤ (N : ℚ) / D + 1 / 2 := by
    have : (2 * round_half_even N D * D : ℚ) ≤ 2 * N + D := by exact_mod_cast herr
    rw [div_add' _ _ _ hDq.ne', le_div_iff₀ hDq]
    linarith
  have h3 : (round_half_even N D : ℚ) ≤ (N : ℚ) / D + (N : ℚ) / D / 2 ^ 53 := by
    have : (1 : ℚ) / 2 ≤ (N : ℚ) / D / 2 ^ 53 := by
      rw [le_div_iff₀ (by positivity)]; linarith
    linarith
  calc (round_half_even N D : ℚ) * (2 : ℚ) ^ e
      ≤ ((N : ℚ) / D + (N : ℚ) / D / 2 ^ 53) * (2 : ℚ) ^ e := mul_le_mul_of_nonneg_right h3 p.le
    _ = (N : ℚ) / D * (2 : ℚ) ^ e + (N : ℚ) / D * (2 : ℚ) ^ e / 2 ^ 53 := by ring

theorem val_mk (m : Nat) (e : Int) : (⟨m, e⟩ : Dbl).val = (m : ℚ) * (2 : ℚ) ^ e := rfl

/-- The integer part of a binary64 number is the floor of its value. -/
theorem trunc_eq_floor (x : Dbl) : x.trunc = ⌊x.val⌋₊ := by
  unfold trunc val
  have h := two_zpow_toNat (-x.e)
  rw [neg_neg] at h
  have : (x.m : ℚ) * (2 : ℚ) ^ x.e
      = ((x.m * 2 ^ x.e.toNat : ℕ) : ℚ) / ((2 ^ (-x.e).toNat : ℕ) : ℚ) := by
    rw [← h]; push_cast; ring
  rw [this, Nat.floor_div_eq_div]

theorem trunc_mono {x y : Dbl} (h : x.val ≤ y.val) : x.trunc ≤ y.trunc := by
  rw [trunc_eq_floor, trunc_eq_floor]; exact Nat.floor_le_floor h

theorem to_uint64_of_lt (oor : Nat → Nat) (x : Dbl) (h : x.trunc < 2 ^ 64) :
    to_uint64 oor x = x.trunc := by
  unfold to_uint64; rw [if_pos h]

theorem to_uint64_lt (oor : Nat → Nat) (x : Dbl) : to_uint64 oor x < 2 ^ 64 := by
  unfold to_uint64
  split_ifs with h
  · exact h
  · exact Nat.mod_lt _ (by positivity)

/-- The value `n / d * 2^s` that `rne n d s` rounds, for a natural number. -/
theorem of_uint_arg (n : Nat) : (n : ℚ) / ((1 : ℕ) : ℚ) * (2 : ℚ) ^ (0 : ℤ) = (n : ℚ) := by simp

theorem of_uint_mono {a b : Nat} (h : a ≤ b) : (of_uint a).val ≤ (of_uint b).val := by
  unfold of_uint
  apply rne_mono _ _ _ _ _ _ one_ne_zero one_ne_zero
  rw [of_uint_arg, of_uint_arg]; exact_mod_cast h

/-- An integer with a significand below 2^53 converts exactly. -/
theorem of_uint_exact (M k : Nat) (hM : M < 2 ^ 53) : (of_uint (M * 2 ^ k)).val = M * 2 ^ k := by
  unfold of_uint
  have := rne_exact (M * 2 ^ k) 1 0 one_ne_zero M k hM (by push_cast; simp)
  rw [this]; simp

theorem of_uint_exact_small (n : Nat) (h : n < 2 ^ 53) : (of_uint n).val = n := by
  have := of_uint_exact n 0 h
  simpa using this

theorem mul_arg (x y : Dbl) :
    ((x.m * y.m : ℕ) : ℚ) / ((1 : ℕ) : ℚ) * (2 : ℚ) ^ (x.e + y.e) = x.val * y.val := by
  unfold val
  rw [zpow_add₀ (two_ne_zero)]; push_cast; ring

theorem div_arg (x y : Dbl) (hy : y.m ≠ 0) :
    (x.m : ℚ) / (y.m : ℚ) * (2 : ℚ) ^ (x.e - y.e) = x.val / y.val := by
  unfold val
  have : (y.m : ℚ) ≠ 0 := by exact_mod_cast hy
  have p : (2 : ℚ) ^ y.e ≠ 0 := by positivity
  rw [zpow_sub₀ (two_ne_zero)]
  field_simp

theorem val_pos_iff (x : Dbl) : 0 < x.val ↔ x.m ≠ 0 := by
  unfold val
  constructor
  · intro h hm
    rw [hm] at h; simp at h
  · intro h
    have : (0 : ℚ) < x.m := by exact_mod_cast Nat.pos_of_ne_zero h
    positivity

theorem mul_mono_left {x1 x2 : Dbl} (y : Dbl) (h : x1.val ≤ x2.val) :
    (x1.mul y).val ≤ (x2.mul y).val := by
  unfold mul
  apply rne_mono _ _ _ _ _ _ one_ne_zero one_ne_zero
  rw [mul_arg, mul_arg]
  exact mul_le_mul_of_nonneg_right h (val_nonneg y)

theorem div_mono_left {x1 x2 : Dbl} (y : Dbl) (hy : y.m ≠ 0) (h : x1.val ≤ x2.val) :
    (x1.div y).val ≤ (x2.div y).val := by
  unfold div
  apply rne_mono _ _ _ _ _ _ hy hy
  rw [div_arg _ _ hy, div_arg _ _ hy]
  exact div_le_div_of_nonneg_right h (val_nonneg y)

/-- A product whose exact value has a significand below 2^53 is exact. -/
theorem mul_exact (x y : Dbl) (M : Nat) (E : Int) (hM : M < 2 ^ 53)
    (h : x.val * y.val = (M : ℚ) * (2 : ℚ) ^ E) : (x.mul y).val = (M : ℚ) * (2 : ℚ) ^ E := by
  unfold mul
  exact rne_exact _ _ _ one_ne_zero M E hM (by rw [mul_arg]; exact h)

/-- A quotient whose exact value has a significand below 2^53 is exact. -/
theorem div_exact (x y : Dbl) (hy : y.m ≠ 0) (M : Nat) (E : Int) (hM : M < 2 ^ 53)
    (h : x.val / y.val = (M : ℚ) * (2 : ℚ) ^ E) : (x.div y).val = (M : ℚ) * (2 : ℚ) ^ E := by
  unfold div
  exact rne_exact _ _ _ hy M E hM (by rw [div_arg _ _ hy]; exact h)

/-- A product is at least an integer below 2^53 that its exact value reaches. -/
theorem le_mul_val (x y : Dbl) (K : Nat) (hK : K < 2 ^ 53) (h : (K : ℚ) ≤ x.val * y.val) :
    (K : ℚ) ≤ (x.mul y).val := by
  have e := rne_exact K 1 0 one_ne_zero K 0 hK (by simp)
  have m := rne_mono K 1 (x.m * y.m) 1 0 (x.e + y.e) one_ne_zero one_ne_zero
    (by rw [mul_arg, of_uint_arg]; exact h)
  rw [e] at m
  simpa [mul] using m

/-- A quotient is at least an integer below 2^53 that its exact value reaches. -/
theorem le_div_val (x y : Dbl) (hy : y.m ≠ 0) (K : Nat) (hK : K < 2 ^ 53)
    (h : (K : ℚ) ≤ x.val / y.val) : (K : ℚ) ≤ (x.div y).val := by
  have e := rne_exact K 1 0 one_ne_zero K 0 hK (by simp)
  have m := rne_mono K 1 x.m y.m 0 (x.e - y.e) one_ne_zero hy
    (by rw [div_arg _ _ hy, of_uint_arg]; exact h)
  rw [e] at m
  simpa [div] using m

/-- A quotient is at most a binary64 number that its exact value does not
exceed. -/
theorem div_val_le (x y : Dbl) (hy : y.m ≠ 0) (M k : Nat) (hM : M < 2 ^ 53)
    (h : x.val / y.val ≤ ((M * 2 ^ k : ℕ) : ℚ)) : (x.div y).val ≤ ((M * 2 ^ k : ℕ) : ℚ) := by
  have e := rne_exact (M * 2 ^ k) 1 0 one_ne_zero M k hM (by push_cast; simp)
  have m := rne_mono x.m y.m (M * 2 ^ k) 1 (x.e - y.e) 0 hy one_ne_zero
    (by rw [div_arg _ _ hy, of_uint_arg]; exact h)
  rw [e] at m
  simpa [div] using m

/-- A product is at most a binary64 number that its exact value does not
exceed. -/
theorem mul_val_le (x y : Dbl) (M k : Nat) (hM : M < 2 ^ 53)
    (h : x.val * y.val ≤ ((M * 2 ^ k : ℕ) : ℚ)) : (x.mul y).val ≤ ((M * 2 ^ k : ℕ) : ℚ) := by
  have e := rne_exact (M * 2 ^ k) 1 0 one_ne_zero M k hM (by push_cast; simp)
  have m := rne_mono (x.m * y.m) 1 (M * 2 ^ k) 1 (x.e + y.e) 0 one_ne_zero one_ne_zero
    (by rw [mul_arg, of_uint_arg]; exact h)
  rw [e] at m
  simpa [mul] using m

theorem mul_val_le_add (x y : Dbl) :
    (x.mul y).val ≤ x.val * y.val + x.val * y.val / 2 ^ 53 := by
  have := rne_le_add (x.m * y.m) 1 (x.e + y.e) one_ne_zero
  rw [mul_arg] at this
  exact this

theorem div_val_le_add (x y : Dbl) (hy : y.m ≠ 0) :
    (x.div y).val ≤ x.val / y.val + x.val / y.val / 2 ^ 53 := by
  have := rne_le_add x.m y.m (x.e - y.e) hy
  rw [div_arg _ _ hy] at this
  exact this

end Dbl

/-! ## Arithmetic of the specification's cost model -/

theorem u32_u64 (n : Nat) : u32 (u64 n) = n % 2 ^ 32 := by
  unfold u32 u64
  exact Nat.mod_mod_of_dvd n (Nat.pow_dvd_pow 2 (by norm_num))

theorem u32_of_lt {n : Nat} (h : n < 2 ^ 32) : u32 n = n := Nat.mod_eq_of_lt h

theorem u64_of_lt {n : Nat} (h : n < 2 ^ 64) : u64 n = n := Nat.mod_eq_of_lt h

theorem spec_transfer_cycles_eq (f b : Nat) : spec_transfer_cycles f b = b * f / 22000 := by
  unfold spec_transfer_cycles
  rcases Nat.eq_zero_or_pos f with hf | hf
  · subst hf; simp
  · have hq : (f : ℚ) ≠ 0 := by positivity
    have h : (b : ℚ) / (22 * 1000 / (f : ℚ)) = ((b * f : ℕ) : ℚ) / ((22000 : ℕ) : ℚ) := by
      push_cast
      rw [div_div_eq_mul_div]
      norm_num
    rw [h, Nat.floor_div_eq_div]

theorem floor_mul_frac (t n d : Nat) : ⌊(t : ℚ) * ((n : ℚ) / (d : ℚ))⌋₊ = t * n / d := by
  have h : (t : ℚ) * ((n : ℚ) / (d : ℚ)) = ((t * n : ℕ) : ℚ) / ((d : ℕ) : ℚ) := by
    push_cast; ring
  rw [h, Nat.floor_div_eq_div]

theorem floor_mul_frac_half (t n d : Nat) :
    ⌊(t : ℚ) * ((n : ℚ) / (d : ℚ)) / 2⌋₊ = t * n / (d * 2) := by
  have h : (t : ℚ) * ((n : ℚ) / (d : ℚ)) / 2 = ((t * n : ℕ) : ℚ) / ((d * 2 : ℕ) : ℚ) := by
    push_cast; ring
  rw [h, Nat.floor_div_eq_div]

theorem spec_variance_10 (t : Nat) : spec_variance (10 / 100) t = t / 20 := by
  unfold spec_variance
  have h := floor_mul_frac_half t 10 100
  push_cast at h
  rw [h]
  omega

theorem spec_variance_7 (t : Nat) : spec_variance (7 / 100) t = t * 7 / 200 := by
  unfold spec_variance
  have h := floor_mul_frac_half t 7 100
  push_cast at h
  rw [h]

/-- The `if` chain of the code on the size tiers is the step function of the
specification. -/
theorem code_size_overhead_eq (b : Nat) :
    (if b < 64 * 1024 then 500 else if b < 1024 * 1024 then 300
      else if b < 8 * 1024 * 1024 then 100 else 0) = spec_size_tier_overhead b := by
  unfold spec_size_tier_overhead
  split_ifs <;> first | rfl | omega

/-- The guarded assignment of the code to `hbm_overhead` is the function of the
specification. -/
theorem code_hbm_overhead_eq (b : Nat) :
    (if b > 4 * 1024 * 1024 then (b / (4 * 1024 * 1024)) * 200 else 0) = spec_hbm_overhead b := by
  unfold spec_hbm_overhead
  split_ifs <;> first | rfl | omega

/-- The cost sum of the specification for an activation movement, in integer
arithmetic. -/
theorem spec_movement_cost_eq (f b : Nat) (wb : Bool) :
    spec_movement_cost f b wb = b * f / 22000 + 1000 + spec_size_tier_overhead b
      + spec_hbm_overhead b + b * f / 22000 / 20 + spec_direction_overhead wb := by
  unfold spec_movement_cost
  rw [spec_variance_10, spec_transfer_cycles_eq]

/-- The cost sum of the specification for a parameter load, in integer
arithmetic. -/
theorem spec_load_cost_eq (f l b : Nat) :
    spec_load_cost f l b = b * f / 22000 + l + spec_size_tier_overhead b
      + spec_hbm_overhead b + b * f / 22000 * 7 / 200 := by
  unfold spec_load_cost
  rw [spec_variance_7, spec_transfer_cycles_eq]


/-! ## Binary64: the terms of the cost computations -/

namespace Dbl

theorem rne_m_ne_zero (n d : Nat) (s : Int) (hn : n ≠ 0) (hd : d ≠ 0) : (rne n d s).m ≠ 0 := by
  obtain ⟨N, D, hD, a, b, -, m⟩ := rne_spec n d s hn hd
  rw [m]
  have := (rhe_bounds N D hD a b).1
  have : 0 < 2 ^ 52 := by positivity
  omega

theorem div_m_ne_zero (x y : Dbl) (hx : x.m ≠ 0) (hy : y.m ≠ 0) : (x.div y).m ≠ 0 :=
  rne_m_ne_zero _ _ _ hx hy

theorem of_decimal_val_nat (n : Nat) (h : n < 2 ^ 53) : (of_decimal n 1).val = n := by
  unfold of_decimal
  have := rne_exact n 1 0 one_ne_zero n 0 h (by simp)
  rw [this]; simp

/-- The `double` `(double)22 * 1e9` is 22,000,000,000. -/
theorem numerator_val : ((of_uint 22).mul (of_decimal (10 ^ 9) 1)).val = 22 * 10 ^ 9 := by
  have h1 := of_uint_exact_small 22 (by norm_num)
  have h2 := of_decimal_val_nat (10 ^ 9) (by norm_num)
  have := mul_exact (of_uint 22) (of_decimal (10 ^ 9) 1) (22 * 10 ^ 9) 0 (by norm_num)
    (by rw [h1, h2]; push_cast; norm_num)
  rw [this]; push_cast; norm_num

/-- The `double` `core_freq_mhz * 1e6` is exact for a 32-bit clock. -/
theorem denominator_val (f : Nat) (hf : f < 2 ^ 32) :
    ((of_uint f).mul (of_decimal (10 ^ 6) 1)).val = f * 10 ^ 6 := by
  have h1 := of_uint_exact_small f (by omega)
  have h2 := of_decimal_val_nat (10 ^ 6) (by norm_num)
  have hlt : f * 10 ^ 6 < 2 ^ 53 := by omega
  have := mul_exact (of_uint f) (of_decimal (10 ^ 6) 1) (f * 10 ^ 6) 0 hlt
    (by rw [h1, h2]; push_cast; norm_num)
  rw [this]; push_cast; norm_num

end Dbl

/-- For a positive 32-bit clock `bytes_per_cycle` is a positive `double`, the
quotient `22000 / core_freq_mhz` rounded: at least 1 for a clock of at most
22000 MHz, and `M / 2^k` itself when the quotient is that binary64 number. -/
theorem bytes_per_cycle_some (f : Nat) (hf : 0 < f) (hf32 : f < 2 ^ 32) :
    ∃ y : Dbl, code_bytes_per_cycle f = some y ∧ y.m ≠ 0
      ∧ (f ≤ 22000 → 1 ≤ y.val)
      ∧ (∀ M k : Nat, M * f = 22000 * 2 ^ k → M < 2 ^ 53 → y.val = (M : ℚ) / 2 ^ k) := by
  have hnum := Dbl.numerator_val
  have hden := Dbl.denominator_val f hf32
  have hfq : (0 : ℚ) < f := by exact_mod_cast hf
  have hdm : ((Dbl.of_uint f).mul (Dbl.of_decimal (10 ^ 6) 1)).m ≠ 0 := by
    rw [← Dbl.val_pos_iff, hden]; positivity
  have hnm : ((Dbl.of_uint 22).mul (Dbl.of_decimal (10 ^ 9) 1)).m ≠ 0 := by
    rw [← Dbl.val_pos_iff, hnum]; positivity
  have hq : ((Dbl.of_uint 22).mul (Dbl.of_decimal (10 ^ 9) 1)).val
      / ((Dbl.of_uint f).mul (Dbl.of_decimal (10 ^ 6) 1)).val = 22000 / (f : ℚ) := by
    rw [hnum, hden]; field_simp; ring
  refine ⟨_, by unfold code_bytes_per_cycle Dbl.div_or_inf; rw [if_neg hdm],
    Dbl.div_m_ne_zero _ _ hnm hdm, ?_, ?_⟩
  · intro hle
    have := Dbl.le_div_val _ _ hdm 1 (by norm_num) (by
      rw [hq, Nat.cast_one, le_div_iff₀ hfq]
      have : (f : ℚ) ≤ 22000 := by exact_mod_cast hle
      linarith)
    simpa using this
  · intro M k hM hM53
    have : 22000 / (f : ℚ) = (M : ℚ) * (2 : ℚ) ^ (-(k : ℤ)) := by
      have hMq : (M : ℚ) * f = 22000 * 2 ^ k := by exact_mod_cast hM
      rw [zpow_neg, zpow_natCast, div_eq_iff hfq.ne']
      have : (2 : ℚ) ^ k ≠ 0 := by positivity
      field_simp
      linarith
    have h := Dbl.div_exact _ _ hdm M (-(k : ℤ)) hM53 (by rw [hq]; exact this)
    rw [h, zpow_neg, zpow_natCast]; ring

/-- At a clock of 0 MHz `bytes_per_cycle` is `+∞`. -/
theorem bytes_per_cycle_zero : code_bytes_per_cycle 0 = none := by decide

/-- The `double` quotient that becomes `transfer_cycles` does not decrease with
the byte count. -/
theorem transfer_quotient_mono (f : Nat) {a b : Nat} (h : a ≤ b) :
    (code_transfer_quotient f a).val ≤ (code_transfer_quotient f b).val := by
  unfold code_transfer_quotient
  cases hy : code_bytes_per_cycle f with
  | none => simp [Dbl.div_by]
  | some y =>
    have hym : y.m ≠ 0 := by
      unfold code_bytes_per_cycle Dbl.div_or_inf at hy
      split_ifs at hy with hz
      simp only [Option.some.injEq] at hy
      rw [← hy]
      apply Dbl.div_m_ne_zero _ _ _ hz
      rw [← Dbl.val_pos_iff, Dbl.numerator_val]; positivity
    exact Dbl.div_mono_left y hym (Dbl.of_uint_mono h)

/-- While the conversion of the larger quotient is in range, `transfer_cycles`
does not decrease with the byte count. -/
theorem transfer_cycles_mono (oor : Nat → Nat) (f : Nat) {a b : Nat} (h : a ≤ b)
    (hb : (code_transfer_quotient f b).trunc < 2 ^ 64) :
    code_transfer_cycles oor f a ≤ code_transfer_cycles oor f b := by
  have hm := Dbl.trunc_mono (transfer_quotient_mono f h)
  unfold code_transfer_cycles
  rw [Dbl.to_uint64_of_lt _ _ hb, Dbl.to_uint64_of_lt _ _ (lt_of_le_of_lt hm hb)]
  exact hm

/-- For a 32-bit clock of at most 22000 MHz and at most `2^64 - 2048` bytes the
conversion of the quotient to `uint64_t` is in range. -/
theorem transfer_quotient_in_range (f b : Nat) (hf : f ≤ 22000) (hb : b ≤ 2 ^ 64 - 2048) :
    (code_transfer_quotient f b).trunc < 2 ^ 64 := by
  rcases Nat.eq_zero_or_pos f with h0 | h0
  · subst h0
    unfold code_transfer_quotient
    rw [bytes_per_cycle_zero]
    simp [Dbl.div_by, Dbl.trunc]
  · obtain ⟨y, hy, hym, h1, -⟩ := bytes_per_cycle_some f h0 (by omega)
    have hy1 := h1 hf
    unfold code_transfer_quotient
    rw [hy]
    simp only [Dbl.div_by]
    have e : 2 ^ 64 - 2048 = (2 ^ 53 - 1) * 2 ^ 11 := by norm_num
    have hx : (Dbl.of_uint b).val ≤ (((2 ^ 53 - 1) * 2 ^ 11 : ℕ) : ℚ) := by
      have := Dbl.of_uint_mono hb
      rw [e, Dbl.of_uint_exact _ _ (by norm_num)] at this
      exact_mod_cast this
    have hq : (Dbl.of_uint b).val / y.val ≤ (((2 ^ 53 - 1) * 2 ^ 11 : ℕ) : ℚ) := by
      have hpos : (0 : ℚ) < y.val := by linarith
      rw [div_le_iff₀ hpos]
      have : (0 : ℚ) ≤ (((2 ^ 53 - 1) * 2 ^ 11 : ℕ) : ℚ) := by positivity
      nlinarith
    have := Dbl.div_val_le _ _ hym (2 ^ 53 - 1) 11 (by norm_num) hq
    rw [Dbl.trunc_eq_floor]
    have hfl : ⌊((Dbl.of_uint b).div y).val⌋₊ ≤ (2 ^ 53 - 1) * 2 ^ 11 := by
      apply Nat.floor_le_of_le
      exact this
    have : (2 ^ 53 - 1) * 2 ^ 11 < 2 ^ 64 := by norm_num
    omega

/-- A decimal literal of at most one half is a `double` of at most one half. -/
theorem of_decimal_le_half (num den : Nat) (hden : den ≠ 0) (h : 2 * num ≤ den) :
    (Dbl.of_decimal num den).val ≤ 1 / 2 := by
  unfold Dbl.of_decimal
  have e := Dbl.rne_exact 1 2 0 two_ne_zero 1 (-1) (by norm_num) (by norm_num)
  have hdq : (0 : ℚ) < den := by exact_mod_cast Nat.pos_of_ne_zero hden
  have m := Dbl.rne_mono num den 1 2 0 0 hden two_ne_zero (by
    simp only [zpow_zero, mul_one]
    rw [div_le_div_iff₀ hdq (by norm_num)]
    have : (2 * num : ℚ) ≤ den := by exact_mod_cast h
    push_cast
    linarith)
  rw [e] at m
  norm_num at m
  linarith

/-- The product that becomes `variance` is always in range of `uint64_t`. -/
theorem variance_product_in_range (num den tc : Nat) (hden : den ≠ 0) (h : 2 * num ≤ den)
    (htc : tc < 2 ^ 64) : (code_variance_product num den tc).trunc < 2 ^ 64 := by
  unfold code_variance_product
  have hl := of_decimal_le_half num den hden h
  have hx : (Dbl.of_uint tc).val ≤ (2 : ℚ) ^ 64 := by
    have := Dbl.of_uint_mono (show tc ≤ 1 * 2 ^ 64 by omega)
    rw [Dbl.of_uint_exact 1 64 (by norm_num)] at this
    simpa using this
  have hp : (Dbl.of_uint tc).val * (Dbl.of_decimal num den).val ≤ ((1 * 2 ^ 63 : ℕ) : ℚ) := by
    have h0 := Dbl.val_nonneg (Dbl.of_uint tc)
    have h1 := Dbl.val_nonneg (Dbl.of_decimal num den)
    push_cast
    nlinarith
  have := Dbl.mul_val_le _ _ 1 63 (by norm_num) hp
  rw [Dbl.trunc_eq_floor]
  have hfl : ⌊((Dbl.of_uint tc).mul (Dbl.of_decimal num den)).val⌋₊ ≤ 1 * 2 ^ 63 :=
    Nat.floor_le_of_le this
  have : 1 * 2 ^ 63 < 2 ^ 64 := by norm_num
  omega

/-- The value given to `variance` does not decrease with `transfer_cycles`. -/
theorem variance_mono (oor : Nat → Nat) (num den : Nat) (hden : den ≠ 0) (h : 2 * num ≤ den)
    {a b : Nat} (hab : a ≤ b) (hb : b < 2 ^ 64) :
    code_variance oor num den a ≤ code_variance oor num den b := by
  unfold code_variance
  rw [Dbl.to_uint64_of_lt _ _ (variance_product_in_range num den a hden h (by omega)),
    Dbl.to_uint64_of_lt _ _ (variance_product_in_range num den b hden h hb)]
  apply Nat.div_le_div_right
  apply Dbl.trunc_mono
  unfold code_variance_product
  exact Dbl.mul_mono_left _ (Dbl.of_uint_mono hab)

theorem transfer_cycles_lt (oor : Nat → Nat) (f b : Nat) : code_transfer_cycles oor f b < 2 ^ 64 :=
  Dbl.to_uint64_lt _ _

/-- When `22000 / core_freq_mhz` is the binary64 number `M / 2^k` and
`bytes * 2^k < 2^48`, the `transfer_cycles` of the code is the exact
`floor(bytes / (22 * 1000 / core_freq_mhz))`. -/
theorem transfer_cycles_exact (oor : Nat → Nat) (f b M k : Nat) (hf : 0 < f) (hf32 : f < 2 ^ 32)
    (hM : M * f = 22000 * 2 ^ k) (hM53 : M < 2 ^ 53) (hb : b * 2 ^ k < 2 ^ 48) :
    code_transfer_cycles oor f b = spec_transfer_cycles f b := by
  obtain ⟨y, hy, hym, -, hex⟩ := bytes_per_cycle_some f hf hf32
  have hyv := hex M k hM hM53
  have hk1 : 1 ≤ 2 ^ k := Nat.one_le_two_pow
  have hb53 : b < 2 ^ 53 := by
    have : b ≤ b * 2 ^ k := Nat.le_mul_of_pos_right b (by positivity)
    omega
  have hMpos : 0 < M := by
    rcases Nat.eq_zero_or_pos M with h0 | h0
    · subst h0
      have : 0 < 22000 * 2 ^ k := by positivity
      omega
    · exact h0
  have hMq : (0 : ℚ) < M := by exact_mod_cast hMpos
  have hfq : (0 : ℚ) < f := by exact_mod_cast hf
  have hpk : (0 : ℚ) < (2 : ℚ) ^ k := by positivity
  have hx : (Dbl.of_uint b).val / y.val = ((b * 2 ^ k : ℕ) : ℚ) / M := by
    rw [Dbl.of_uint_exact_small b hb53, hyv]
    push_cast
    field_simp
  -- the exact quotient of the specification
  have hspec : (b : ℚ) / (22 * 1000 / (f : ℚ)) = ((b * 2 ^ k : ℕ) : ℚ) / M := by
    have hMf : (M : ℚ) * f = 22000 * 2 ^ k := by exact_mod_cast hM
    push_cast
    field_simp
    nlinarith
  set K := spec_transfer_cycles f b with hK
  have hKfl : K = (b * 2 ^ k) / M := by
    rw [hK]; unfold spec_transfer_cycles
    rw [hspec, Nat.floor_div_eq_div]
  have hdm := Nat.div_add_mod (b * 2 ^ k) M
  have hmod : (b * 2 ^ k) % M < M := Nat.mod_lt _ hMpos
  rw [← hKfl] at hdm
  have hKle : K ≤ b * 2 ^ k := by rw [hKfl]; exact Nat.div_le_self _ _
  -- bounds on the exact quotient
  have hlo : (K : ℚ) ≤ ((b * 2 ^ k : ℕ) : ℚ) / M := by
    rw [le_div_iff₀ hMq]
    have : K * M ≤ b * 2 ^ k := by
      have e : K * M = M * K := Nat.mul_comm _ _
      omega
    exact_mod_cast this
  have hhi : ((b * 2 ^ k : ℕ) : ℚ) / M ≤ (K : ℚ) + 1 - 1 / M := by
    rw [div_le_iff₀ hMq]
    have : b * 2 ^ k + 1 ≤ (K + 1) * M := by
      have e : (K + 1) * M = M * K + M := by ring
      omega
    have hq : ((b * 2 ^ k : ℕ) : ℚ) + 1 ≤ ((K : ℚ) + 1) * M := by exact_mod_cast this
    have : ((K : ℚ) + 1 - 1 / M) * M = ((K : ℚ) + 1) * M - 1 := by field_simp
    rw [this]; linarith
  have hsmall : ((b * 2 ^ k : ℕ) : ℚ) / M / 2 ^ 53 < 1 / M := by
    rw [div_div, div_lt_div_iff₀ (by positivity) hMq]
    have : ((b * 2 ^ k : ℕ) : ℚ) < 2 ^ 48 := by exact_mod_cast hb
    nlinarith
  -- the rounded quotient
  have h1 := Dbl.le_div_val (Dbl.of_uint b) y hym K (by omega) (by rw [hx]; exact hlo)
  have h2 := Dbl.div_val_le_add (Dbl.of_uint b) y hym
  rw [hx] at h2
  have hfloor : ((Dbl.of_uint b).div y).trunc = K := by
    rw [Dbl.trunc_eq_floor, Nat.floor_eq_iff (Dbl.val_nonneg _)]
    exact ⟨h1, by linarith⟩
  unfold code_transfer_cycles code_transfer_quotient
  rw [hy]
  simp only [Dbl.div_by]
  rw [Dbl.to_uint64_of_lt _ _ (by rw [hfloor]; omega), hfloor]

theorem of_decimal_10_100 : Dbl.of_decimal 10 100 = ⟨7205759403792794, -56⟩ := by decide

theorem of_decimal_7_100 : Dbl.of_decimal 7 100 = ⟨5044031582654956, -56⟩ := by decide

/-- For `transfer_cycles < 2^48` the `variance` of `calculate_movement_cycles` is
the exact `floor(transfer_cycles * 0.10 / 2)`. -/
theorem variance_10_exact (oor : Nat → Nat) (tc : Nat) (h : tc < 2 ^ 48) :
    code_variance oor 10 100 tc = spec_variance (10 / 100) tc := by
  have hlit : (Dbl.of_decimal 10 100).val = 7205759403792794 / 2 ^ 56 := by
    rw [of_decimal_10_100, Dbl.val_mk, zpow_neg]; norm_num
  have hx : (Dbl.of_uint tc).val = tc := Dbl.of_uint_exact_small tc (by omega)
  have hdm := Nat.div_add_mod tc 10
  have hmod : tc % 10 < 10 := Nat.mod_lt _ (by norm_num)
  set K := tc / 10 with hK
  have htcq : (tc : ℚ) = 10 * K + ((tc % 10 : ℕ) : ℚ) := by exact_mod_cast hdm.symm
  have hr : ((tc % 10 : ℕ) : ℚ) ≤ 9 := by
    have : tc % 10 ≤ 9 := by omega
    exact_mod_cast this
  have hr0 : (0 : ℚ) ≤ ((tc % 10 : ℕ) : ℚ) := by positivity
  have htc : (tc : ℚ) < 2 ^ 48 := by exact_mod_cast h
  have hK0 : (0 : ℚ) ≤ K := by positivity
  have h1 := Dbl.le_mul_val (Dbl.of_uint tc) (Dbl.of_decimal 10 100) K (by omega) (by
    rw [hx, hlit, htcq]; norm_num; nlinarith)
  have h2 := Dbl.mul_val_le_add (Dbl.of_uint tc) (Dbl.of_decimal 10 100)
  rw [hx, hlit] at h2
  have hfloor : (code_variance_product 10 100 tc).trunc = K := by
    unfold code_variance_product
    rw [Dbl.trunc_eq_floor, Nat.floor_eq_iff (Dbl.val_nonneg _)]
    refine ⟨h1, lt_of_le_of_lt h2 ?_⟩
    rw [htcq] at htc ⊢
    norm_num at htc ⊢
    linarith
  unfold code_variance
  rw [Dbl.to_uint64_of_lt _ _ (by rw [hfloor]; omega), hfloor, spec_variance_10]
  omega

/-- For `transfer_cycles < 2^48` the `variance` of `calculate_load_cycles` is the
exact `floor(transfer_cycles * 0.07 / 2)`. -/
theorem variance_7_exact (oor : Nat → Nat) (tc : Nat) (h : tc < 2 ^ 48) :
    code_variance oor 7 100 tc = spec_variance (7 / 100) tc := by
  have hlit : (Dbl.of_decimal 7 100).val = 5044031582654956 / 2 ^ 56 := by
    rw [of_decimal_7_100, Dbl.val_mk, zpow_neg]; norm_num
  have hx : (Dbl.of_uint tc).val = tc := Dbl.of_uint_exact_small tc (by omega)
  have hdm := Nat.div_add_mod (tc * 7) 100
  have hmod : tc * 7 % 100 < 100 := Nat.mod_lt _ (by norm_num)
  set K := tc * 7 / 100 with hK
  have htcq : (tc : ℚ) * 7 = 100 * K + ((tc * 7 % 100 : ℕ) : ℚ) := by exact_mod_cast hdm.symm
  have hr : ((tc * 7 % 100 : ℕ) : ℚ) ≤ 99 := by
    have : tc * 7 % 100 ≤ 99 := by omega
    exact_mod_cast this
  have hr0 : (0 : ℚ) ≤ ((tc * 7 % 100 : ℕ) : ℚ) := by positivity
  have htc : (tc : ℚ) < 2 ^ 48 := by exact_mod_cast h
  have htc0 : (0 : ℚ) ≤ tc := by positivity
  have hK0 : (0 : ℚ) ≤ K := by positivity
  have h1 := Dbl.le_mul_val (Dbl.of_uint tc) (Dbl.of_decimal 7 100) K (by omega) (by
    rw [hx, hlit]; norm_num at htcq ⊢; nlinarith)
  have h2 := Dbl.mul_val_le_add (Dbl.of_uint tc) (Dbl.of_decimal 7 100)
  rw [hx, hlit] at h2
  have hfloor : (code_variance_product 7 100 tc).trunc = K := by
    unfold code_variance_product
    rw [Dbl.trunc_eq_floor, Nat.floor_eq_iff (Dbl.val_nonneg _)]
    refine ⟨h1, lt_of_le_of_lt h2 ?_⟩
    have htc2 : (tc : ℚ) < 281474976710656 := by exact_mod_cast h
    have e : (tc : ℚ) * (5044031582654956 / 2 ^ 56) + tc * (5044031582654956 / 2 ^ 56) / 2 ^ 53
        = (tc * 7) * (5044031582654956 / 2 ^ 56 / 7) + tc * (5044031582654956 / 2 ^ 56 / 2 ^ 53) := by
      ring
    rw [e, htcq]
    norm_num
    linarith
  unfold code_variance
  rw [Dbl.to_uint64_of_lt _ _ (by rw [hfloor]; omega), hfloor, spec_variance_7]
  omega

/-! ## What the two cost computations return -/

/-- The six-term sum of `calculate_movement_cycles`, with the size-tier, HBM and
direction terms written as the functions of the specification. -/
theorem code_movement_sum_eq (oor : Nat → Nat) (f b : Nat) (wb : Bool) :
    code_movement_sum oor f b wb
      = code_transfer_cycles oor f b + 1000 + spec_size_tier_overhead b + spec_hbm_overhead b
        + code_variance oor 10 100 (code_transfer_cycles oor f b)
        + spec_direction_overhead wb := by
  unfold code_movement_sum
  rw [code_size_overhead_eq, code_hbm_overhead_eq, spec_direction_overhead]

/-- The five-term sum of `calculate_load_cycles`, with the size-tier and HBM
terms written as the functions of the specification. -/
theorem code_load_sum_eq (oor : Nat → Nat) (f l b : Nat) :
    code_load_sum oor f l b
      = code_transfer_cycles oor f b + l + spec_size_tier_overhead b + spec_hbm_overhead b
        + code_variance oor 7 100 (code_transfer_cycles oor f b) := by
  unfold code_load_sum
  rw [code_size_overhead_eq, code_hbm_overhead_eq]

/-- The breakdown logged by `calculate_movement_cycles`, term by term. -/
theorem movement_log_eq (oor : Nat → Nat) (self : ActivationMovement) :
    (self.calculate_movement_cycles oor).2 =
      { num_tokens := self._num_tokens, E := self._E,
        activation_size_bytes := self._activation_size_bytes,
        movement_cycles :=
          code_movement_sum oor (u32 self._config.core_freq) self._activation_size_bytes
            (name_has_movement_2 self._name) % 2 ^ 32,
        transfer_cycles := code_transfer_cycles oor (u32 self._config.core_freq)
          self._activation_size_bytes,
        base_latency := 1000,
        size_overhead := spec_size_tier_overhead self._activation_size_bytes,
        hbm_overhead := spec_hbm_overhead self._activation_size_bytes,
        variance := code_variance oor 10 100
          (code_transfer_cycles oor (u32 self._config.core_freq) self._activation_size_bytes),
        write_overhead := spec_direction_overhead (name_has_movement_2 self._name) } := by
  simp only [ActivationMovement.calculate_movement_cycles, code_movement_sum_eq,
    code_transfer_cycles, code_transfer_quotient, code_bytes_per_cycle, code_variance,
    code_variance_product, code_size_overhead_eq, code_hbm_overhead_eq, u32_u64,
    spec_direction_overhead]

/-- The object `calculate_movement_cycles` leaves: only `_movement_cycles`
changes, and it holds the six-term sum reduced to 32 bits. -/
theorem movement_self_eq (oor : Nat → Nat) (self : ActivationMovement) :
    (self.calculate_movement_cycles oor).1 =
      { self with
        _movement_cycles :=
          code_movement_sum oor (u32 self._config.core_freq) self._activation_size_bytes
            (name_has_movement_2 self._name) % 2 ^ 32 } := by
  simp only [ActivationMovement.calculate_movement_cycles, code_movement_sum_eq,
    code_transfer_cycles, code_transfer_quotient, code_bytes_per_cycle, code_variance,
    code_variance_product, code_size_overhead_eq, code_hbm_overhead_eq, u32_u64,
    spec_direction_overhead]

/-- The breakdown logged by `calculate_load_cycles`, term by term. -/
theorem load_log_eq (oor : Nat → Nat) (w : Nat) (self : ExpertParamLoad) :
    (self.calculate_load_cycles oor w).2 =
      { expert_id := self._expert_id, param_bytes := u64 self._param_size_bytes,
        load_cycles :=
          u64 (code_load_sum oor (u32 self._config.core_freq)
            (u64 self._config.expert_load_latency) (u64 self._param_size_bytes)) % 2 ^ w,
        transfer_cycles := code_transfer_cycles oor (u32 self._config.core_freq)
          (u64 self._param_size_bytes),
        base_latency := u64 self._config.expert_load_latency,
        size_overhead := spec_size_tier_overhead (u64 self._param_size_bytes),
        hbm_overhead := spec_hbm_overhead (u64 self._param_size_bytes),
        variance := code_variance oor 7 100
          (code_transfer_cycles oor (u32 self._config.core_freq)
            (u64 self._param_size_bytes)) } := by
  simp only [ExpertParamLoad.calculate_load_cycles, code_load_sum_eq,
    code_transfer_cycles, code_transfer_quotient, code_bytes_per_cycle, code_variance,
    code_variance_product, code_size_overhead_eq, code_hbm_overhead_eq]

/-- The object `calculate_load_cycles` leaves: only `_load_cycles` changes, and
it holds the 64-bit five-term sum reduced to the width of the field. -/
theorem load_self_eq (oor : Nat → Nat) (w : Nat) (self : ExpertParamLoad) :
    (self.calculate_load_cycles oor w).1 =
      { self with
        _load_cycles :=
          u64 (code_load_sum oor (u32 self._config.core_freq)
            (u64 self._config.expert_load_latency) (u64 self._param_size_bytes)) % 2 ^ w } := by
  simp only [ExpertParamLoad.calculate_load_cycles, code_load_sum_eq,
    code_transfer_cycles, code_transfer_quotient, code_bytes_per_cycle, code_variance,
    code_variance_product, code_size_overhead_eq, code_hbm_overhead_eq]

/-- The object the constructor of `ActivationMovement` returns. -/
theorem movement_new_self (oor : Nat → Nat) (cfg : SimulationConfig) (id : Nat) (name : String)
    (T E : Nat) :
    (ActivationMovement.new oor cfg id name T E).1 =
      { _name := name, _id := id, _config := cfg, _inputs := [none], _outputs := [],
        _tiles := [], _num_tokens := T, _E := E,
        _activation_size_bytes := u64 (T * E * cfg.precision),
        _movement_cycles :=
          code_movement_sum oor (u32 cfg.core_freq) (u64 (T * E * cfg.precision))
            (name_has_movement_2 name) % 2 ^ 32 } := by
  unfold ActivationMovement.new
  simp only [movement_self_eq]
  simp [Operation.new, resize]

/-- The diagnostic record the constructor of `ActivationMovement` logs. -/
theorem movement_new_log (oor : Nat → Nat) (cfg : SimulationConfig) (id : Nat) (name : String)
    (T E : Nat) :
    (ActivationMovement.new oor cfg id name T E).2 =
      { num_tokens := T, E := E,
        activation_size_bytes := u64 (T * E * cfg.precision),
        movement_cycles :=
          code_movement_sum oor (u32 cfg.core_freq) (u64 (T * E * cfg.precision))
            (name_has_movement_2 name) % 2 ^ 32,
        transfer_cycles := code_transfer_cycles oor (u32 cfg.core_freq)
          (u64 (T * E * cfg.precision)),
        base_latency := 1000,
        size_overhead := spec_size_tier_overhead (u64 (T * E * cfg.precision)),
        hbm_overhead := spec_hbm_overhead (u64 (T * E * cfg.precision)),
        variance := code_variance oor 10 100
          (code_transfer_cycles oor (u32 cfg.core_freq) (u64 (T * E * cfg.precision))),
        write_overhead := spec_direction_overhead (name_has_movement_2 name) } := by
  unfold ActivationMovement.new
  simp only [movement_log_eq]
  simp [Operation.new]

/-- The object the constructor of `ExpertParamLoad` returns when every weight
has a first inner tensor, `B` being the accumulated size. -/
theorem load_new_ok (oor : Nat → Nat) (w : Nat) (cfg : SimulationConfig) (id : Nat)
    (name : String) (expert_id : Nat) (weights : List NPUTensor) (data : BTensor) (B : Nat)
    (h : ExpertParamLoad.sum_param_size weights 0 = .ok B) :
    ExpertParamLoad.new oor w cfg id name expert_id weights data =
      .ok (ExpertParamLoad.calculate_load_cycles oor w
        { _name := name, _id := id, _config := cfg,
          _inputs := ExpertParamLoad.store_weights weights 0
            (resize [] (weights.length + 1) none),
          _outputs := [], _tiles := [], _expert_id := expert_id, _data_tensor := data,
          _expert_weights := weights, _param_size_bytes := B, _load_cycles := 0 }) := by
  unfold ExpertParamLoad.new
  rw [h]
  rfl

/-! ## Where the floating-point terms are the exact ones -/

/-- The transfer time of the specification is at most `bytes * 2^k` when
`22000 / core_freq` is `M / 2^k`. -/
theorem spec_transfer_cycles_lt (f b M k : Nat)
    (hM : M * f = 22000 * 2 ^ k) (hb : b * 2 ^ k < 2 ^ 48) :
    spec_transfer_cycles f b < 2 ^ 48 := by
  rw [spec_transfer_cycles_eq]
  have hMpos : 0 < M := by
    rcases Nat.eq_zero_or_pos M with h0 | h0
    · subst h0
      have : 0 < 22000 * 2 ^ k := by positivity
      omega
    · exact h0
  have h1 : b * f / 22000 ≤ b * 2 ^ k := by
    apply Nat.div_le_of_le_mul
    calc b * f ≤ b * (M * f) := Nat.mul_le_mul_left b (Nat.le_mul_of_pos_left f hMpos)
      _ = 22000 * (b * 2 ^ k) := by rw [hM]; ring
  omega

/-- When `22000 / core_freq` is the binary64 number `M / 2^k` and
`bytes * 2^k < 2^48`, the six-term sum of the code is the cost sum of the
specification. -/
theorem movement_sum_exact (oor : Nat → Nat) (f b M k : Nat) (wb : Bool) (hf : 0 < f)
    (hf32 : f < 2 ^ 32) (hM : M * f = 22000 * 2 ^ k) (hM53 : M < 2 ^ 53)
    (hb : b * 2 ^ k < 2 ^ 48) :
    code_movement_sum oor f b wb = spec_movement_cost f b wb := by
  rw [code_movement_sum_eq, transfer_cycles_exact oor f b M k hf hf32 hM hM53 hb,
    variance_10_exact oor _ (spec_transfer_cycles_lt f b M k hM hb)]
  rfl

/-- When `22000 / core_freq` is the binary64 number `M / 2^k` and
`bytes * 2^k < 2^48`, the five-term sum of the code is the cost sum of the
specification. -/
theorem load_sum_exact (oor : Nat → Nat) (f l b M k : Nat) (hf : 0 < f)
    (hf32 : f < 2 ^ 32) (hM : M * f = 22000 * 2 ^ k) (hM53 : M < 2 ^ 53)
    (hb : b * 2 ^ k < 2 ^ 48) :
    code_load_sum oor f l b = spec_load_cost f l b := by
  rw [code_load_sum_eq, transfer_cycles_exact oor f b M k hf hf32 hM hM53 hb,
    variance_7_exact oor _ (spec_transfer_cycles_lt f b M k hM hb)]
  rfl

/-- At a 1000 MHz clock (22 bytes per cycle) and below 2^48 bytes the six-term
sum of the code is the cost sum of the specification. -/
theorem movement_sum_1000 (oor : Nat → Nat) (b : Nat) (wb : Bool) (hb : b < 2 ^ 48) :
    code_movement_sum oor 1000 b wb = spec_movement_cost 1000 b wb :=
  movement_sum_exact oor 1000 b 22 0 wb (by norm_num) (by norm_num) (by norm_num) (by norm_num)
    (by simpa using hb)

/-- At a 1000 MHz clock (22 bytes per cycle) and below 2^48 bytes the five-term
sum of the code is the cost sum of the specification. -/
theorem load_sum_1000 (oor : Nat → Nat) (l b : Nat) (hb : b < 2 ^ 48) :
    code_load_sum oor 1000 l b = spec_load_cost 1000 l b :=
  load_sum_exact oor 1000 l b 22 0 (by norm_num) (by norm_num) (by norm_num) (by norm_num)
    (by simpa using hb)

/-! ## Binary64: how far the transfer time is from the exact one -/

namespace Dbl

/-- Rounding takes away at most one part in 2^53. -/
theorem sub_le_rne (n d : Nat) (s : Int) (hd : d ≠ 0) :
    (n : ℚ) / (d : ℚ) * (2 : ℚ) ^ s - (n : ℚ) / (d : ℚ) * (2 : ℚ) ^ s / 2 ^ 53
      ≤ (rne n d s).val := by
  rcases Nat.eq_zero_or_pos n with h0 | h0
  · subst h0; rw [rne_zero]; simp [val]
  obtain ⟨N, D, hD, a, b, v, m⟩ := rne_spec n d s (by omega) hd
  unfold val
  rw [m, ← v]
  generalize (rne n d s).e = e at *
  have hDq : (0 : ℚ) < D := by exact_mod_cast hD
  have p : (0 : ℚ) < (2 : ℚ) ^ e := by positivity
  have lo : (2 : ℚ) ^ 52 ≤ (N : ℚ) / D := by
    rw [le_div_iff₀ hDq]; exact_mod_cast a
  have herr : 2 * N ≤ 2 * round_half_even N D * D + D := by
    have e1 := Nat.div_add_mod N D
    have hm : N % D < D := Nat.mod_lt _ hD
    have e2 : 2 * (N / D) * D = 2 * (D * (N / D)) := by ring
    have e3 : 2 * (N / D + 1) * D = 2 * (D * (N / D)) + 2 * D := by ring
    unfold round_half_even
    split_ifs <;> first | (rw [e2]; omega) | (rw [e3]; omega)
  have hq : (N : ℚ) / D - 1 / 2 ≤ (round_half_even N D : ℚ) := by
    have : (2 * N : ℚ) ≤ 2 * round_half_even N D * D + D := by exact_mod_cast herr
    rw [sub_le_iff_le_add, div_le_iff₀ hDq]
    linarith
  have h3 : (N : ℚ) / D - (N : ℚ) / D / 2 ^ 53 ≤ (round_half_even N D : ℚ) := by
    have : (1 : ℚ) / 2 ≤ (N : ℚ) / D / 2 ^ 53 := by
      rw [le_div_iff₀ (by positivity)]; linarith
    linarith
  calc (N : ℚ) / D * (2 : ℚ) ^ e - (N : ℚ) / D * (2 : ℚ) ^ e / 2 ^ 53
      = ((N : ℚ) / D - (N : ℚ) / D / 2 ^ 53) * (2 : ℚ) ^ e := by ring
    _ ≤ (round_half_even N D : ℚ) * (2 : ℚ) ^ e := mul_le_mul_of_nonneg_right h3 p.le

theorem sub_le_div_val (x y : Dbl) (hy : y.m ≠ 0) :
    x.val / y.val - x.val / y.val / 2 ^ 53 ≤ (x.div y).val := by
  have := sub_le_rne x.m y.m (x.e - y.e) hy
  rw [div_arg _ _ hy] at this
  exact this

end Dbl

/-- For a positive 32-bit clock `bytes_per_cycle` is `22000 / core_freq_mhz` up
to one part in 2^53. -/
theorem bytes_per_cycle_near (f : Nat) (hf : 0 < f) (hf32 : f < 2 ^ 32) :
    ∃ y : Dbl, code_bytes_per_cycle f = some y ∧ y.m ≠ 0
      ∧ 22000 / (f : ℚ) - 22000 / (f : ℚ) / 2 ^ 53 ≤ y.val
      ∧ y.val ≤ 22000 / (f : ℚ) + 22000 / (f : ℚ) / 2 ^ 53 := by
  have hnum := Dbl.numerator_val
  have hden := Dbl.denominator_val f hf32
  have hfq : (0 : ℚ) < f := by exact_mod_cast hf
  have hdm : ((Dbl.of_uint f).mul (Dbl.of_decimal (10 ^ 6) 1)).m ≠ 0 := by
    rw [← Dbl.val_pos_iff, hden]; positivity
  have hnm : ((Dbl.of_uint 22).mul (Dbl.of_decimal (10 ^ 9) 1)).m ≠ 0 := by
    rw [← Dbl.val_pos_iff, hnum]; positivity
  have hq : ((Dbl.of_uint 22).mul (Dbl.of_decimal (10 ^ 9) 1)).val
      / ((Dbl.of_uint f).mul (Dbl.of_decimal (10 ^ 6) 1)).val = 22000 / (f : ℚ) := by
    rw [hnum, hden]; field_simp; ring
  refine ⟨_, by unfold code_bytes_per_cycle Dbl.div_or_inf; rw [if_neg hdm],
    Dbl.div_m_ne_zero _ _ hnm hdm, ?_, ?_⟩
  · have := Dbl.sub_le_div_val ((Dbl.of_uint 22).mul (Dbl.of_decimal (10 ^ 9) 1)) _ hdm
    rw [hq] at this
    exact this
  · have := Dbl.div_val_le_add ((Dbl.of_uint 22).mul (Dbl.of_decimal (10 ^ 9) 1)) _ hdm
    rw [hq] at this
    exact this

/-- For a positive 32-bit clock, a byte count below 2^53 and an exact transfer
time below 2^51, the `transfer_cycles` of the code is within 1 of the exact
`floor(bytes / (22 * 1000 / core_freq_mhz))`. -/
theorem transfer_cycles_near (oor : Nat → Nat) (f b : Nat) (hf : 0 < f) (hf32 : f < 2 ^ 32)
    (hb : b < 2 ^ 53) (hx : b * f < 22000 * 2 ^ 51) :
    spec_transfer_cycles f b ≤ code_transfer_cycles oor f b + 1
      ∧ code_transfer_cycles oor f b ≤ spec_transfer_cycles f b + 1 := by
  obtain ⟨y, hy, hym, hylo, hyhi⟩ := bytes_per_cycle_near f hf hf32
  have hfq : (0 : ℚ) < f := by exact_mod_cast hf
  have hA : (0 : ℚ) < 22000 / (f : ℚ) := by positivity
  have hbq : (0 : ℚ) ≤ b := by positivity
  have hyp : (0 : ℚ) < y.val := (Dbl.val_pos_iff y).mpr hym
  have hbv : (Dbl.of_uint b).val = b := Dbl.of_uint_exact_small b hb
  -- the exact quotient
  have hxdef : (b : ℚ) / (22000 / (f : ℚ)) = (b * f : ℕ) / 22000 := by
    push_cast; field_simp
  have hx0 : (0 : ℚ) ≤ (b : ℚ) / (22000 / (f : ℚ)) := by positivity
  have hxlt : (b : ℚ) / (22000 / (f : ℚ)) < 2 ^ 51 := by
    rw [hxdef, div_lt_iff₀ (by norm_num)]
    have : ((b * f : ℕ) : ℚ) < ((22000 * 2 ^ 51 : ℕ) : ℚ) := by exact_mod_cast hx
    push_cast at this ⊢
    linarith
  have hS : spec_transfer_cycles f b = ⌊(b : ℚ) / (22000 / (f : ℚ))⌋₊ := by
    unfold spec_transfer_cycles
    norm_num
  have hSle : ((spec_transfer_cycles f b : ℕ) : ℚ) ≤ (b : ℚ) / (22000 / (f : ℚ)) := by
    rw [hS]; exact Nat.floor_le hx0
  have hSgt : (b : ℚ) / (22000 / (f : ℚ)) < (spec_transfer_cycles f b : ℕ) + 1 := by
    rw [hS]; exact Nat.lt_floor_add_one _
  have hSlt : spec_transfer_cycles f b < 2 ^ 51 := by
    have : ((spec_transfer_cycles f b : ℕ) : ℚ) < ((2 ^ 51 : ℕ) : ℚ) := by
      push_cast; linarith
    exact_mod_cast this
  -- the quotient of the doubles, before it is rounded
  have hrlo : (b : ℚ) / (22000 / (f : ℚ)) - (b : ℚ) / (22000 / (f : ℚ)) / 2 ^ 53
      ≤ (b : ℚ) / y.val := by
    have h1 : (b : ℚ) / (22000 / (f : ℚ) + 22000 / (f : ℚ) / 2 ^ 53) ≤ (b : ℚ) / y.val :=
      div_le_div_of_nonneg_left hbq hyp hyhi
    have h2 : (b : ℚ) / (22000 / (f : ℚ)) - (b : ℚ) / (22000 / (f : ℚ)) / 2 ^ 53
        ≤ (b : ℚ) / (22000 / (f : ℚ) + 22000 / (f : ℚ) / 2 ^ 53) := by
      have e : (22000 / (f : ℚ) + 22000 / (f : ℚ) / 2 ^ 53)
          = 22000 / (f : ℚ) * (1 + 1 / 2 ^ 53) := by ring
      rw [e, ← div_div, le_div_iff₀ (by norm_num)]
      have : ((b : ℚ) / (22000 / (f : ℚ)) - (b : ℚ) / (22000 / (f : ℚ)) / 2 ^ 53)
          * (1 + 1 / 2 ^ 53)
          = (b : ℚ) / (22000 / (f : ℚ)) * (1 - 1 / 2 ^ 106) := by ring
      rw [this]
      nlinarith
    linarith
  have hrhi : (b : ℚ) / y.val
      ≤ (b : ℚ) / (22000 / (f : ℚ)) + (b : ℚ) / (22000 / (f : ℚ)) / 2 ^ 52 := by
    have hpos : (0 : ℚ) < 22000 / (f : ℚ) - 22000 / (f : ℚ) / 2 ^ 53 := by
      have e : 22000 / (f : ℚ) - 22000 / (f : ℚ) / 2 ^ 53
          = 22000 / (f : ℚ) * (1 - 1 / 2 ^ 53) := by ring
      rw [e]
      exact mul_pos hA (by norm_num)
    have h1 : (b : ℚ) / y.val ≤ (b : ℚ) / (22000 / (f : ℚ) - 22000 / (f : ℚ) / 2 ^ 53) :=
      div_le_div_of_nonneg_left hbq hpos hylo
    have h2 : (b : ℚ) / (22000 / (f : ℚ) - 22000 / (f : ℚ) / 2 ^ 53)
        ≤ (b : ℚ) / (22000 / (f : ℚ)) + (b : ℚ) / (22000 / (f : ℚ)) / 2 ^ 52 := by
      have e : (22000 / (f : ℚ) - 22000 / (f : ℚ) / 2 ^ 53)
          = 22000 / (f : ℚ) * (1 - 1 / 2 ^ 53) := by ring
      rw [e, ← div_div, div_le_iff₀ (by norm_num)]
      have : ((b : ℚ) / (22000 / (f : ℚ)) + (b : ℚ) / (22000 / (f : ℚ)) / 2 ^ 52)
          * (1 - 1 / 2 ^ 53)
          = (b : ℚ) / (22000 / (f : ℚ)) * (1 + 1 / 2 ^ 53 - 1 / 2 ^ 105) := by ring
      rw [this]
      nlinarith
    linarith
  -- the rounded quotient
  have hqhi : ((Dbl.of_uint b).div y).val < (spec_transfer_cycles f b : ℕ) + 2 := by
    have h := Dbl.div_val_le_add (Dbl.of_uint b) y hym
    rw [hbv] at h
    have h3 : (b : ℚ) / y.val / 2 ^ 53
        ≤ ((b : ℚ) / (22000 / (f : ℚ)) + (b : ℚ) / (22000 / (f : ℚ)) / 2 ^ 52) / 2 ^ 53 :=
      div_le_div_of_nonneg_right hrhi (by norm_num)
    have h4 : (b : ℚ) / (22000 / (f : ℚ)) / 2 ^ 52 < 1 / 2 := by
      rw [div_lt_iff₀ (by norm_num)]; linarith
    have h5 : ((b : ℚ) / (22000 / (f : ℚ)) + (b : ℚ) / (22000 / (f : ℚ)) / 2 ^ 52) / 2 ^ 53
        < 1 / 2 := by
      rw [div_lt_iff₀ (by norm_num)]; linarith
    linarith
  have hqlo : ((spec_transfer_cycles f b - 1 : ℕ) : ℚ) ≤ ((Dbl.of_uint b).div y).val := by
    apply Dbl.le_div_val _ _ hym _ (by omega)
    rw [hbv]
    have h4 : (b : ℚ) / (22000 / (f : ℚ)) / 2 ^ 53 ≤ 1 := by
      rw [div_le_iff₀ (by norm_num)]; linarith
    have h5 : ((spec_transfer_cycles f b - 1 : ℕ) : ℚ) ≤ (spec_transfer_cycles f b : ℕ) - 1 + 1 := by
      have : spec_transfer_cycles f b - 1 ≤ spec_transfer_cycles f b := Nat.sub_le _ _
      have : ((spec_transfer_cycles f b - 1 : ℕ) : ℚ) ≤ (spec_transfer_cycles f b : ℕ) := by
        exact_mod_cast this
      linarith
    rcases Nat.eq_zero_or_pos (spec_transfer_cycles f b) with h0 | h0
    · rw [h0]; simp; positivity
    · have : ((spec_transfer_cycles f b - 1 : ℕ) : ℚ) = (spec_transfer_cycles f b : ℕ) - 1 := by
        rw [Nat.cast_sub h0]; simp
      rw [this]
      linarith
  have hfl_hi : ((Dbl.of_uint b).div y).trunc ≤ spec_transfer_cycles f b + 1 := by
    rw [Dbl.trunc_eq_floor]
    have : ⌊((Dbl.of_uint b).div y).val⌋₊ < spec_transfer_cycles f b + 2 := by
      rw [Nat.floor_lt (Dbl.val_nonneg _)]
      push_cast
      exact hqhi
    omega
  have hfl_lo : spec_transfer_cycles f b - 1 ≤ ((Dbl.of_uint b).div y).trunc := by
    rw [Dbl.trunc_eq_floor]
    exact Nat.le_floor hqlo
  have htc : code_transfer_cycles oor f b = ((Dbl.of_uint b).div y).trunc := by
    unfold code_transfer_cycles code_transfer_quotient
    rw [hy]
    simp only [Dbl.div_by]
    rw [Dbl.to_uint64_of_lt _ _ (by omega)]
  rw [htc]
  omega

/-- The exact transfer time is below 2^47 when `bytes * core_freq` is below
`22000 * 2^47`. -/
theorem spec_transfer_cycles_lt_of_mul (f b n : Nat) (hx : b * f < 22000 * 2 ^ n) :
    spec_transfer_cycles f b < 2 ^ n := by
  rw [spec_transfer_cycles_eq]
  exact Nat.div_lt_of_lt_mul hx

/-- For a positive 32-bit clock, a byte count below 2^53 and an exact transfer
time below 2^47, the six-term sum of the code is within 2 of the cost sum of the
specification. -/
theorem movement_sum_near (oor : Nat → Nat) (f b : Nat) (wb : Bool) (hf : 0 < f)
    (hf32 : f < 2 ^ 32) (hb : b < 2 ^ 53) (hx : b * f < 22000 * 2 ^ 47) :
    spec_movement_cost f b wb ≤ code_movement_sum oor f b wb + 2
      ∧ code_movement_sum oor f b wb ≤ spec_movement_cost f b wb + 2 := by
  obtain ⟨h1, h2⟩ := transfer_cycles_near oor f b hf hf32 hb
    (lt_of_lt_of_le hx (Nat.mul_le_mul_left _ (Nat.pow_le_pow_right (by norm_num) (by norm_num))))
  have hS := spec_transfer_cycles_lt_of_mul f b 47 hx
  have htc : code_transfer_cycles oor f b < 2 ^ 48 := by omega
  rw [code_movement_sum_eq, variance_10_exact oor _ htc, spec_variance_10]
  unfold spec_movement_cost
  rw [spec_variance_10]
  omega

/-- For a positive 32-bit clock, a byte count below 2^53 and an exact transfer
time below 2^47, the five-term sum of the code is within 2 of the cost sum of
the specification. -/
theorem load_sum_near (oor : Nat → Nat) (f l b : Nat) (hf : 0 < f)
    (hf32 : f < 2 ^ 32) (hb : b < 2 ^ 53) (hx : b * f < 22000 * 2 ^ 47) :
    spec_load_cost f l b ≤ code_load_sum oor f l b + 2
      ∧ code_load_sum oor f l b ≤ spec_load_cost f l b + 2 := by
  obtain ⟨h1, h2⟩ := transfer_cycles_near oor f b hf hf32 hb
    (lt_of_lt_of_le hx (Nat.mul_le_mul_left _ (Nat.pow_le_pow_right (by norm_num) (by norm_num))))
  have hS := spec_transfer_cycles_lt_of_mul f b 47 hx
  have htc : code_transfer_cycles oor f b < 2 ^ 48 := by omega
  rw [code_load_sum_eq, variance_7_exact oor _ htc, spec_variance_7]
  unfold spec_load_cost
  rw [spec_variance_7]
  omega

/-! ## Monotonicity of the two sums within a size tier -/

theorem spec_hbm_overhead_mono {a b : Nat} (h : a ≤ b) :
    spec_hbm_overhead a ≤ spec_hbm_overhead b := by
  unfold spec_hbm_overhead
  split_ifs <;> omega

/-- Within one size tier, and while the quotient converted to `transfer_cycles`
stays below 2^64, the six-term sum of the code does not decrease with the byte
count, and it grows when `transfer_cycles` does. -/
theorem movement_sum_mono (oor : Nat → Nat) (f : Nat) (wb : Bool) {a b : Nat} (h : a ≤ b)
    (ht : spec_size_tier_overhead a = spec_size_tier_overhead b)
    (hr : (code_transfer_quotient f b).trunc < 2 ^ 64) :
    code_movement_sum oor f a wb ≤ code_movement_sum oor f b wb
      ∧ (code_transfer_cycles oor f a < code_transfer_cycles oor f b →
          code_movement_sum oor f a wb < code_movement_sum oor f b wb) := by
  rw [code_movement_sum_eq, code_movement_sum_eq, ht]
  have h1 := transfer_cycles_mono oor f h hr
  have h2 := spec_hbm_overhead_mono h
  have h3 := variance_mono oor 10 100 (by norm_num) (by norm_num) h1 (transfer_cycles_lt oor f b)
  constructor
  · omega
  · intro hc
    omega

/-- Within one size tier, and while the quotient converted to `transfer_cycles`
stays below 2^64, the five-term sum of the code does not decrease with the byte
count. -/
theorem load_sum_mono (oor : Nat → Nat) (f l : Nat) {a b : Nat} (h : a ≤ b)
    (ht : spec_size_tier_overhead a = spec_size_tier_overhead b)
    (hr : (code_transfer_quotient f b).trunc < 2 ^ 64) :
    code_load_sum oor f l a ≤ code_load_sum oor f l b := by
  rw [code_load_sum_eq, code_load_sum_eq, ht]
  have h1 := transfer_cycles_mono oor f h hr
  have h2 := spec_hbm_overhead_mono h
  have h3 := variance_mono oor 7 100 (by norm_num) (by norm_num) h1 (transfer_cycles_lt oor f b)
  omega

/-! ## The cost computations at particular inputs -/

theorem transfer_quotient_2500_132 : (code_transfer_quotient 2500 132).trunc = 14 := by decide

theorem variance_product_10_14 : (code_variance_product 10 100 14).trunc = 1 := by decide

theorem variance_product_7_14 : (code_variance_product 7 100 14).trunc = 0 := by decide

theorem transfer_quotient_max_49 :
    (code_transfer_quotient 4294967295 (2 ^ 49)).trunc = 109902347212104925184 := by decide

theorem transfer_quotient_max_46 :
    (code_transfer_quotient 4294967295 (2 ^ 46)).trunc = 13737793401513115648 := by decide

theorem variance_product_10_max_46 :
    (code_variance_product 10 100 13737793401513115648).trunc = 1373779340151311616 := by decide

theorem variance_product_10_0 : (code_variance_product 10 100 0).trunc = 0 := by decide

/-! ## Output binding -/

/-- Output binding of an ActivationMovement stops at the assertion when the
number of tensors passed is not 1. -/
theorem movement_get_outputs_wrong_count (base : Nat) (self : ActivationMovement)
    (inputs : List BTensor) (h : inputs.length ≠ 1) :
    (self.get_outputs base inputs).result = .error .assertion := by
  unfold ActivationMovement.get_outputs
  simp [h]

/-- Output binding of an ActivationMovement on one tensor. -/
theorem movement_get_outputs_one (base : Nat) (self : ActivationMovement) (t : BTensor) :
    self.get_outputs base [t] =
      { self :=
          { self with
            _inputs := self._inputs.set 0 (some t),
            _outputs := (resize self._outputs 1 none).set 0
              (some (make_NPUTensor (self._name ++ "_output") t._dims NPUTensorBufType.ACT false)),
            _tiles := self._tiles ++ [cost_tile base self._name self._id self._movement_cycles] },
        registered := [{ tensor := t, dependent := self._id }],
        result := .ok ((resize self._outputs 1 none).set 0
          (some (make_NPUTensor (self._name ++ "_output") t._dims NPUTensorBufType.ACT false))) } := by
  simp [ActivationMovement.get_outputs, Operation.set_as_parent_tensor,
    ActivationMovement.initialize_tiles, Operation.get_name, BTensor.get_dims, cost_tile]

/-- Output binding of an ExpertParamLoad stops at the assertion when the number
of tensors passed is not 1. -/
theorem load_get_outputs_wrong_count (base : Nat) (self : ExpertParamLoad)
    (inputs : List BTensor) (h : inputs.length ≠ 1) :
    (self.get_outputs base inputs).result = .error .assertion := by
  unfold ExpertParamLoad.get_outputs
  simp [h]

/-- Output binding of an ExpertParamLoad on one tensor. -/
theorem load_get_outputs_one (base : Nat) (self : ExpertParamLoad) (t : BTensor) :
    self.get_outputs base [t] =
      { self :=
          { self with
            _inputs := self._inputs.set 0 (some t),
            _outputs := ((resize self._outputs 2 none).set 0
              (some (make_NPUTensor (self._name ++ "_data_output") self._data_tensor._dims
                NPUTensorBufType.ACT false))).set 1
              (some (make_NPUTensor (self._name ++ "_completion_signal") [1]
                NPUTensorBufType.ACT false)),
            _tiles := self._tiles ++ [cost_tile base self._name self._id self._load_cycles] },
        registered := [{ tensor := t, dependent := self._id }],
        result := .ok (((resize self._outputs 2 none).set 0
              (some (make_NPUTensor (self._name ++ "_data_output") self._data_tensor._dims
                NPUTensorBufType.ACT false))).set 1
              (some (make_NPUTensor (self._name ++ "_completion_signal") [1]
                NPUTensorBufType.ACT false))) } := by
  simp [ExpertParamLoad.get_outputs, Operation.set_as_parent_tensor,
    ExpertParamLoad.initialize_tiles, Operation.get_name, BTensor.get_dims, cost_tile]

/-- A successful output binding was passed exactly one tensor. -/
theorem movement_get_outputs_ok_length (base : Nat) (self : ActivationMovement)
    (inputs : List BTensor) (outs : List (Option BTensor))
    (h : (self.get_outputs base inputs).result = .ok outs) : ∃ t, inputs = [t] := by
  by_cases hl : inputs.length = 1
  · exact List.length_eq_one.mp hl
  · rw [movement_get_outputs_wrong_count base self inputs hl] at h
    cases h

/-- A successful output binding was passed exactly one tensor. -/
theorem load_get_outputs_ok_length (base : Nat) (self : ExpertParamLoad)
    (inputs : List BTensor) (outs : List (Option BTensor))
    (h : (self.get_outputs base inputs).result = .ok outs) : ∃ t, inputs = [t] := by
  by_cases hl : inputs.length = 1
  · exact List.length_eq_one.mp hl
  · rw [load_get_outputs_wrong_count base self inputs hl] at h
    cases h

theorem resize_one_set {α : Type} (l : List α) (d x : α) : (resize l 1 d).set 0 x = [x] := by
  cases l <;> simp [resize]

theorem resize_two_set {α : Type} (l : List α) (d x y : α) :
    ((resize l 2 d).set 0 x).set 1 y = [x, y] := by
  rcases l with _ | ⟨a, _ | ⟨b, l⟩⟩ <;> simp [resize]

/-- The vector an ActivationMovement returns when bound to one tensor. -/
theorem movement_get_outputs_result (base : Nat) (self : ActivationMovement) (t : BTensor) :
    (self.get_outputs base [t]).result =
      .ok [some (make_NPUTensor (self._name ++ "_output") t._dims NPUTensorBufType.ACT false)] := by
  rw [movement_get_outputs_one, resize_one_set]

/-- The vector an ExpertParamLoad returns when bound to one tensor. -/
theorem load_get_outputs_result (base : Nat) (self : ExpertParamLoad) (t : BTensor) :
    (self.get_outputs base [t]).result =
      .ok [some (make_NPUTensor (self._name ++ "_data_output") self._data_tensor._dims
              NPUTensorBufType.ACT false),
           some (make_NPUTensor (self._name ++ "_completion_signal") [1]
              NPUTensorBufType.ACT false)] := by
  rw [load_get_outputs_one, resize_two_set]

/-- Output binding of an ActivationMovement that stops at the assertion leaves
the operation as it was; `set_as_parent_tensor` has by then been called on the
tensors passed. -/
theorem movement_get_outputs_abort_state (base : Nat) (self : ActivationMovement)
    (inputs : List BTensor) (h : inputs.length ≠ 1) :
    (self.get_outputs base inputs).self = self
      ∧ (self.get_outputs base inputs).registered
        = inputs.map (fun t => { tensor := t, dependent := self._id }) := by
  unfold ActivationMovement.get_outputs
  simp [Operation.set_as_parent_tensor, h]

/-- Output binding of an ExpertParamLoad that stops at the assertion leaves the
operation as it was; `set_as_parent_tensor` has by then been called on the
tensors passed. -/
theorem load_get_outputs_abort_state (base : Nat) (self : ExpertParamLoad)
    (inputs : List BTensor) (h : inputs.length ≠ 1) :
    (self.get_outputs base inputs).self = self
      ∧ (self.get_outputs base inputs).registered
        = inputs.map (fun t => { tensor := t, dependent := self._id }) := by
  unfold ExpertParamLoad.get_outputs
  simp [Operation.set_as_parent_tensor, h]

/-! ## The constructor of ExpertParamLoad -/

/-- A freshly constructed ExpertParamLoad has no tile and no output, and keeps
the name, id and data tensor it was given. -/
theorem load_new_fresh (oor : Nat → Nat) (w : Nat) (cfg : SimulationConfig) (id : Nat)
    (name : String) (expert_id : Nat) (weights : List NPUTensor) (data : BTensor)
    (r : ExpertParamLoad × ParamLoadLog)
    (h : ExpertParamLoad.new oor w cfg id name expert_id weights data = .ok r) :
    r.1._tiles = [] ∧ r.1._outputs = [] ∧ r.1._name = name ∧ r.1._id = id
      ∧ r.1._data_tensor = data := by
  unfold ExpertParamLoad.new at h
  cases hs : ExpertParamLoad.sum_param_size weights 0 with
  | error f => rw [hs] at h; cases h
  | ok B =>
    rw [hs] at h
    simp only [Except.ok.injEq] at h
    subst h
    simp [load_self_eq, Operation.new]

/-- The loop that fills the weight slots writes the weights, in order, over the
slots that follow the first `i + 1`. -/
theorem store_weights_eq (weights : List NPUTensor) :
    ∀ (i : Nat) (pre : List (Option BTensor)), pre.length = i + 1 →
      ExpertParamLoad.store_weights weights i (pre ++ List.replicate weights.length none)
        = pre ++ weights.map (fun weight => some weight.toBTensor) := by
  induction weights with
  | nil => intro i pre _; simp [ExpertParamLoad.store_weights]
  | cons weight rest ih =>
    intro i pre hp
    have hset : (pre ++ List.replicate (weight :: rest).length none).set (i + 1)
          (some weight.toBTensor)
        = (pre ++ [some weight.toBTensor]) ++ List.replicate rest.length none := by
      rw [List.set_append_right _ _ (by omega)]
      simp [hp, List.replicate_succ]
    unfold ExpertParamLoad.store_weights
    rw [hset, ih (i + 1) (pre ++ [some weight.toBTensor]) (by simp [hp])]
    simp

/-- The input slots of a constructed ExpertParamLoad: an empty slot for the
trigger, then the weights. -/
theorem load_new_inputs (oor : Nat → Nat) (w : Nat) (cfg : SimulationConfig) (id : Nat)
    (name : String) (expert_id : Nat) (weights : List NPUTensor) (data : BTensor)
    (r : ExpertParamLoad × ParamLoadLog)
    (h : ExpertParamLoad.new oor w cfg id name expert_id weights data = .ok r) :
    r.1._inputs = none :: weights.map (fun weight => some weight.toBTensor) := by
  unfold ExpertParamLoad.new at h
  cases hs : ExpertParamLoad.sum_param_size weights 0 with
  | error f => rw [hs] at h; cases h
  | ok B =>
    rw [hs] at h
    simp only [Except.ok.injEq] at h
    subst h
    have hre : resize ([] : List (Option BTensor)) (weights.length + 1) none
        = [none] ++ List.replicate weights.length none := by
      simp [resize, List.replicate_succ]
    simp only [load_self_eq, Operation.new]
    rw [hre, store_weights_eq weights 0 [none] rfl]
    rfl

/-- The cost a constructed ExpertParamLoad stores, from its configuration and
its accumulated parameter size. -/
theorem load_new_cycles (oor : Nat → Nat) (w : Nat) (cfg : SimulationConfig) (id : Nat)
    (name : String) (expert_id : Nat) (weights : List NPUTensor) (data : BTensor)
    (r : ExpertParamLoad × ParamLoadLog)
    (h : ExpertParamLoad.new oor w cfg id name expert_id weights data = .ok r) :
    ExpertParamLoad.sum_param_size weights 0 = .ok r.1._param_size_bytes
      ∧ r.1._load_cycles
        = u64 (code_load_sum oor (u32 cfg.core_freq) (u64 cfg.expert_load_latency)
            (u64 r.1._param_size_bytes)) % 2 ^ w := by
  unfold ExpertParamLoad.new at h
  cases hs : ExpertParamLoad.sum_param_size weights 0 with
  | error f => rw [hs] at h; cases h
  | ok B =>
    rw [hs] at h
    simp only [Except.ok.injEq] at h
    subst h
    simp [load_self_eq, Operation.new]

/-- The size loop returns a total exactly when every weight tensor has a first
inner tensor; otherwise it stops at the index. -/
theorem sum_param_size_ok_iff (weights : List NPUTensor) :
    ∀ acc : Nat, (∃ B, ExpertParamLoad.sum_param_size weights acc = .ok B)
      ↔ ∀ weight ∈ weights, weight._inners ≠ [] := by
  induction weights with
  | nil => intro acc; simp [ExpertParamLoad.sum_param_size]
  | cons weight rest ih =>
    intro acc
    unfold ExpertParamLoad.sum_param_size
    cases hw : weight._inners with
    | nil => simp [hw]
    | cons inner more =>
      simp only [List.getElem?_cons_zero]
      rw [ih]
      simp [hw]

/-- The total the size loop returns is a 64-bit value when it starts from
one. -/
theorem sum_param_size_lt (weights : List NPUTensor) :
    ∀ acc B : Nat, acc < 2 ^ 64 → ExpertParamLoad.sum_param_size weights acc = .ok B →
      B < 2 ^ 64 := by
  induction weights with
  | nil =>
    intro acc B hacc h
    simp only [ExpertParamLoad.sum_param_size, Except.ok.injEq] at h
    omega
  | cons weight rest ih =>
    intro acc B _ h
    unfold ExpertParamLoad.sum_param_size at h
    cases hw : weight._inners[0]? with
    | none => rw [hw] at h; cases h
    | some inner =>
      rw [hw] at h
      exact ih _ B (Nat.mod_lt _ (by norm_num)) h

/-! ## Repeated output binding -/

theorem movement_bind_each_append (base : Nat) (ts : List BTensor) (t : BTensor) :
    ∀ self : ActivationMovement,
      ActivationMovement.bind_each base self (ts ++ [t])
        = ((ActivationMovement.bind_each base self ts).get_outputs base [t]).self := by
  induction ts with
  | nil => intro self; rfl
  | cons t0 rest ih => intro self; exact ih _

theorem load_bind_each_append (base : Nat) (ts : List BTensor) (t : BTensor) :
    ∀ self : ExpertParamLoad,
      ExpertParamLoad.bind_each base self (ts ++ [t])
        = ((ExpertParamLoad.bind_each base self ts).get_outputs base [t]).self := by
  induction ts with
  | nil => intro self; rfl
  | cons t0 rest ih => intro self; exact ih _

/-- Repeated binding keeps the name, the id and the cost of an
ActivationMovement and appends one cost tile per call. -/
theorem movement_bind_each_inv (base : Nat) (ts : List BTensor) :
    ∀ self : ActivationMovement,
      (ActivationMovement.bind_each base self ts)._name = self._name
      ∧ (ActivationMovement.bind_each base self ts)._id = self._id
      ∧ (ActivationMovement.bind_each base self ts)._movement_cycles = self._movement_cycles
      ∧ (ActivationMovement.bind_each base self ts)._tiles
        = self._tiles ++ List.replicate ts.length
            (cost_tile base self._name self._id self._movement_cycles) := by
  induction ts with
  | nil => intro self; simp [ActivationMovement.bind_each]
  | cons t rest ih =>
    intro self
    obtain ⟨h1, h2, h3, h4⟩ := ih (self.get_outputs base [t]).self
    unfold ActivationMovement.bind_each
    rw [h1, h2, h3, h4, movement_get_outputs_one]
    simp [List.replicate_succ]

/-- Repeated binding keeps the name, the id, the data tensor and the cost of an
ExpertParamLoad and appends one cost tile per call. -/
theorem load_bind_each_inv (base : Nat) (ts : List BTensor) :
    ∀ self : ExpertParamLoad,
      (ExpertParamLoad.bind_each base self ts)._name = self._name
      ∧ (ExpertParamLoad.bind_each base self ts)._id = self._id
      ∧ (ExpertParamLoad.bind_each base self ts)._data_tensor = self._data_tensor
      ∧ (ExpertParamLoad.bind_each base self ts)._load_cycles = self._load_cycles
      ∧ (ExpertParamLoad.bind_each base self ts)._tiles
        = self._tiles ++ List.replicate ts.length
            (cost_tile base self._name self._id self._load_cycles) := by
  induction ts with
  | nil => intro self; simp [ExpertParamLoad.bind_each]
  | cons t rest ih =>
    intro self
    obtain ⟨h1, h2, h3, h4, h5⟩ := ih (self.get_outputs base [t]).self
    unfold ExpertParamLoad.bind_each
    rw [h1, h2, h3, h4, h5, load_get_outputs_one]
    simp [List.replicate_succ]

/-- The untruncated total of `calculate_movement_cycles` is the six-term sum. -/
theorem movement_total_eq (oor : Nat → Nat) (self : ActivationMovement) :
    (self.calculate_movement_cycles oor).2.total
      = code_movement_sum oor (u32 self._config.core_freq) self._activation_size_bytes
          (name_has_movement_2 self._name) := by
  rw [movement_log_eq, code_movement_sum_eq]; rfl

/-- The untruncated total of `calculate_load_cycles` is the five-term sum. -/
theorem load_total_eq (oor : Nat → Nat) (w : Nat) (self : ExpertParamLoad) :
    (self.calculate_load_cycles oor w).2.total
      = code_load_sum oor (u32 self._config.core_freq) (u64 self._config.expert_load_latency)
          (u64 self._param_size_bytes) := by
  rw [load_log_eq, code_load_sum_eq]; rfl

/-! ## The cost computations at particular inputs, continued -/

theorem transfer_cycles_2500_132 (oor : Nat → Nat) : code_transfer_cycles oor 2500 132 = 14 := by
  unfold code_transfer_cycles
  rw [Dbl.to_uint64_of_lt _ _ (by rw [transfer_quotient_2500_132]; norm_num),
    transfer_quotient_2500_132]

theorem variance_10_14 (oor : Nat → Nat) : code_variance oor 10 100 14 = 0 := by
  unfold code_variance
  rw [Dbl.to_uint64_of_lt _ _ (by rw [variance_product_10_14]; norm_num), variance_product_10_14]

theorem variance_7_14 (oor : Nat → Nat) : code_variance oor 7 100 14 = 0 := by
  unfold code_variance
  rw [Dbl.to_uint64_of_lt _ _ (by rw [variance_product_7_14]; norm_num), variance_product_7_14]

/-- The cost an ActivationMovement stores at a 1000 MHz clock, for less than
2^48 bytes. -/
theorem movement_new_cycles_1000 (oor : Nat → Nat) (cfg : SimulationConfig) (id : Nat)
    (name : String) (T E : Nat) (hc : cfg.core_freq = 1000)
    (hb : u64 (T * E * cfg.precision) < 2 ^ 48) :
    (ActivationMovement.new oor cfg id name T E).1._movement_cycles
      = spec_movement_cost 1000 (u64 (T * E * cfg.precision)) (name_has_movement_2 name)
          % 2 ^ 32 := by
  rw [movement_new_self]
  show code_movement_sum oor (u32 cfg.core_freq) (u64 (T * E * cfg.precision))
    (name_has_movement_2 name) % 2 ^ 32 = _
  rw [hc, show u32 1000 = 1000 from rfl, movement_sum_1000 oor _ _ hb]

/-! ## C1: the cost an ActivationMovement stores -/

/-- C1, as stated, fails in two ways.  With `T = 2^20`, `E = 2^16`, precision 2
and a 1000 MHz clock the six-term sum is 6,566,141,014, and the 32-bit field
`_movement_cycles` holds 2,271,173,718.  With `T = 66`, `E = 1`, precision 2 and
a 2500 MHz clock the binary64 quotient `132 / 8.8` is just below 15, so that
`transfer_cycles` is 14 and the stored cost 1514, where the exact
`floor(132 / 8.8)` is 15 and the exact sum 1515. -/
theorem C1_counterexample :
    (ActivationMovement.new example_conversion example_config 0 "activation_movement_1"
        (2 ^ 20) (2 ^ 16)).1._movement_cycles = 2271173718
    ∧ (ActivationMovement.new example_conversion example_config 0 "activation_movement_1"
        (2 ^ 20) (2 ^ 16)).1._activation_size_bytes = 2 ^ 20 * 2 ^ 16 * 2
    ∧ spec_movement_cost 1000 (2 ^ 20 * 2 ^ 16 * 2)
        (name_has_movement_2 "activation_movement_1") = 6566141014
    ∧ (ActivationMovement.new example_conversion example_config 0 "activation_movement_1"
        (2 ^ 20) (2 ^ 16)).1._movement_cycles
      ≠ spec_movement_cost example_config.core_freq
          (2 ^ 20 * 2 ^ 16 * example_config.precision)
          (name_has_movement_2 "activation_movement_1")
    ∧ (ActivationMovement.new example_conversion example_config_2500 0 "activation_movement_1"
        66 1).1._activation_size_bytes = 132
    ∧ (ActivationMovement.new example_conversion example_config_2500 0 "activation_movement_1"
        66 1).2.transfer_cycles = 14
    ∧ spec_transfer_cycles 2500 132 = 15
    ∧ (ActivationMovement.new example_conversion example_config_2500 0 "activation_movement_1"
        66 1).1._movement_cycles = 1514
    ∧ spec_movement_cost 2500 132 (name_has_movement_2 "activation_movement_1") = 1515 := by
  have hn : name_has_movement_2 "activation_movement_1" = false := by decide
  have hb : u64 (2 ^ 20 * 2 ^ 16 * example_config.precision) < 2 ^ 48 := by decide
  have h1 := movement_new_cycles_1000 example_conversion example_config 0
    "activation_movement_1" (2 ^ 20) (2 ^ 16) rfl hb
  have hb2 : u64 (66 * 1 * example_config_2500.precision) = 132 := by decide
  have hf2 : u32 example_config_2500.core_freq = 2500 := by decide
  refine ⟨?_, ?_, ?_, ?_, ?_, ?_, ?_, ?_, ?_⟩
  · rw [h1, spec_movement_cost_eq, hn]; decide
  · rw [movement_new_self]; decide
  · rw [spec_movement_cost_eq, hn]; decide
  · rw [h1, spec_movement_cost_eq, spec_movement_cost_eq, hn]; decide
  · rw [movement_new_self]; decide
  · rw [movement_new_log]
    show code_transfer_cycles example_conversion (u32 example_config_2500.core_freq)
      (u64 (66 * 1 * example_config_2500.precision)) = 14
    rw [hb2, hf2, transfer_cycles_2500_132]
  · rw [spec_transfer_cycles_eq]
  · rw [movement_new_self]
    show code_movement_sum example_conversion (u32 example_config_2500.core_freq)
      (u64 (66 * 1 * example_config_2500.precision))
      (name_has_movement_2 "activation_movement_1") % 2 ^ 32 = 1514
    rw [hb2, hf2, hn, code_movement_sum_eq, transfer_cycles_2500_132, variance_10_14]
    decide
  · rw [spec_movement_cost_eq, hn]; decide

/-- C1, amended: constructing an ActivationMovement sets `transfer_bytes` to
`T*E*p` reduced modulo 2^64 and stores the sum of the six logged terms reduced
modulo 2^32; `base_latency` is 1000 and the size-tier, HBM and direction terms
are the functions of the specification.  `transfer_cycles` and `variance` are
computed in binary64.  They are the exact `floor(transfer_bytes / (22*1000 /
core_freq))` and `floor(transfer_cycles * 0.10 / 2)`, and the stored cost is the
six-term sum of the specification modulo 2^32, whenever `22000 / core_freq` is a
binary64 number `M / 2^k` with `M < 2^53` and `transfer_bytes * 2^k < 2^48` (at
1000 MHz: below 2^48 bytes).  For every clock `0 < core_freq < 2^32`, below 2^53
bytes and `transfer_bytes * core_freq < 22000 * 2^47`, `transfer_cycles` is
within 1 of the exact one and the sum of the six logged terms within 2 of the
six-term sum of the specification. -/
theorem C1_movement_cost (oor : Nat → Nat) (cfg : SimulationConfig) (id : Nat) (name : String)
    (T E : Nat) (hf32 : cfg.core_freq < 2 ^ 32) :
    (ActivationMovement.new oor cfg id name T E).1._activation_size_bytes
        = (T * E * cfg.precision) % 2 ^ 64
    ∧ (T * E * cfg.precision < 2 ^ 64 →
        (ActivationMovement.new oor cfg id name T E).1._activation_size_bytes
          = T * E * cfg.precision)
    ∧ (ActivationMovement.new oor cfg id name T E).1._movement_cycles
        = ((ActivationMovement.new oor cfg id name T E).2.transfer_cycles
            + (ActivationMovement.new oor cfg id name T E).2.base_latency
            + (ActivationMovement.new oor cfg id name T E).2.size_overhead
            + (ActivationMovement.new oor cfg id name T E).2.hbm_overhead
            + (ActivationMovement.new oor cfg id name T E).2.variance
            + (ActivationMovement.new oor cfg id name T E).2.write_overhead) % 2 ^ 32
    ∧ (ActivationMovement.new oor cfg id name T E).2.base_latency = 1000
    ∧ (ActivationMovement.new oor cfg id name T E).2.size_overhead
        = spec_size_tier_overhead (u64 (T * E * cfg.precision))
    ∧ (ActivationMovement.new oor cfg id name T E).2.hbm_overhead
        = spec_hbm_overhead (u64 (T * E * cfg.precision))
    ∧ (ActivationMovement.new oor cfg id name T E).2.write_overhead
        = spec_direction_overhead (name_has_movement_2 name)
    ∧ (∀ M k : Nat, M * cfg.core_freq = 22000 * 2 ^ k → M < 2 ^ 53 →
        u64 (T * E * cfg.precision) * 2 ^ k < 2 ^ 48 →
        (ActivationMovement.new oor cfg id name T E).2.transfer_cycles
            = spec_transfer_cycles cfg.core_freq (u64 (T * E * cfg.precision))
        ∧ (ActivationMovement.new oor cfg id name T E).2.variance
            = spec_variance (10 / 100)
                (spec_transfer_cycles cfg.core_freq (u64 (T * E * cfg.precision)))
        ∧ (ActivationMovement.new oor cfg id name T E).1._movement_cycles
            = spec_movement_cost cfg.core_freq (u64 (T * E * cfg.precision))
                (name_has_movement_2 name) % 2 ^ 32
        ∧ (spec_movement_cost cfg.core_freq (u64 (T * E * cfg.precision))
              (name_has_movement_2 name) < 2 ^ 32 →
            (ActivationMovement.new oor cfg id name T E).1._movement_cycles
              = spec_movement_cost cfg.core_freq (u64 (T * E * cfg.precision))
                  (name_has_movement_2 name)))
    ∧ (0 < cfg.core_freq → u64 (T * E * cfg.precision) < 2 ^ 53 →
        u64 (T * E * cfg.precision) * cfg.core_freq < 22000 * 2 ^ 47 →
        spec_transfer_cycles cfg.core_freq (u64 (T * E * cfg.precision))
            ≤ (ActivationMovement.new oor cfg id name T E).2.transfer_cycles + 1
        ∧ (ActivationMovement.new oor cfg id name T E).2.transfer_cycles
            ≤ spec_transfer_cycles cfg.core_freq (u64 (T * E * cfg.precision)) + 1
        ∧ spec_movement_cost cfg.core_freq (u64 (T * E * cfg.precision))
              (name_has_movement_2 name)
            ≤ (ActivationMovement.new oor cfg id name T E).2.total + 2
        ∧ (ActivationMovement.new oor cfg id name T E).2.total
            ≤ spec_movement_cost cfg.core_freq (u64 (T * E * cfg.precision))
                (name_has_movement_2 name) + 2) := by
  have htot : (ActivationMovement.new oor cfg id name T E).2.total
      = code_movement_sum oor cfg.core_freq (u64 (T * E * cfg.precision))
          (name_has_movement_2 name) := by
    rw [movement_new_log, u32_of_lt hf32]
    exact (code_movement_sum_eq oor _ _ _).symm
  have htc : (ActivationMovement.new oor cfg id name T E).2.transfer_cycles
      = code_transfer_cycles oor cfg.core_freq (u64 (T * E * cfg.precision)) := by
    rw [movement_new_log, u32_of_lt hf32]
  have hvar : (ActivationMovement.new oor cfg id name T E).2.variance
      = code_variance oor 10 100
          (code_transfer_cycles oor cfg.core_freq (u64 (T * E * cfg.precision))) := by
    rw [movement_new_log, u32_of_lt hf32]
  have hst : (ActivationMovement.new oor cfg id name T E).1._movement_cycles
      = code_movement_sum oor cfg.core_freq (u64 (T * E * cfg.precision))
          (name_has_movement_2 name) % 2 ^ 32 := by
    rw [movement_new_self, u32_of_lt hf32]
  refine ⟨by rw [movement_new_self]; rfl, fun h => by rw [movement_new_self]; exact u64_of_lt h,
    ?_, by rw [movement_new_log], by rw [movement_new_log], by rw [movement_new_log],
    by rw [movement_new_log], ?_, ?_⟩
  · rw [hst, ← htot]; rfl
  · intro M k hM hM53 hb
    have hf : 0 < cfg.core_freq := by
      rcases Nat.eq_zero_or_pos cfg.core_freq with h0 | h0
      · rw [h0] at hM
        have : 0 < 22000 * 2 ^ k := by positivity
        omega
      · exact h0
    have hex := transfer_cycles_exact oor cfg.core_freq _ M k hf hf32 hM hM53 hb
    have hsum := movement_sum_exact oor cfg.core_freq _ M k (name_has_movement_2 name) hf hf32
      hM hM53 hb
    refine ⟨by rw [htc, hex], ?_, by rw [hst, hsum], fun h => ?_⟩
    · rw [hvar, hex, variance_10_exact oor _ (spec_transfer_cycles_lt _ _ M k hM hb)]
    · rw [hst, hsum, Nat.mod_eq_of_lt h]
  · intro hf hb hx
    obtain ⟨h1, h2⟩ := transfer_cycles_near oor cfg.core_freq _ hf hf32 hb
      (lt_of_lt_of_le hx
        (Nat.mul_le_mul_left _ (Nat.pow_le_pow_right (by norm_num) (by norm_num))))
    obtain ⟨h3, h4⟩ := movement_sum_near oor cfg.core_freq _ (name_has_movement_2 name) hf hf32
      hb hx
    rw [htc, htot]
    exact ⟨h1, h2, h3, h4⟩

/-- C1, amended, at example A of the specification (read instance): at 1000 MHz
`22000 / core_freq` is 22, and the stored cost is the six-term sum of the
specification; and at 132 bytes and 2500 MHz, where the logged transfer time is
within 1 of the exact one. -/
theorem C1_movement_cost_witness :
    example_config.core_freq < 2 ^ 32
    ∧ 22 * example_config.core_freq = 22000 * 2 ^ 0
    ∧ (ActivationMovement.new example_conversion example_config 0 "activation_movement_1"
        4096 4096).1._movement_cycles
        = spec_movement_cost example_config.core_freq
            (u64 (4096 * 4096 * example_config.precision))
            (name_has_movement_2 "activation_movement_1") % 2 ^ 32
    ∧ spec_transfer_cycles example_config_2500.core_freq
          (u64 (66 * 1 * example_config_2500.precision))
        ≤ (ActivationMovement.new example_conversion example_config_2500 0
            "activation_movement_1" 66 1).2.transfer_cycles + 1 :=
  ⟨by decide, by decide,
   ((C1_movement_cost example_conversion example_config 0 "activation_movement_1" 4096 4096
      (by decide)).2.2.2.2.2.2.2.1 22 0 (by decide) (by decide) (by decide)).2.2.1,
   ((C1_movement_cost example_conversion example_config_2500 0 "activation_movement_1" 66 1
      (by decide)).2.2.2.2.2.2.2.2 (by decide) (by decide) (by decide)).1⟩

theorem load_sum_2500_132 (oor : Nat → Nat) : code_load_sum oor 2500 1000 132 = 1514 := by
  rw [code_load_sum_eq, transfer_cycles_2500_132, variance_7_14]
  decide

/-- C2, as stated, fails where `22000 / core_freq` is not a binary64 number: for
one weight of 132 bytes, a 2500 MHz clock and setup latency 1000 the binary64
quotient `132 / 8.8` is just below 15, so that the constructor logs
`transfer_cycles = 14` and stores the cost 1514 (the same for a 32-bit and a
64-bit `_load_cycles`), where the exact `floor(132 / 8.8)` is 15 and the exact
five-term sum 1515. -/
theorem C2_counterexample :
    Except.map (fun r => (r.2.param_bytes, r.2.transfer_cycles, r.1._load_cycles))
        (ExpertParamLoad.new example_conversion 32 example_config_2500 0
          "expert_0_param_load" 0 [example_weight "fc1" [66] 132]
          (example_tensor "x" [1, 4096]))
      = .ok (132, 14, 1514)
    ∧ Except.map (fun r => (r.2.param_bytes, r.2.transfer_cycles, r.1._load_cycles))
        (ExpertParamLoad.new example_conversion 64 example_config_2500 0
          "expert_0_param_load" 0 [example_weight "fc1" [66] 132]
          (example_tensor "x" [1, 4096]))
      = .ok (132, 14, 1514)
    ∧ spec_transfer_cycles 2500 132 = 15
    ∧ spec_load_cost 2500 1000 132 = 1515 := by
  have hs : ExpertParamLoad.sum_param_size [example_weight "fc1" [66] 132] 0 = .ok 132 := by
    simp [ExpertParamLoad.sum_param_size, example_weight, u64]
  have hf : u32 example_config_2500.core_freq = 2500 := by decide
  have hl : u64 example_config_2500.expert_load_latency = 1000 := by decide
  have hb : u64 132 = 132 := by decide
  rw [load_new_ok _ _ _ _ _ _ _ _ _ hs, load_new_ok _ _ _ _ _ _ _ _ _ hs]
  simp only [Except.map, load_self_eq, load_log_eq, hf, hl, hb, load_sum_2500_132,
    transfer_cycles_2500_132]
  refine ⟨congrArg Except.ok ?_, congrArg Except.ok ?_, ?_, ?_⟩
  · decide
  · decide
  · rw [spec_transfer_cycles_eq]
  · rw [spec_load_cost_eq]; decide

/-- C2, amended: for every byte count `B < 2^64` and configuration with
`core_freq < 2^32` and a 64-bit setup latency, the cost computation stores the
sum of the five logged terms (no direction overhead) reduced modulo 2^64 and
then to the width `w` of `_load_cycles`; `base_latency` is the configured
`expert_load_latency` and the size-tier and HBM terms are the functions of the
specification.  `transfer_cycles` and `variance` are computed in binary64.  They
are the exact `floor(B / (22*1000 / core_freq))` and `floor(transfer_cycles *
0.07 / 2)`, and the stored cost is the five-term sum of the specification so
reduced, whenever `22000 / core_freq` is a binary64 number `M / 2^k` with
`M < 2^53` and `B * 2^k < 2^48` (at 1000 MHz: below 2^48 bytes).  For every clock
`0 < core_freq < 2^32`, `B < 2^53` and `B * core_freq < 22000 * 2^47`,
`transfer_cycles` is within 1 of the exact one and the sum of the five logged
terms within 2 of the five-term sum of the specification. -/
theorem C2_load_cost (oor : Nat → Nat) (w : Nat) (self : ExpertParamLoad)
    (hf32 : self._config.core_freq < 2 ^ 32)
    (hl : self._config.expert_load_latency < 2 ^ 64) (hB : self._param_size_bytes < 2 ^ 64) :
    (self.calculate_load_cycles oor w).1._load_cycles
        = ((self.calculate_load_cycles oor w).2.transfer_cycles
            + (self.calculate_load_cycles oor w).2.base_latency
            + (self.calculate_load_cycles oor w).2.size_overhead
            + (self.calculate_load_cycles oor w).2.hbm_overhead
            + (self.calculate_load_cycles oor w).2.variance) % 2 ^ 64 % 2 ^ w
    ∧ (self.calculate_load_cycles oor w).2.base_latency = self._config.expert_load_latency
    ∧ (self.calculate_load_cycles oor w).2.size_overhead
        = spec_size_tier_overhead self._param_size_bytes
    ∧ (self.calculate_load_cycles oor w).2.hbm_overhead
        = spec_hbm_overhead self._param_size_bytes
    ∧ (∀ M k : Nat, M * self._config.core_freq = 22000 * 2 ^ k → M < 2 ^ 53 →
        self._param_size_bytes * 2 ^ k < 2 ^ 48 →
        (self.calculate_load_cycles oor w).2.transfer_cycles
            = spec_transfer_cycles self._config.core_freq self._param_size_bytes
        ∧ (self.calculate_load_cycles oor w).2.variance
            = spec_variance (7 / 100)
                (spec_transfer_cycles self._config.core_freq self._param_size_bytes)
        ∧ (self.calculate_load_cycles oor w).1._load_cycles
            = spec_load_cost self._config.core_freq self._config.expert_load_latency
                self._param_size_bytes % 2 ^ 64 % 2 ^ w
        ∧ (spec_load_cost self._config.core_freq self._config.expert_load_latency
              self._param_size_bytes < 2 ^ 64 →
            spec_load_cost self._config.core_freq self._config.expert_load_latency
              self._param_size_bytes < 2 ^ w →
            (self.calculate_load_cycles oor w).1._load_cycles
              = spec_load_cost self._config.core_freq self._config.expert_load_latency
                  self._param_size_bytes))
    ∧ (0 < self._config.core_freq → self._param_size_bytes < 2 ^ 53 →
        self._param_size_bytes * self._config.core_freq < 22000 * 2 ^ 47 →
        spec_transfer_cycles self._config.core_freq self._param_size_bytes
            ≤ (self.calculate_load_cycles oor w).2.transfer_cycles + 1
        ∧ (self.calculate_load_cycles oor w).2.transfer_cycles
            ≤ spec_transfer_cycles self._config.core_freq self._param_size_bytes + 1
        ∧ spec_load_cost self._config.core_freq self._config.expert_load_latency
              self._param_size_bytes
            ≤ (self.calculate_load_cycles oor w).2.total + 2
        ∧ (self.calculate_load_cycles oor w).2.total
            ≤ spec_load_cost self._config.core_freq self._config.expert_load_latency
                self._param_size_bytes + 2) := by
  have htot : (self.calculate_load_cycles oor w).2.total
      = code_load_sum oor self._config.core_freq self._config.expert_load_latency
          self._param_size_bytes := by
    rw [load_log_eq, u32_of_lt hf32, u64_of_lt hl, u64_of_lt hB]
    exact (code_load_sum_eq oor _ _ _).symm
  have htc : (self.calculate_load_cycles oor w).2.transfer_cycles
      = code_transfer_cycles oor self._config.core_freq self._param_size_bytes := by
    rw [load_log_eq, u32_of_lt hf32, u64_of_lt hB]
  have hvar : (self.calculate_load_cycles oor w).2.variance
      = code_variance oor 7 100
          (code_transfer_cycles oor self._config.core_freq self._param_size_bytes) := by
    rw [load_log_eq, u32_of_lt hf32, u64_of_lt hB]
  have hst : (self.calculate_load_cycles oor w).1._load_cycles
      = code_load_sum oor self._config.core_freq self._config.expert_load_latency
          self._param_size_bytes % 2 ^ 64 % 2 ^ w := by
    rw [load_self_eq, u32_of_lt hf32, u64_of_lt hl, u64_of_lt hB]; rfl
  refine ⟨?_, by rw [load_log_eq, u64_of_lt hl], by rw [load_log_eq, u64_of_lt hB],
    by rw [load_log_eq, u64_of_lt hB], ?_, ?_⟩
  · rw [hst, ← htot]; rfl
  · intro M k hM hM53 hb
    have hf : 0 < self._config.core_freq := by
      rcases Nat.eq_zero_or_pos self._config.core_freq with h0 | h0
      · rw [h0] at hM
        have : 0 < 22000 * 2 ^ k := by positivity
        omega
      · exact h0
    have hex := transfer_cycles_exact oor self._config.core_freq _ M k hf hf32 hM hM53 hb
    have hsum := load_sum_exact oor self._config.core_freq self._config.expert_load_latency
      _ M k hf hf32 hM hM53 hb
    refine ⟨by rw [htc, hex], ?_, by rw [hst, hsum], fun h64 hw => ?_⟩
    · rw [hvar, hex, variance_7_exact oor _ (spec_transfer_cycles_lt _ _ M k hM hb)]
    · rw [hst, hsum, Nat.mod_eq_of_lt h64, Nat.mod_eq_of_lt hw]
  · intro hf hb hx
    obtain ⟨h1, h2⟩ := transfer_cycles_near oor self._config.core_freq _ hf hf32 hb
      (lt_of_lt_of_le hx
        (Nat.mul_le_mul_left _ (Nat.pow_le_pow_right (by norm_num) (by norm_num))))
    obtain ⟨h3, h4⟩ := load_sum_near oor self._config.core_freq
      self._config.expert_load_latency _ hf hf32 hb hx
    rw [htc, htot]
    exact ⟨h1, h2, h3, h4⟩

/-- C2, amended, at example B of the specification: 16 MiB of weights, 1000 MHz
(`22000 / core_freq` is 22), setup latency 1000, a 32-bit `_load_cycles`. -/
theorem C2_load_cost_witness :
    (example_load._config.core_freq < 2 ^ 32
      ∧ example_load._config.expert_load_latency < 2 ^ 64
      ∧ example_load._param_size_bytes < 2 ^ 64
      ∧ 22 * example_load._config.core_freq = 22000 * 2 ^ 0)
    ∧ (example_load.calculate_load_cycles example_conversion 32).1._load_cycles
        = spec_load_cost example_load._config.core_freq
            example_load._config.expert_load_latency
            example_load._param_size_bytes % 2 ^ 64 % 2 ^ 32 :=
  ⟨by simp [example_load, example_config],
   ((C2_load_cost example_conversion 32 example_load (by simp [example_load, example_config])
      (by simp [example_load, example_config]) (by simp [example_load])).2.2.2.2.1 22 0
      (by simp [example_load, example_config]) (by norm_num)
      (by simp [example_load])).2.2.1⟩

/-! ## C3: the size-tier term -/

/-- C3: in both cost computations the size-tier term is the step function of
the specification of the byte count (500 below 65536, 300 from 65536 and below
1048576, 100 from 1048576 and below 8388608, 0 from 8388608 on); at exactly
65536, 1048576 and 8388608 bytes it is 300, 100 and 0. -/
theorem C3_size_tier_overhead (oor : Nat → Nat) :
    (∀ self : ActivationMovement,
      (self.calculate_movement_cycles oor).2.size_overhead
        = (if self._activation_size_bytes < 65536 then 500
           else if 65536 ≤ self._activation_size_bytes ∧ self._activation_size_bytes < 1048576
             then 300
           else if 1048576 ≤ self._activation_size_bytes ∧ self._activation_size_bytes < 8388608
             then 100
           else 0))
    ∧ (∀ (w : Nat) (self : ExpertParamLoad),
      (self.calculate_load_cycles oor w).2.size_overhead
        = (if (self.calculate_load_cycles oor w).2.param_bytes < 65536 then 500
           else if 65536 ≤ (self.calculate_load_cycles oor w).2.param_bytes
               ∧ (self.calculate_load_cycles oor w).2.param_bytes < 1048576 then 300
           else if 1048576 ≤ (self.calculate_load_cycles oor w).2.param_bytes
               ∧ (self.calculate_load_cycles oor w).2.param_bytes < 8388608 then 100
           else 0))
    ∧ (∀ self : ActivationMovement,
        (ActivationMovement.calculate_movement_cycles oor
          { self with _activation_size_bytes := 65536 }).2.size_overhead = 300
        ∧ (ActivationMovement.calculate_movement_cycles oor
          { self with _activation_size_bytes := 1048576 }).2.size_overhead = 100
        ∧ (ActivationMovement.calculate_movement_cycles oor
          { self with _activation_size_bytes := 8388608 }).2.size_overhead = 0)
    ∧ (∀ (w : Nat) (self : ExpertParamLoad),
        (ExpertParamLoad.calculate_load_cycles oor w
          { self with _param_size_bytes := 65536 }).2.size_overhead = 300
        ∧ (ExpertParamLoad.calculate_load_cycles oor w
          { self with _param_size_bytes := 1048576 }).2.size_overhead = 100
        ∧ (ExpertParamLoad.calculate_load_cycles oor w
          { self with _param_size_bytes := 8388608 }).2.size_overhead = 0) := by
  refine ⟨fun self => ?_, fun w self => ?_, fun self => ?_, fun w self => ?_⟩
  · rw [movement_log_eq]; rfl
  · rw [load_log_eq]; rfl
  · simp only [movement_log_eq]
    refine ⟨?_, ?_, ?_⟩ <;> decide
  · simp only [load_log_eq]
    refine ⟨?_, ?_, ?_⟩ <;> decide

/-! ## C4: the HBM term -/

/-- C4: in both cost computations the HBM term is 0 for a byte count of at most
4194304 and `floor(b / 4194304) * 200` above; it is 0 at exactly 4194304 bytes,
200 at 4194305 bytes and 400 at 8388608 bytes. -/
theorem C4_hbm_overhead (oor : Nat → Nat) :
    (∀ self : ActivationMovement,
      (self.calculate_movement_cycles oor).2.hbm_overhead
        = (if self._activation_size_bytes ≤ 4194304 then 0
           else self._activation_size_bytes / 4194304 * 200))
    ∧ (∀ (w : Nat) (self : ExpertParamLoad),
      (self.calculate_load_cycles oor w).2.hbm_overhead
        = (if (self.calculate_load_cycles oor w).2.param_bytes ≤ 4194304 then 0
           else (self.calculate_load_cycles oor w).2.param_bytes / 4194304 * 200))
    ∧ (∀ self : ActivationMovement,
        (ActivationMovement.calculate_movement_cycles oor
          { self with _activation_size_bytes := 4194304 }).2.hbm_overhead = 0
        ∧ (ActivationMovement.calculate_movement_cycles oor
          { self with _activation_size_bytes := 4194305 }).2.hbm_overhead = 200
        ∧ (ActivationMovement.calculate_movement_cycles oor
          { self with _activation_size_bytes := 8388608 }).2.hbm_overhead = 400)
    ∧ (∀ (w : Nat) (self : ExpertParamLoad),
        (ExpertParamLoad.calculate_load_cycles oor w
          { self with _param_size_bytes := 4194304 }).2.hbm_overhead = 0
        ∧ (ExpertParamLoad.calculate_load_cycles oor w
          { self with _param_size_bytes := 4194305 }).2.hbm_overhead = 200
        ∧ (ExpertParamLoad.calculate_load_cycles oor w
          { self with _param_size_bytes := 8388608 }).2.hbm_overhead = 400) := by
  refine ⟨fun self => ?_, fun w self => ?_, fun self => ?_, fun w self => ?_⟩
  · rw [movement_log_eq]; rfl
  · rw [load_log_eq]; rfl
  · simp only [movement_log_eq]
    refine ⟨?_, ?_, ?_⟩ <;> decide
  · simp only [load_log_eq]
    refine ⟨?_, ?_, ?_⟩ <;> decide

/-! ## C5: write-back against read -/

/-- C5, as stated, fails when the 32-bit cost wraps: with `T = 2048`,
`E = 21948231`, precision 2 and a 1000 MHz clock the read instance stores
4,294,967,230 and the write-back instance stores 134. -/
theorem C5_counterexample :
    name_has_movement_2 "activation_movement_2" = true
    ∧ name_has_movement_2 "activation_movement_1" = false
    ∧ (ActivationMovement.new example_conversion example_config 0 "activation_movement_1"
        2048 21948231).1._movement_cycles = 4294967230
    ∧ (ActivationMovement.new example_conversion example_config 1 "activation_movement_2"
        2048 21948231).1._movement_cycles = 134
    ∧ (ActivationMovement.new example_conversion example_config 1 "activation_movement_2"
        2048 21948231).1._movement_cycles
      ≠ (ActivationMovement.new example_conversion example_config 0 "activation_movement_1"
        2048 21948231).1._movement_cycles + 200 := by
  have h1 : name_has_movement_2 "activation_movement_1" = false := by decide
  have h2 : name_has_movement_2 "activation_movement_2" = true := by decide
  have hb : u64 (2048 * 21948231 * example_config.precision) < 2 ^ 48 := by decide
  rw [movement_new_cycles_1000 example_conversion example_config 0 "activation_movement_1"
      2048 21948231 rfl hb,
    movement_new_cycles_1000 example_conversion example_config 1 "activation_movement_2"
      2048 21948231 rfl hb,
    spec_movement_cost_eq, spec_movement_cost_eq, h1, h2]
  refine ⟨rfl, rfl, ?_, ?_, ?_⟩ <;> decide

/-- C5, amended: for the same `T`, `E` and configuration the stored cost of a
write-back instance is the stored cost of a read instance plus 200, reduced
modulo 2^32; it exceeds the read cost by exactly 200 whenever the read cost
plus 200 is below 2^32. -/
theorem C5_write_back_plus_200 (oor : Nat → Nat) (cfg : SimulationConfig) (id_w id_r : Nat)
    (name_w name_r : String) (T E : Nat) (hw : name_has_movement_2 name_w = true)
    (hr : name_has_movement_2 name_r = false) :
    (ActivationMovement.new oor cfg id_w name_w T E).1._movement_cycles
        = ((ActivationMovement.new oor cfg id_r name_r T E).1._movement_cycles + 200) % 2 ^ 32
    ∧ ((ActivationMovement.new oor cfg id_r name_r T E).1._movement_cycles + 200 < 2 ^ 32 →
        (ActivationMovement.new oor cfg id_w name_w T E).1._movement_cycles
          = (ActivationMovement.new oor cfg id_r name_r T E).1._movement_cycles + 200) := by
  simp only [movement_new_self, code_movement_sum_eq, hw, hr, spec_direction_overhead]
  constructor
  · simp only [Bool.false_eq_true, if_false, if_true, Nat.add_zero, Nat.mod_add_mod]
  · intro h
    simp only [Bool.false_eq_true, if_false, if_true, Nat.add_zero] at h ⊢
    rw [← Nat.mod_add_mod, Nat.mod_eq_of_lt h]

/-- C5, amended, at example A of the specification: the write-back instance
costs 200 cycles more than the read instance. -/
theorem C5_write_back_plus_200_witness :
    (name_has_movement_2 "activation_movement_2" = true
      ∧ name_has_movement_2 "activation_movement_1" = false)
    ∧ (ActivationMovement.new example_conversion example_config 1 "activation_movement_2"
        4096 4096).1._movement_cycles
        = ((ActivationMovement.new example_conversion example_config 0 "activation_movement_1"
            4096 4096).1._movement_cycles + 200) % 2 ^ 32 :=
  ⟨by decide,
   (C5_write_back_plus_200 example_conversion example_config 1 0 "activation_movement_2"
      "activation_movement_1" 4096 4096 (by decide) (by decide)).1⟩

/-! ## The two computations at a 1000 MHz clock -/

/-- The diagnostic record the constructor of `ActivationMovement` logs at a
1000 MHz clock, for less than 2^48 bytes: every term is the one of the
specification. -/
theorem movement_new_log_1000 (oor : Nat → Nat) (cfg : SimulationConfig) (id : Nat)
    (name : String) (T E : Nat) (hc : cfg.core_freq = 1000)
    (hb : u64 (T * E * cfg.precision) < 2 ^ 48) :
    (ActivationMovement.new oor cfg id name T E).2 =
      { num_tokens := T, E := E,
        activation_size_bytes := u64 (T * E * cfg.precision),
        movement_cycles :=
          spec_movement_cost 1000 (u64 (T * E * cfg.precision)) (name_has_movement_2 name)
            % 2 ^ 32,
        transfer_cycles := spec_transfer_cycles 1000 (u64 (T * E * cfg.precision)),
        base_latency := 1000,
        size_overhead := spec_size_tier_overhead (u64 (T * E * cfg.precision)),
        hbm_overhead := spec_hbm_overhead (u64 (T * E * cfg.precision)),
        variance := spec_variance (10 / 100)
          (spec_transfer_cycles 1000 (u64 (T * E * cfg.precision))),
        write_overhead := spec_direction_overhead (name_has_movement_2 name) } := by
  have htc : code_transfer_cycles oor 1000 (u64 (T * E * cfg.precision))
      = spec_transfer_cycles 1000 (u64 (T * E * cfg.precision)) :=
    transfer_cycles_exact oor 1000 _ 22 0 (by norm_num) (by norm_num) (by norm_num)
      (by norm_num) (by simpa using hb)
  have hv : code_variance oor 10 100 (spec_transfer_cycles 1000 (u64 (T * E * cfg.precision)))
      = spec_variance (10 / 100) (spec_transfer_cycles 1000 (u64 (T * E * cfg.precision))) :=
    variance_10_exact oor _
      (spec_transfer_cycles_lt 1000 _ 22 0 (by norm_num) (by simpa using hb))
  rw [movement_new_log, hc, show u32 1000 = 1000 from rfl, movement_sum_1000 oor _ _ hb, htc, hv]

/-- The diagnostic record `calculate_load_cycles` logs at a 1000 MHz clock, for
less than 2^48 bytes: every term is the one of the specification. -/
theorem load_log_1000 (oor : Nat → Nat) (w : Nat) (self : ExpertParamLoad)
    (hc : self._config.core_freq = 1000) (hb : u64 self._param_size_bytes < 2 ^ 48) :
    (self.calculate_load_cycles oor w).2 =
      { expert_id := self._expert_id, param_bytes := u64 self._param_size_bytes,
        load_cycles :=
          u64 (spec_load_cost 1000 (u64 self._config.expert_load_latency)
            (u64 self._param_size_bytes)) % 2 ^ w,
        transfer_cycles := spec_transfer_cycles 1000 (u64 self._param_size_bytes),
        base_latency := u64 self._config.expert_load_latency,
        size_overhead := spec_size_tier_overhead (u64 self._param_size_bytes),
        hbm_overhead := spec_hbm_overhead (u64 self._param_size_bytes),
        variance := spec_variance (7 / 100)
          (spec_transfer_cycles 1000 (u64 self._param_size_bytes)) } := by
  have htc : code_transfer_cycles oor 1000 (u64 self._param_size_bytes)
      = spec_transfer_cycles 1000 (u64 self._param_size_bytes) :=
    transfer_cycles_exact oor 1000 _ 22 0 (by norm_num) (by norm_num) (by norm_num)
      (by norm_num) (by simpa using hb)
  have hv : code_variance oor 7 100 (spec_transfer_cycles 1000 (u64 self._param_size_bytes))
      = spec_variance (7 / 100) (spec_transfer_cycles 1000 (u64 self._param_size_bytes)) :=
    variance_7_exact oor _
      (spec_transfer_cycles_lt 1000 _ 22 0 (by norm_num) (by simpa using hb))
  rw [load_log_eq, hc, show u32 1000 = 1000 from rfl, load_sum_1000 oor _ _ hb, htc, hv]

/-- The object `calculate_load_cycles` leaves at a 1000 MHz clock, for less than
2^48 bytes. -/
theorem load_self_1000 (oor : Nat → Nat) (w : Nat) (self : ExpertParamLoad)
    (hc : self._config.core_freq = 1000) (hb : u64 self._param_size_bytes < 2 ^ 48) :
    (self.calculate_load_cycles oor w).1 =
      { self with
        _load_cycles :=
          u64 (spec_load_cost 1000 (u64 self._config.expert_load_latency)
            (u64 self._param_size_bytes)) % 2 ^ w } := by
  rw [load_self_eq, hc, show u32 1000 = 1000 from rfl, load_sum_1000 oor _ _ hb]

/-! ## C6: cost against size -/

/-- C7: example A.  At 1000 MHz and 2 bytes per value, an ActivationMovement
with `T = 4096` and `E = 4096` moves 33,554,432 bytes; the logged terms are
transfer 1,525,201, base 1000, size tier 0, HBM 1600, variance 76,260; the
stored cost is 1,604,061 for a read instance and 1,604,261 for a write-back
instance. -/
theorem C7_example_A (oor : Nat → Nat) (latency id : Nat) (name : String) :
    (ActivationMovement.new oor
        { core_freq := 1000, precision := 2, expert_load_latency := latency }
        id name 4096 4096).1._activation_size_bytes = 33554432
    ∧ (ActivationMovement.new oor
        { core_freq := 1000, precision := 2, expert_load_latency := latency }
        id name 4096 4096).2 =
      { num_tokens := 4096, E := 4096, activation_size_bytes := 33554432,
        movement_cycles := if name_has_movement_2 name = true then 1604261 else 1604061,
        transfer_cycles := 1525201, base_latency := 1000, size_overhead := 0,
        hbm_overhead := 1600, variance := 76260,
        write_overhead := if name_has_movement_2 name = true then 200 else 0 }
    ∧ (ActivationMovement.new oor
        { core_freq := 1000, precision := 2, expert_load_latency := latency }
        id name 4096 4096).1._movement_cycles
      = (if name_has_movement_2 name = true then 1604261 else 1604061)
    ∧ name_has_movement_2 "activation_movement_1" = false
    ∧ name_has_movement_2 "activation_movement_2" = true := by
  have hb : u64 (4096 * 4096 * 2) = 33554432 := by decide
  have ht : spec_transfer_cycles 1000 33554432 = 1525201 := by
    rw [spec_transfer_cycles_eq]
  have hv : spec_variance (10 / 100) 1525201 = 76260 := by
    rw [spec_variance_10]
  have hs : spec_size_tier_overhead 33554432 = 0 := by decide
  have hh : spec_hbm_overhead 33554432 = 1600 := by decide
  have hlt : u64 (4096 * 4096 *
      ({ core_freq := 1000, precision := 2, expert_load_latency := latency } :
        SimulationConfig).precision) < 2 ^ 48 := by
    show u64 (4096 * 4096 * 2) < 2 ^ 48
    decide
  rw [movement_new_cycles_1000 oor _ id name 4096 4096 rfl hlt,
    movement_new_log_1000 oor _ id name 4096 4096 rfl hlt, movement_new_self]
  simp only [spec_movement_cost, hb, ht, hv, hs, hh, spec_direction_overhead]
  refine ⟨trivial, ?_, ?_, by decide, by decide⟩
  · cases name_has_movement_2 name <;> simp
  · cases name_has_movement_2 name <;> simp

/-- C8: example B.  At 1000 MHz with setup latency 1000, an ExpertParamLoad
whose weights total 16,777,216 bytes is constructed with logged terms transfer
762,600, base 1000, size tier 0, HBM 800, variance 26,691 and cost 791,091 (for
every width of `_load_cycles` of at least 20 bits). -/
theorem C8_example_B (oor : Nat → Nat) (w precision id expert_id : Nat) (name : String)
    (weights : List NPUTensor) (data : BTensor) (hw : 20 ≤ w)
    (hB : ExpertParamLoad.sum_param_size weights 0 = .ok 16777216) :
    ∃ r, ExpertParamLoad.new oor w
          { core_freq := 1000, precision := precision, expert_load_latency := 1000 }
          id name expert_id weights data = .ok r
      ∧ r.1._param_size_bytes = 16777216
      ∧ r.2 = { expert_id := expert_id, param_bytes := 16777216, load_cycles := 791091,
                transfer_cycles := 762600, base_latency := 1000, size_overhead := 0,
                hbm_overhead := 800, variance := 26691 }
      ∧ r.1._load_cycles = 791091 := by
  have hb : u64 16777216 = 16777216 := by decide
  have hl : u64 1000 = 1000 := by decide
  have ht : spec_transfer_cycles 1000 16777216 = 762600 := by
    rw [spec_transfer_cycles_eq]
  have hv : spec_variance (7 / 100) 762600 = 26691 := by
    rw [spec_variance_7]
  have hs : spec_size_tier_overhead 16777216 = 0 := by decide
  have hh : spec_hbm_overhead 16777216 = 800 := by decide
  have hsum : u64 (762600 + 1000 + 0 + 800 + 26691) = 791091 := by decide
  have hlt : 791091 < 2 ^ w :=
    lt_of_lt_of_le (by decide : 791091 < 2 ^ 20) (Nat.pow_le_pow_right (by decide) hw)
  refine ⟨_, load_new_ok _ _ _ _ _ _ _ _ _ hB, ?_, ?_, ?_⟩
  · rw [load_self_eq]
  · rw [load_log_1000 oor w _ rfl (show u64 16777216 < 2 ^ 48 by decide)]
    simp only [spec_load_cost, hb, hl, ht, hv, hs, hh, hsum, Nat.mod_eq_of_lt hlt]
  · rw [load_self_1000 oor w _ rfl (show u64 16777216 < 2 ^ 48 by decide)]
    simp only [spec_load_cost, hb, hl, ht, hv, hs, hh, hsum, Nat.mod_eq_of_lt hlt]

/-- C8 at two weight tensors of 8 MiB each and a 32-bit `_load_cycles`. -/
theorem C8_example_B_witness :
    ∃ r, ExpertParamLoad.new example_conversion 32
          { core_freq := 1000, precision := 2, expert_load_latency := 1000 }
          0 "expert_0_param_load" 0 example_weights (example_tensor "x" [1, 4096]) = .ok r
      ∧ r.1._param_size_bytes = 16777216
      ∧ r.2 = { expert_id := 0, param_bytes := 16777216, load_cycles := 791091,
                transfer_cycles := 762600, base_latency := 1000, size_overhead := 0,
                hbm_overhead := 800, variance := 26691 }
      ∧ r.1._load_cycles = 791091 :=
  C8_example_B example_conversion 32 2 0 0 "expert_0_param_load" example_weights
    (example_tensor "x" [1, 4096]) (by decide)
    (by simp [ExpertParamLoad.sum_param_size, example_weights, example_weight, u64])

/-! ## C9: the tile built by output binding -/

/-- C9: after one successful output-binding call on a freshly constructed
ActivationMovement or ExpertParamLoad the operation has exactly one tile; its
status is INITIALIZED and it holds exactly one instruction, with opcode DUMMY,
no source address and the cost computed at construction as size; the cost field
of the operation is unchanged. -/
theorem C9_one_tile_one_instruction (oor : Nat → Nat) (ACCUM_SPAD_BASE : Nat)
    (cfg : SimulationConfig) (id : Nat) (name : String) :
    (∀ (T E : Nat) (inputs : List BTensor) (outs : List (Option BTensor)),
      ((ActivationMovement.new oor cfg id name T E).1.get_outputs ACCUM_SPAD_BASE inputs).result
          = .ok outs →
        ∃ tile instr,
          ((ActivationMovement.new oor cfg id name T E).1.get_outputs
              ACCUM_SPAD_BASE inputs).self._tiles = [tile]
          ∧ tile.status = Tile.Status.INITIALIZED
          ∧ tile.instructions = [instr]
          ∧ instr.opcode = Opcode.DUMMY
          ∧ instr.src_addrs = []
          ∧ instr.size = (ActivationMovement.new oor cfg id name T E).1._movement_cycles
          ∧ ((ActivationMovement.new oor cfg id name T E).1.get_outputs
              ACCUM_SPAD_BASE inputs).self._movement_cycles
            = (ActivationMovement.new oor cfg id name T E).1._movement_cycles)
    ∧ (∀ (w expert_id : Nat) (weights : List NPUTensor) (data : BTensor)
        (r : ExpertParamLoad × ParamLoadLog) (inputs : List BTensor)
        (outs : List (Option BTensor)),
      ExpertParamLoad.new oor w cfg id name expert_id weights data = .ok r →
      (r.1.get_outputs ACCUM_SPAD_BASE inputs).result = .ok outs →
        ∃ tile instr,
          (r.1.get_outputs ACCUM_SPAD_BASE inputs).self._tiles = [tile]
          ∧ tile.status = Tile.Status.INITIALIZED
          ∧ tile.instructions = [instr]
          ∧ instr.opcode = Opcode.DUMMY
          ∧ instr.src_addrs = []
          ∧ instr.size = r.1._load_cycles
          ∧ (r.1.get_outputs ACCUM_SPAD_BASE inputs).self._load_cycles = r.1._load_cycles) := by
  constructor
  · intro T E inputs outs h
    obtain ⟨t, rfl⟩ := movement_get_outputs_ok_length _ _ _ _ h
    refine ⟨cost_tile ACCUM_SPAD_BASE name id (ActivationMovement.new oor cfg id name T E).1._movement_cycles,
      _, ?_, rfl, rfl, rfl, rfl, rfl, ?_⟩
    · rw [movement_get_outputs_one]
      simp [movement_new_self]
    · rw [movement_get_outputs_one]
  · intro w expert_id weights data r inputs outs hr h
    obtain ⟨t, rfl⟩ := load_get_outputs_ok_length _ _ _ _ h
    obtain ⟨ht, -, hn, hi, -⟩ := load_new_fresh _ _ _ _ _ _ _ _ _ hr
    refine ⟨cost_tile ACCUM_SPAD_BASE name id r.1._load_cycles, _, ?_, rfl, rfl, rfl, rfl, rfl, ?_⟩
    · rw [load_get_outputs_one]
      simp [ht, hn, hi]
    · rw [load_get_outputs_one]

/-- C9 at the instances of examples A and B bound to one input tensor: the
hypotheses of both halves hold there. -/
theorem C9_one_tile_one_instruction_witness :
    (∃ tile instr,
      ((ActivationMovement.new example_conversion example_config 7 "activation_movement_1" 4096 4096).1.get_outputs
          536870912 [example_tensor "router_out" [4096, 4096]]).self._tiles = [tile]
      ∧ tile.status = Tile.Status.INITIALIZED
      ∧ tile.instructions = [instr]
      ∧ instr.opcode = Opcode.DUMMY
      ∧ instr.src_addrs = []
      ∧ instr.size
        = (ActivationMovement.new example_conversion example_config 7 "activation_movement_1" 4096 4096).1._movement_cycles
      ∧ ((ActivationMovement.new example_conversion example_config 7 "activation_movement_1" 4096 4096).1.get_outputs
          536870912 [example_tensor "router_out" [4096, 4096]]).self._movement_cycles
        = (ActivationMovement.new example_conversion example_config 7 "activation_movement_1"
            4096 4096).1._movement_cycles)
    ∧ (∃ tile instr,
      ((example_load.calculate_load_cycles example_conversion 32).1.get_outputs
          536870912 [example_tensor "norm_out" [1, 4096]]).self._tiles = [tile]
      ∧ tile.status = Tile.Status.INITIALIZED
      ∧ tile.instructions = [instr]
      ∧ instr.opcode = Opcode.DUMMY
      ∧ instr.src_addrs = []
      ∧ instr.size = (example_load.calculate_load_cycles example_conversion 32).1._load_cycles
      ∧ ((example_load.calculate_load_cycles example_conversion 32).1.get_outputs
          536870912 [example_tensor "norm_out" [1, 4096]]).self._load_cycles
        = (example_load.calculate_load_cycles example_conversion 32).1._load_cycles) :=
  ⟨(C9_one_tile_one_instruction example_conversion 536870912 example_config 7 "activation_movement_1").1
      4096 4096 [example_tensor "router_out" [4096, 4096]] _
      (by rw [movement_get_outputs_one]),
   (C9_one_tile_one_instruction example_conversion 536870912 example_config 0 "expert_0_param_load").2
      32 0 example_weights (example_tensor "x" [1, 4096]) _
      [example_tensor "norm_out" [1, 4096]] _
      (load_new_ok example_conversion 32 example_config 0 "expert_0_param_load" 0 example_weights
        (example_tensor "x" [1, 4096]) 16777216
        (by simp [ExpertParamLoad.sum_param_size, example_weights, example_weight, u64]))
      (by rw [load_get_outputs_one])⟩

/-! ## C10: the two outputs of an ExpertParamLoad -/

/-- C10: for every constructed ExpertParamLoad and every single trigger input,
output binding returns exactly two outputs, the first with the dims of the data
tensor given at construction, the second with dims `[1]`; the returned outputs
are the same for every trigger tensor. -/
theorem C10_two_outputs (oor : Nat → Nat) (w : Nat) (cfg : SimulationConfig) (id : Nat) (name : String)
    (expert_id : Nat) (weights : List NPUTensor) (data : BTensor)
    (r : ExpertParamLoad × ParamLoadLog) (ACCUM_SPAD_BASE : Nat) (trigger : BTensor)
    (hr : ExpertParamLoad.new oor w cfg id name expert_id weights data = .ok r) :
    (∃ out0 out1,
      (r.1.get_outputs ACCUM_SPAD_BASE [trigger]).result = .ok [some out0, some out1]
      ∧ out0.get_dims = data.get_dims
      ∧ out1.get_dims = [1])
    ∧ (∀ trigger2 : BTensor,
      (r.1.get_outputs ACCUM_SPAD_BASE [trigger2]).result
        = (r.1.get_outputs ACCUM_SPAD_BASE [trigger]).result) := by
  obtain ⟨-, ho, -, -, hd⟩ := load_new_fresh _ _ _ _ _ _ _ _ _ hr
  constructor
  · refine ⟨make_NPUTensor (r.1._name ++ "_data_output") data._dims NPUTensorBufType.ACT false,
      make_NPUTensor (r.1._name ++ "_completion_signal") [1] NPUTensorBufType.ACT false,
      ?_, rfl, rfl⟩
    rw [load_get_outputs_one]
    simp [ho, hd, resize]
  · intro trigger2
    rw [load_get_outputs_one, load_get_outputs_one]

/-- C10 at the ExpertParamLoad of example B, bound to a trigger of dims
`[7, 3]`. -/
theorem C10_two_outputs_witness :
    (∃ out0 out1,
      ((example_load.calculate_load_cycles example_conversion 32).1.get_outputs 536870912
          [example_tensor "prev_signal" [7, 3]]).result = .ok [some out0, some out1]
      ∧ out0.get_dims = (example_tensor "x" [1, 4096]).get_dims
      ∧ out1.get_dims = [1])
    ∧ (∀ trigger2 : BTensor,
      ((example_load.calculate_load_cycles example_conversion 32).1.get_outputs 536870912 [trigger2]).result
        = ((example_load.calculate_load_cycles example_conversion 32).1.get_outputs 536870912
            [example_tensor "prev_signal" [7, 3]]).result) :=
  C10_two_outputs example_conversion 32 example_config 0 "expert_0_param_load" 0 example_weights
    (example_tensor "x" [1, 4096]) _ 536870912 (example_tensor "prev_signal" [7, 3])
    (load_new_ok example_conversion 32 example_config 0 "expert_0_param_load" 0 example_weights
      (example_tensor "x" [1, 4096]) 16777216
      (by simp [ExpertParamLoad.sum_param_size, example_weights, example_weight, u64]))

/-! ## C11: the output of an ActivationMovement -/

/-- C11: for every ActivationMovement and every single input tensor, output
binding returns exactly one output tensor, whose dimension sequence is that of
the input tensor; the returned vector is the same whatever token count and
embedding width the operation was constructed with. -/
theorem C11_passthrough_dims (oor : Nat → Nat) (ACCUM_SPAD_BASE : Nat) (input : BTensor) :
    (∀ self : ActivationMovement,
      ∃ out, (self.get_outputs ACCUM_SPAD_BASE [input]).result = .ok [some out]
        ∧ out.get_dims = input.get_dims)
    ∧ (∀ (cfg : SimulationConfig) (id : Nat) (name : String) (T E T2 E2 : Nat),
      ((ActivationMovement.new oor cfg id name T E).1.get_outputs ACCUM_SPAD_BASE [input]).result
        = ((ActivationMovement.new oor cfg id name T2 E2).1.get_outputs
            ACCUM_SPAD_BASE [input]).result) := by
  constructor
  · intro self
    exact ⟨_, movement_get_outputs_result _ _ _, rfl⟩
  · intro cfg id name T E T2 E2
    rw [movement_get_outputs_result, movement_get_outputs_result, movement_new_self,
      movement_new_self]

/-! ## C12: the arity check -/

/-- C12: output binding of an ActivationMovement, and of an ExpertParamLoad,
stops at the assertion exactly when the number of tensors passed differs from
1, and returns a vector exactly when it is 1. -/
theorem C12_fails_iff_not_one (ACCUM_SPAD_BASE : Nat) (m : ActivationMovement)
    (l : ExpertParamLoad) (inputs : List BTensor) :
    ((m.get_outputs ACCUM_SPAD_BASE inputs).result = .error .assertion ↔ inputs.length ≠ 1)
    ∧ ((∃ outs, (m.get_outputs ACCUM_SPAD_BASE inputs).result = .ok outs) ↔ inputs.length = 1)
    ∧ ((l.get_outputs ACCUM_SPAD_BASE inputs).result = .error .assertion ↔ inputs.length ≠ 1)
    ∧ ((∃ outs, (l.get_outputs ACCUM_SPAD_BASE inputs).result = .ok outs) ↔ inputs.length = 1) := by
  by_cases h : inputs.length = 1
  · obtain ⟨t, rfl⟩ := List.length_eq_one.mp h
    rw [movement_get_outputs_result, load_get_outputs_result]
    simp
  · rw [movement_get_outputs_wrong_count _ _ _ h, load_get_outputs_wrong_count _ _ _ h]
    simp [h]


/-! ## C13: the state left by a rejected binding -/

/-- C13, as stated, fails for two tensors: both `get_outputs` call
`set_as_parent_tensor(inputs)` before the assertion on the input count, so the
binding of the ActivationMovement with id 7 to two tensors stops at the
assertion after a dependency registration was made for each of the two. -/
theorem C13_counterexample :
    ((ActivationMovement.new example_conversion example_config 7 "activation_movement_1"
        4096 4096).1.get_outputs
        536870912 [example_tensor "a" [4096, 4096], example_tensor "b" [4096, 4096]]).result
      = .error .assertion
    ∧ ((ActivationMovement.new example_conversion example_config 7 "activation_movement_1"
        4096 4096).1.get_outputs
        536870912 [example_tensor "a" [4096, 4096], example_tensor "b" [4096, 4096]]).registered
      = [{ tensor := example_tensor "a" [4096, 4096], dependent := 7 },
         { tensor := example_tensor "b" [4096, 4096], dependent := 7 }]
    ∧ ((ActivationMovement.new example_conversion example_config 7 "activation_movement_1"
        4096 4096).1.get_outputs
        536870912
        [example_tensor "a" [4096, 4096], example_tensor "b" [4096, 4096]]).registered.length
      = 2 := by
  have h := (movement_get_outputs_abort_state 536870912
    (ActivationMovement.new example_conversion example_config 7 "activation_movement_1"
      4096 4096).1
    [example_tensor "a" [4096, 4096], example_tensor "b" [4096, 4096]] (by simp)).2
  refine ⟨movement_get_outputs_wrong_count _ _ _ (by simp), ?_, ?_⟩
  · rw [h, movement_new_self]; rfl
  · rw [h]; rfl

/-- C13, amended: when output binding is invoked with a wrong input count on an
ActivationMovement or an ExpertParamLoad, the call stops at the assertion and
the operation (its output list, tile list and input slots) is as before the
call; by then one dependency registration has been made for each tensor
passed, so that none has been made only when no tensor was passed. -/
theorem C13_rejected_binding (ACCUM_SPAD_BASE : Nat) (m : ActivationMovement)
    (l : ExpertParamLoad) (inputs : List BTensor) (h : inputs.length ≠ 1) :
    ((m.get_outputs ACCUM_SPAD_BASE inputs).result = .error .assertion
      ∧ (m.get_outputs ACCUM_SPAD_BASE inputs).self._outputs = m._outputs
      ∧ (m.get_outputs ACCUM_SPAD_BASE inputs).self._tiles = m._tiles
      ∧ (m.get_outputs ACCUM_SPAD_BASE inputs).self._inputs = m._inputs
      ∧ (m.get_outputs ACCUM_SPAD_BASE inputs).registered
        = inputs.map (fun t => { tensor := t, dependent := m._id })
      ∧ (m.get_outputs ACCUM_SPAD_BASE inputs).registered.length = inputs.length
      ∧ ((m.get_outputs ACCUM_SPAD_BASE inputs).registered = [] ↔ inputs = []))
    ∧ ((l.get_outputs ACCUM_SPAD_BASE inputs).result = .error .assertion
      ∧ (l.get_outputs ACCUM_SPAD_BASE inputs).self._outputs = l._outputs
      ∧ (l.get_outputs ACCUM_SPAD_BASE inputs).self._tiles = l._tiles
      ∧ (l.get_outputs ACCUM_SPAD_BASE inputs).self._inputs = l._inputs
      ∧ (l.get_outputs ACCUM_SPAD_BASE inputs).registered
        = inputs.map (fun t => { tensor := t, dependent := l._id })
      ∧ (l.get_outputs ACCUM_SPAD_BASE inputs).registered.length = inputs.length
      ∧ ((l.get_outputs ACCUM_SPAD_BASE inputs).registered = [] ↔ inputs = [])) := by
  obtain ⟨hm1, hm2⟩ := movement_get_outputs_abort_state ACCUM_SPAD_BASE m inputs h
  obtain ⟨hl1, hl2⟩ := load_get_outputs_abort_state ACCUM_SPAD_BASE l inputs h
  refine ⟨⟨movement_get_outputs_wrong_count _ _ _ h, ?_, ?_, ?_, hm2, ?_, ?_⟩,
    ⟨load_get_outputs_wrong_count _ _ _ h, ?_, ?_, ?_, hl2, ?_, ?_⟩⟩
  · rw [hm1]
  · rw [hm1]
  · rw [hm1]
  · rw [hm2, List.length_map]
  · rw [hm2, List.map_eq_nil_iff]
  · rw [hl1]
  · rw [hl1]
  · rw [hl1]
  · rw [hl2, List.length_map]
  · rw [hl2, List.map_eq_nil_iff]

/-- C13, amended, at a binding of the instances of examples A and B to two
tensors: both calls stop at the assertion with the operation unchanged and two
dependency registrations made. -/
theorem C13_rejected_binding_witness :
    [example_tensor "a" [4096, 4096], example_tensor "b" [4096, 4096]].length ≠ 1
    ∧ ((ActivationMovement.new example_conversion example_config 7 "activation_movement_1"
        4096 4096).1.get_outputs 536870912
        [example_tensor "a" [4096, 4096], example_tensor "b" [4096, 4096]]).result
      = .error .assertion
    ∧ ((ActivationMovement.new example_conversion example_config 7 "activation_movement_1"
        4096 4096).1.get_outputs 536870912
        [example_tensor "a" [4096, 4096], example_tensor "b" [4096, 4096]]).registered.length
      = [example_tensor "a" [4096, 4096], example_tensor "b" [4096, 4096]].length
    ∧ ((example_load.calculate_load_cycles example_conversion 32).1.get_outputs 536870912
        [example_tensor "a" [4096, 4096], example_tensor "b" [4096, 4096]]).result
      = .error .assertion
    ∧ ((example_load.calculate_load_cycles example_conversion 32).1.get_outputs 536870912
        [example_tensor "a" [4096, 4096], example_tensor "b" [4096, 4096]]).registered.length
      = [example_tensor "a" [4096, 4096], example_tensor "b" [4096, 4096]].length :=
  ⟨by decide,
   (C13_rejected_binding 536870912
      (ActivationMovement.new example_conversion example_config 7 "activation_movement_1"
        4096 4096).1
      (example_load.calculate_load_cycles example_conversion 32).1
      [example_tensor "a" [4096, 4096], example_tensor "b" [4096, 4096]] (by decide)).1.1,
   (C13_rejected_binding 536870912
      (ActivationMovement.new example_conversion example_config 7 "activation_movement_1"
        4096 4096).1
      (example_load.calculate_load_cycles example_conversion 32).1
      [example_tensor "a" [4096, 4096], example_tensor "b" [4096, 4096]]
      (by decide)).1.2.2.2.2.2.1,
   (C13_rejected_binding 536870912
      (ActivationMovement.new example_conversion example_config 7 "activation_movement_1"
        4096 4096).1
      (example_load.calculate_load_cycles example_conversion 32).1
      [example_tensor "a" [4096, 4096], example_tensor "b" [4096, 4096]] (by decide)).2.1,
   (C13_rejected_binding 536870912
      (ActivationMovement.new example_conversion example_config 7 "activation_movement_1"
        4096 4096).1
      (example_load.calculate_load_cycles example_conversion 32).1
      [example_tensor "a" [4096, 4096], example_tensor "b" [4096, 4096]]
      (by decide)).2.2.2.2.2.2.1⟩

/-! ## C14: the transfer size of an ExpertParamLoad -/

/-- C14, the code at the failing input: for one weight tensor stored as two
inner tensors of 8 MiB each the constructor accumulates 8,388,608 bytes, and
that is the size its cost computation uses, while the byte sizes of the weight
tensors sum to 16,777,216; for an empty weight list both are 0. -/
theorem C14_first_inner_only :
    Except.map (fun r => (r.1._param_size_bytes, r.2.param_bytes))
        (ExpertParamLoad.new example_conversion 32 example_config 0 "expert_0_param_load" 0
          [example_split_weight "fc1" [2, 4096, 1024] 8388608] (example_tensor "x" [1, 4096]))
      = .ok (8388608, 8388608)
    ∧ spec_transfer_bytes [example_split_weight "fc1" [2, 4096, 1024] 8388608] = 16777216
    ∧ Except.map (fun r => (r.1._param_size_bytes, r.2.param_bytes))
        (ExpertParamLoad.new example_conversion 32 example_config 0 "expert_0_param_load" 0 []
          (example_tensor "x" [1, 4096]))
      = .ok (0, 0)
    ∧ spec_transfer_bytes [] = 0 := by
  have hs : ExpertParamLoad.sum_param_size
      [example_split_weight "fc1" [2, 4096, 1024] 8388608] 0 = .ok 8388608 := by
    simp [ExpertParamLoad.sum_param_size, example_split_weight, u64]
  have h0 : ExpertParamLoad.sum_param_size [] 0 = .ok 0 := rfl
  rw [load_new_ok _ _ _ _ _ _ _ _ _ hs, load_new_ok _ _ _ _ _ _ _ _ _ h0]
  simp only [Except.map, load_self_eq, load_log_eq]
  refine ⟨congrArg Except.ok ?_, ?_, congrArg Except.ok ?_, ?_⟩ <;> decide

/-! ## C15: what the cost depends on -/

/-- C15: two ActivationMovement instances with the same `T`, `E` and
configuration whose names agree on containing `activation_movement_2` store the
same cost, whatever their names and ids; two ExpertParamLoad instances with the
same configuration and the same accumulated weight bytes store the same cost,
whatever their names, ids, expert ids, weight lists and data tensors. -/
theorem C15_cost_function_of_size_config_direction (oor : Nat → Nat)
    (cfg : SimulationConfig) :
    (∀ (id1 id2 : Nat) (name1 name2 : String) (T E : Nat),
      name_has_movement_2 name1 = name_has_movement_2 name2 →
        (ActivationMovement.new oor cfg id1 name1 T E).1._movement_cycles
          = (ActivationMovement.new oor cfg id2 name2 T E).1._movement_cycles)
    ∧ (∀ (w id1 id2 : Nat) (name1 name2 : String) (expert1 expert2 : Nat)
        (weights1 weights2 : List NPUTensor) (data1 data2 : BTensor)
        (r1 r2 : ExpertParamLoad × ParamLoadLog),
      ExpertParamLoad.new oor w cfg id1 name1 expert1 weights1 data1 = .ok r1 →
      ExpertParamLoad.new oor w cfg id2 name2 expert2 weights2 data2 = .ok r2 →
      r1.1._param_size_bytes = r2.1._param_size_bytes →
        r1.1._load_cycles = r2.1._load_cycles) := by
  constructor
  · intro id1 id2 name1 name2 T E hd
    rw [movement_new_self, movement_new_self, hd]
  · intro w id1 id2 name1 name2 expert1 expert2 weights1 weights2 data1 data2 r1 r2 h1 h2 hB
    rw [(load_new_cycles _ _ _ _ _ _ _ _ _ h1).2, (load_new_cycles _ _ _ _ _ _ _ _ _ h2).2, hB]

/-- C15 at two read movements with different names and ids, and at two loads of
16 MiB that differ in name, id, expert id, weight list and data tensor. -/
theorem C15_cost_function_of_size_config_direction_witness :
    (name_has_movement_2 "layer0.activation_movement_1" = name_has_movement_2 "moe_read"
      ∧ (example_load.calculate_load_cycles example_conversion 32).1._param_size_bytes
        = (example_load_other.calculate_load_cycles example_conversion 32).1._param_size_bytes)
    ∧ (ActivationMovement.new example_conversion example_config 3 "layer0.activation_movement_1"
        4096 4096).1._movement_cycles
      = (ActivationMovement.new example_conversion example_config 9 "moe_read" 4096 4096).1._movement_cycles
    ∧ (example_load.calculate_load_cycles example_conversion 32).1._load_cycles
      = (example_load_other.calculate_load_cycles example_conversion 32).1._load_cycles :=
  ⟨⟨by decide, by rw [load_self_eq, load_self_eq]; rfl⟩,
   (C15_cost_function_of_size_config_direction example_conversion example_config).1 3 9
      "layer0.activation_movement_1" "moe_read" 4096 4096 (by decide),
   (C15_cost_function_of_size_config_direction example_conversion example_config).2 32 0 5
      "expert_0_param_load" "expert_1_param_load" 0 1 example_weights
      [example_weight "fc" [4096, 2048] 16777216] (example_tensor "x" [1, 4096])
      (example_tensor "y" [8, 4096]) _ _
      (load_new_ok example_conversion 32 example_config 0 "expert_0_param_load" 0 example_weights
        (example_tensor "x" [1, 4096]) 16777216
        (by simp [ExpertParamLoad.sum_param_size, example_weights, example_weight, u64]))
      (load_new_ok example_conversion 32 example_config 5 "expert_1_param_load" 1
        [example_weight "fc" [4096, 2048] 16777216] (example_tensor "y" [8, 4096]) 16777216
        (by simp [ExpertParamLoad.sum_param_size, example_weight, u64]))
      (by rw [load_self_eq, load_self_eq]; rfl)⟩

/-! ## C16: the input slots -/

/-- C16, as stated, fails for an ExpertParamLoad with weights: the instance of
example B, constructed with two weight tensors, has three input slots. -/
theorem C16_counterexample :
    Except.map (fun r => r.1._inputs.length)
        (ExpertParamLoad.new example_conversion 32 example_config 0 "expert_0_param_load" 0 example_weights
          (example_tensor "x" [1, 4096]))
      = .ok 3 := by
  have hs : ExpertParamLoad.sum_param_size example_weights 0 = .ok 16777216 := by
    simp [ExpertParamLoad.sum_param_size, example_weights, example_weight, u64]
  have hn := load_new_ok example_conversion 32 example_config 0 "expert_0_param_load" 0 example_weights
    (example_tensor "x" [1, 4096]) 16777216 hs
  rw [hn]
  simp only [Except.map]
  rw [load_new_inputs _ _ _ _ _ _ _ _ _ hn]
  rfl

/-- C16, amended: after construction an ActivationMovement has 1 input slot, and
an ExpertParamLoad has one slot more than it has weight tensors: an empty slot
for the trigger followed by the weights, that is 1 slot only for an empty
weight list. -/
theorem C16_input_slots (oor : Nat → Nat) (w : Nat) (cfg : SimulationConfig) (id : Nat) (name : String)
    (T E expert_id : Nat) (weights : List NPUTensor) (data : BTensor)
    (r : ExpertParamLoad × ParamLoadLog)
    (hr : ExpertParamLoad.new oor w cfg id name expert_id weights data = .ok r) :
    (ActivationMovement.new oor cfg id name T E).1._inputs.length = 1
    ∧ r.1._inputs.length = weights.length + 1
    ∧ r.1._inputs = none :: weights.map (fun weight => some weight.toBTensor)
    ∧ (r.1._inputs.length = 1 ↔ weights = []) := by
  have hi := load_new_inputs _ _ _ _ _ _ _ _ _ hr
  refine ⟨by rw [movement_new_self]; rfl, by rw [hi]; simp, hi, ?_⟩
  rw [hi]
  simp

/-- C16, amended, at the ExpertParamLoad of example B, which has two weights. -/
theorem C16_input_slots_witness :
    (ActivationMovement.new example_conversion example_config 0 "expert_0_param_load" 4096 4096).1._inputs.length = 1
    ∧ (example_load.calculate_load_cycles example_conversion 32).1._inputs.length = example_weights.length + 1 :=
  ⟨(C16_input_slots example_conversion 32 example_config 0 "expert_0_param_load" 4096 4096 0 example_weights
      (example_tensor "x" [1, 4096]) _
      (load_new_ok example_conversion 32 example_config 0 "expert_0_param_load" 0 example_weights
        (example_tensor "x" [1, 4096]) 16777216
        (by simp [ExpertParamLoad.sum_param_size, example_weights, example_weight, u64]))).1,
   (C16_input_slots example_conversion 32 example_config 0 "expert_0_param_load" 4096 4096 0 example_weights
      (example_tensor "x" [1, 4096]) _
      (load_new_ok example_conversion 32 example_config 0 "expert_0_param_load" 0 example_weights
        (example_tensor "x" [1, 4096]) 16777216
        (by simp [ExpertParamLoad.sum_param_size, example_weights, example_weight, u64]))).2.1⟩


/-! ## C17: construction without fault -/

/-- Below 2^64 the quotient converted to `transfer_cycles` is converted the same
on every platform. -/
theorem transfer_cycles_indep (oor oor2 : Nat → Nat) (f b : Nat)
    (h : (code_transfer_quotient f b).trunc < 2 ^ 64) :
    code_transfer_cycles oor f b = code_transfer_cycles oor2 f b := by
  unfold code_transfer_cycles
  rw [Dbl.to_uint64_of_lt _ _ h, Dbl.to_uint64_of_lt _ _ h]

/-- The product converted to `variance` is converted the same on every
platform. -/
theorem variance_indep (oor oor2 : Nat → Nat) (num den tc : Nat) (hden : den ≠ 0)
    (h : 2 * num ≤ den) (htc : tc < 2 ^ 64) :
    code_variance oor num den tc = code_variance oor2 num den tc := by
  unfold code_variance
  rw [Dbl.to_uint64_of_lt _ _ (variance_product_in_range num den tc hden h htc),
    Dbl.to_uint64_of_lt _ _ (variance_product_in_range num den tc hden h htc)]

theorem movement_sum_indep (oor oor2 : Nat → Nat) (f b : Nat) (wb : Bool)
    (h : (code_transfer_quotient f b).trunc < 2 ^ 64) :
    code_movement_sum oor f b wb = code_movement_sum oor2 f b wb := by
  rw [code_movement_sum_eq, code_movement_sum_eq, transfer_cycles_indep oor oor2 f b h,
    variance_indep oor oor2 10 100 _ (by norm_num) (by norm_num) (transfer_cycles_lt oor2 f b)]

theorem load_sum_indep (oor oor2 : Nat → Nat) (f l b : Nat)
    (h : (code_transfer_quotient f b).trunc < 2 ^ 64) :
    code_load_sum oor f l b = code_load_sum oor2 f l b := by
  rw [code_load_sum_eq, code_load_sum_eq, transfer_cycles_indep oor oor2 f b h,
    variance_indep oor oor2 7 100 _ (by norm_num) (by norm_num) (transfer_cycles_lt oor2 f b)]

theorem transfer_cycles_max_49_zero :
    code_transfer_cycles example_conversion 4294967295 (2 ^ 49) = 0 := by
  unfold code_transfer_cycles Dbl.to_uint64
  rw [transfer_quotient_max_49]
  decide

theorem transfer_cycles_max_49_saturating :
    code_transfer_cycles example_saturating_conversion 4294967295 (2 ^ 49)
      = 18446744073709551615 := by
  unfold code_transfer_cycles Dbl.to_uint64
  rw [transfer_quotient_max_49]
  decide

/-- C17, as stated, fails in two ways.  For a weight tensor that has no inner
tensor the constructor of ExpertParamLoad stops at the index `_inners[0]`, with
a clock of 1000 MHz.  And with the clock 4294967295 MHz, `T = E = 2^24` and
precision 2 the quotient converted to `transfer_cycles` is
109,902,347,212,104,925,184, not below 2^64: the conversion is undefined, and
`transfer_cycles` is 0 on a platform that yields 0 and 2^64 - 1 on one that
saturates. -/
theorem C17_counterexample :
    0 < example_config.core_freq
    ∧ ExpertParamLoad.new example_conversion 32 example_config 0 "expert_0_param_load" 0
        [example_hollow_weight "fc1" [4096, 1024]] (example_tensor "x" [1, 4096])
      = .error .out_of_range
    ∧ 0 < example_config_max.core_freq
    ∧ (ActivationMovement.new example_conversion example_config_max 0 "activation_movement_1"
        (2 ^ 24) (2 ^ 24)).1._activation_size_bytes = 2 ^ 49
    ∧ (code_transfer_quotient (u32 example_config_max.core_freq) (2 ^ 49)).trunc
      = 109902347212104925184
    ∧ 2 ^ 64 ≤ (code_transfer_quotient (u32 example_config_max.core_freq) (2 ^ 49)).trunc
    ∧ (ActivationMovement.new example_conversion example_config_max 0 "activation_movement_1"
        (2 ^ 24) (2 ^ 24)).2.transfer_cycles = 0
    ∧ (ActivationMovement.new example_saturating_conversion example_config_max 0
        "activation_movement_1" (2 ^ 24) (2 ^ 24)).2.transfer_cycles = 18446744073709551615 := by
  have hf : u32 example_config_max.core_freq = 4294967295 := by decide
  have hb : u64 (2 ^ 24 * 2 ^ 24 * example_config_max.precision) = 2 ^ 49 := by decide
  refine ⟨by decide, rfl, by decide, ?_, ?_, ?_, ?_, ?_⟩
  · rw [movement_new_self]; exact hb
  · rw [hf, transfer_quotient_max_49]
  · rw [hf, transfer_quotient_max_49]; decide
  · rw [movement_new_log]
    show code_transfer_cycles example_conversion (u32 example_config_max.core_freq)
      (u64 (2 ^ 24 * 2 ^ 24 * example_config_max.precision)) = 0
    rw [hf, hb, transfer_cycles_max_49_zero]
  · rw [movement_new_log]
    show code_transfer_cycles example_saturating_conversion (u32 example_config_max.core_freq)
      (u64 (2 ^ 24 * 2 ^ 24 * example_config_max.precision)) = 18446744073709551615
    rw [hf, hb, transfer_cycles_max_49_saturating]

/-- C17, amended: for every configuration with `0 < core_freq ≤ 22000` MHz,
every `T` and `E` with `transfer_bytes ≤ 2^64 - 2048`, and every list of weight
tensors each of which has at least one inner tensor and whose accumulated size
is at most `2^64 - 2048`, both constructions return a cost without reaching an
error branch or an undefined conversion: the divisor `bytes_per_cycle` is a
positive finite `double`, the quotient converted to `transfer_cycles` and the
product converted to `variance` are below 2^64 in both computations, the
constructor of ExpertParamLoad returns an object, and what the two constructors
return does not depend on the platform. -/
theorem C17_construction_returns (oor oor2 : Nat → Nat) (w : Nat) (cfg : SimulationConfig)
    (id : Nat) (name : String) (T E expert_id : Nat) (weights : List NPUTensor) (data : BTensor)
    (hf : 0 < cfg.core_freq) (hf2 : cfg.core_freq ≤ 22000)
    (hT : u64 (T * E * cfg.precision) ≤ 2 ^ 64 - 2048)
    (hw : ∀ weight ∈ weights, weight._inners ≠ [])
    (hB : ∀ B, ExpertParamLoad.sum_param_size weights 0 = .ok B → B ≤ 2 ^ 64 - 2048) :
    (∃ y, code_bytes_per_cycle (u32 cfg.core_freq) = some y ∧ 0 < y.val)
    ∧ (code_transfer_quotient (u32 cfg.core_freq)
        (ActivationMovement.new oor cfg id name T E).1._activation_size_bytes).trunc < 2 ^ 64
    ∧ (code_variance_product 10 100
        (ActivationMovement.new oor cfg id name T E).2.transfer_cycles).trunc < 2 ^ 64
    ∧ ActivationMovement.new oor cfg id name T E = ActivationMovement.new oor2 cfg id name T E
    ∧ (∃ r, ExpertParamLoad.new oor w cfg id name expert_id weights data = .ok r
        ∧ ExpertParamLoad.new oor2 w cfg id name expert_id weights data = .ok r
        ∧ r.1._load_cycles = r.2.load_cycles
        ∧ (code_transfer_quotient (u32 cfg.core_freq) r.2.param_bytes).trunc < 2 ^ 64
        ∧ (code_variance_product 7 100 r.2.transfer_cycles).trunc < 2 ^ 64) := by
  have hf32 : cfg.core_freq < 2 ^ 32 := lt_of_le_of_lt hf2 (by norm_num)
  have hrT := transfer_quotient_in_range cfg.core_freq _ hf2 hT
  obtain ⟨B, hBok⟩ := (sum_param_size_ok_iff weights 0).mpr hw
  have hBle := hB B hBok
  have hB64 : u64 B = B := u64_of_lt (by omega)
  have hrB := transfer_quotient_in_range cfg.core_freq B hf2 hBle
  refine ⟨?_, ?_, ?_, ?_, ?_⟩
  · obtain ⟨y, hy, _, h1, _⟩ := bytes_per_cycle_some cfg.core_freq hf hf32
    refine ⟨y, by rw [u32_of_lt hf32]; exact hy, ?_⟩
    have := h1 hf2
    linarith
  · rw [movement_new_self, u32_of_lt hf32]
    exact hrT
  · rw [movement_new_log]
    exact variance_product_in_range 10 100 _ (by norm_num) (by norm_num)
      (transfer_cycles_lt oor _ _)
  · have h1 := transfer_cycles_indep oor oor2 cfg.core_freq _ hrT
    have h2 := movement_sum_indep oor oor2 cfg.core_freq _ (name_has_movement_2 name) hrT
    apply Prod.ext
    · rw [movement_new_self, movement_new_self, u32_of_lt hf32, h2]
    · rw [movement_new_log, movement_new_log, u32_of_lt hf32, h1, h2,
        variance_indep oor oor2 10 100 _ (by norm_num) (by norm_num)
          (transfer_cycles_lt oor2 _ _)]
  · have h1 := transfer_cycles_indep oor oor2 cfg.core_freq B hrB
    have h2 := load_sum_indep oor oor2 cfg.core_freq (u64 cfg.expert_load_latency) B hrB
    refine ⟨_, load_new_ok oor w cfg id name expert_id weights data B hBok, ?_, ?_, ?_, ?_⟩
    · rw [load_new_ok oor2 w cfg id name expert_id weights data B hBok]
      refine congrArg Except.ok (Prod.ext ?_ ?_)
      · rw [load_self_eq, load_self_eq]
        simp only [u32_of_lt hf32, hB64, h2]
      · rw [load_log_eq, load_log_eq]
        simp only [u32_of_lt hf32, hB64, h1, h2]
        rw [variance_indep oor oor2 7 100 _ (by norm_num) (by norm_num)
          (transfer_cycles_lt oor2 _ _)]
    · rw [load_self_eq, load_log_eq]
    · rw [load_log_eq]
      simp only [u32_of_lt hf32, hB64]
      exact hrB
    · rw [load_log_eq]
      exact variance_product_in_range 7 100 _ (by norm_num) (by norm_num)
        (transfer_cycles_lt oor _ _)

/-- C17, amended, at examples A and B of the specification, on a platform whose
out-of-range conversion yields 0 and on one that saturates. -/
theorem C17_construction_returns_witness :
    (0 < example_config.core_freq ∧ example_config.core_freq ≤ 22000
      ∧ u64 (4096 * 4096 * example_config.precision) ≤ 2 ^ 64 - 2048
      ∧ (∀ weight ∈ example_weights, weight._inners ≠ [])
      ∧ ExpertParamLoad.sum_param_size example_weights 0 = .ok 16777216)
    ∧ ActivationMovement.new example_conversion example_config 0 "expert_0_param_load"
        4096 4096
      = ActivationMovement.new example_saturating_conversion example_config 0
        "expert_0_param_load" 4096 4096
    ∧ ∃ r, ExpertParamLoad.new example_conversion 32 example_config 0 "expert_0_param_load" 0
          example_weights (example_tensor "x" [1, 4096]) = .ok r
        ∧ ExpertParamLoad.new example_saturating_conversion 32 example_config 0
          "expert_0_param_load" 0 example_weights (example_tensor "x" [1, 4096]) = .ok r
        ∧ r.1._load_cycles = r.2.load_cycles
        ∧ (code_transfer_quotient (u32 example_config.core_freq) r.2.param_bytes).trunc < 2 ^ 64
        ∧ (code_variance_product 7 100 r.2.transfer_cycles).trunc < 2 ^ 64 :=
  ⟨⟨by decide, by decide, by decide, by simp [example_weights, example_weight],
      by simp [ExpertParamLoad.sum_param_size, example_weights, example_weight, u64]⟩,
   (C17_construction_returns example_conversion example_saturating_conversion 32 example_config
      0 "expert_0_param_load" 4096 4096 0 example_weights (example_tensor "x" [1, 4096])
      (by decide) (by decide) (by decide) (by simp [example_weights, example_weight])
      (by
        intro B hB
        have h : ExpertParamLoad.sum_param_size example_weights 0 = .ok 16777216 := by
          simp [ExpertParamLoad.sum_param_size, example_weights, example_weight, u64]
        rw [h] at hB
        cases hB
        decide)).2.2.2.1,
   (C17_construction_returns example_conversion example_saturating_conversion 32 example_config
      0 "expert_0_param_load" 4096 4096 0 example_weights (example_tensor "x" [1, 4096])
      (by decide) (by decide) (by decide) (by simp [example_weights, example_weight])
      (by
        intro B hB
        have h : ExpertParamLoad.sum_param_size example_weights 0 = .ok 16777216 := by
          simp [ExpertParamLoad.sum_param_size, example_weights, example_weight, u64]
        rw [h] at hB
        cases hB
        decide)).2.2.2.2⟩

/-! ## C18: the 32-bit cost field -/

/-- C18: for every `T`, `E` and configuration the cost an ActivationMovement
stores, which is also the size of the instruction it emits, is the 64-bit sum
of the six logged terms reduced modulo 2^32; it equals the sum of the six terms
exactly when that sum is below 2^32; for `T = 2^20`, `E = 2^16`, precision 2 and
a 1000 MHz clock the transfer time alone is 6,247,225,157 and the stored cost
differs from the sum. -/
theorem C18_cost_mod_2_32 (oor : Nat → Nat) (ACCUM_SPAD_BASE : Nat) (cfg : SimulationConfig) (id : Nat)
    (name : String) (T E : Nat) (input : BTensor) :
    (ActivationMovement.new oor cfg id name T E).1._movement_cycles
        = (ActivationMovement.new oor cfg id name T E).2.total % 2 ^ 64 % 2 ^ 32
    ∧ (ActivationMovement.new oor cfg id name T E).1._movement_cycles
        = (ActivationMovement.new oor cfg id name T E).2.total % 2 ^ 32
    ∧ ((ActivationMovement.new oor cfg id name T E).1._movement_cycles
        = (ActivationMovement.new oor cfg id name T E).2.total
      ↔ (ActivationMovement.new oor cfg id name T E).2.total < 2 ^ 32)
    ∧ (((ActivationMovement.new oor cfg id name T E).1.get_outputs
          ACCUM_SPAD_BASE [input]).self._tiles.map
        (fun tile => tile.instructions.map (fun instr => instr.size))
      = [[(ActivationMovement.new oor cfg id name T E).1._movement_cycles]])
    ∧ (ActivationMovement.new example_conversion example_config 0 "activation_movement_1"
        (2 ^ 20) (2 ^ 16)).2.transfer_cycles = 6247225157
    ∧ (ActivationMovement.new example_conversion example_config 0 "activation_movement_1"
        (2 ^ 20) (2 ^ 16)).1._movement_cycles
      ≠ (ActivationMovement.new example_conversion example_config 0 "activation_movement_1"
        (2 ^ 20) (2 ^ 16)).2.total := by
  have htot : (ActivationMovement.new oor cfg id name T E).2.total
      = code_movement_sum oor (u32 cfg.core_freq) (u64 (T * E * cfg.precision))
          (name_has_movement_2 name) := by
    rw [movement_new_log, code_movement_sum_eq]; rfl
  have hst : (ActivationMovement.new oor cfg id name T E).1._movement_cycles
      = code_movement_sum oor (u32 cfg.core_freq) (u64 (T * E * cfg.precision))
          (name_has_movement_2 name) % 2 ^ 32 := by
    rw [movement_new_self]
  have hb : u64 (2 ^ 20 * 2 ^ 16 * example_config.precision) < 2 ^ 48 := by decide
  refine ⟨?_, ?_, ?_, ?_, ?_, ?_⟩
  · rw [hst, htot]
    exact (Nat.mod_mod_of_dvd _ (Nat.pow_dvd_pow 2 (by norm_num))).symm
  · rw [hst, htot]
  · rw [hst, htot]
    constructor
    · intro h
      rw [← h]
      exact Nat.mod_lt _ (by positivity)
    · intro h
      exact Nat.mod_eq_of_lt h
  · rw [movement_get_outputs_one]
    simp [cost_tile, movement_new_self]
  · rw [movement_new_log_1000 _ _ _ _ _ _ rfl hb, spec_transfer_cycles_eq]
    decide
  · have hn : name_has_movement_2 "activation_movement_1" = false := by decide
    rw [movement_new_cycles_1000 _ _ _ _ _ _ rfl hb, movement_new_log_1000 _ _ _ _ _ _ rfl hb]
    simp only [MovementLog.total, spec_movement_cost_eq, spec_transfer_cycles_eq,
      spec_variance_10, hn, example_config]
    decide

/-! ## C19: the untruncated total within a size tier -/

theorem movement_sum_max_46 :
    code_movement_sum example_conversion 4294967295 (2 ^ 46) false = 14424683074944215656 := by
  have htc : code_transfer_cycles example_conversion 4294967295 (2 ^ 46)
      = 13737793401513115648 := by
    unfold code_transfer_cycles
    rw [Dbl.to_uint64_of_lt _ _ (by rw [transfer_quotient_max_46]; norm_num),
      transfer_quotient_max_46]
  have hv : code_variance example_conversion 10 100 13737793401513115648
      = 686889670075655808 := by
    unfold code_variance
    rw [Dbl.to_uint64_of_lt _ _ (by rw [variance_product_10_max_46]; norm_num),
      variance_product_10_max_46]
  rw [code_movement_sum_eq, htc, hv]
  decide

theorem movement_sum_max_49 :
    code_movement_sum example_conversion 4294967295 (2 ^ 49) false = 26843546600 := by
  have hv : code_variance example_conversion 10 100 0 = 0 := by
    unfold code_variance
    rw [Dbl.to_uint64_of_lt _ _ (by rw [variance_product_10_0]; norm_num),
      variance_product_10_0]
  rw [code_movement_sum_eq, transfer_cycles_max_49_zero, hv]
  decide

/-- C19, as stated, fails where the conversion to `transfer_cycles` leaves the
64-bit range: at the clock 4294967295 MHz, on a platform whose out-of-range
conversion yields 0, the byte counts 2^46 and 2^49 lie in the same size tier,
the total for 2^46 bytes is 14,424,683,074,944,215,656, and the total for 2^49
bytes, whose quotient 109,902,347,212,104,925,184 is not below 2^64, is
26,843,546,600. -/
theorem C19_counterexample :
    0 < example_config_max.core_freq
    ∧ (ActivationMovement.new example_conversion example_config_max 0 "activation_movement_1"
        (2 ^ 23) (2 ^ 22)).1._activation_size_bytes = 2 ^ 46
    ∧ (ActivationMovement.new example_conversion example_config_max 1 "activation_movement_1"
        (2 ^ 24) (2 ^ 24)).1._activation_size_bytes = 2 ^ 49
    ∧ (ActivationMovement.new example_conversion example_config_max 0 "activation_movement_1"
        (2 ^ 23) (2 ^ 22)).2.size_overhead
      = (ActivationMovement.new example_conversion example_config_max 1 "activation_movement_1"
        (2 ^ 24) (2 ^ 24)).2.size_overhead
    ∧ (ActivationMovement.new example_conversion example_config_max 0 "activation_movement_1"
        (2 ^ 23) (2 ^ 22)).2.total = 14424683074944215656
    ∧ (ActivationMovement.new example_conversion example_config_max 1 "activation_movement_1"
        (2 ^ 24) (2 ^ 24)).2.total = 26843546600
    ∧ ¬ ((ActivationMovement.new example_conversion example_config_max 0 "activation_movement_1"
        (2 ^ 23) (2 ^ 22)).2.total
      ≤ (ActivationMovement.new example_conversion example_config_max 1 "activation_movement_1"
        (2 ^ 24) (2 ^ 24)).2.total) := by
  have hn : name_has_movement_2 "activation_movement_1" = false := by decide
  have hf : u32 example_config_max.core_freq = 4294967295 := by decide
  have ha : u64 (2 ^ 23 * 2 ^ 22 * example_config_max.precision) = 2 ^ 46 := by decide
  have hb : u64 (2 ^ 24 * 2 ^ 24 * example_config_max.precision) = 2 ^ 49 := by decide
  have hta : (ActivationMovement.new example_conversion example_config_max 0
      "activation_movement_1" (2 ^ 23) (2 ^ 22)).2.total = 14424683074944215656 := by
    rw [movement_new_log, ← movement_sum_max_46, code_movement_sum_eq, hf, ha, hn]
    rfl
  have htb : (ActivationMovement.new example_conversion example_config_max 1
      "activation_movement_1" (2 ^ 24) (2 ^ 24)).2.total = 26843546600 := by
    rw [movement_new_log, ← movement_sum_max_49, code_movement_sum_eq, hf, hb, hn]
    rfl
  refine ⟨by decide, ?_, ?_, ?_, hta, htb, ?_⟩
  · rw [movement_new_self]; exact ha
  · rw [movement_new_self]; exact hb
  · rw [movement_new_log, movement_new_log]
    show spec_size_tier_overhead (u64 (2 ^ 23 * 2 ^ 22 * example_config_max.precision))
      = spec_size_tier_overhead (u64 (2 ^ 24 * 2 ^ 24 * example_config_max.precision))
    rw [ha, hb]
    decide
  · rw [hta, htb]; decide

/-- C19, amended: for a fixed configuration with `core_freq ≤ 22000` MHz and a
fixed direction, and two byte counts `a ≤ b ≤ 2^64 - 2048` in the same size
tier, the untruncated total computed by `calculate_movement_cycles` (resp.
`calculate_load_cycles`) for `a` is at most the total for `b`, and so are the
64-bit values of the two sums when the total for `b` is below 2^64; under these
bounds the total for the larger byte count is smaller only when the two byte
counts lie in different tiers. -/
theorem C19_total_monotone_within_tier (oor : Nat → Nat) :
    (∀ a b : ActivationMovement,
      a._config.core_freq ≤ 22000 → a._config = b._config →
      name_has_movement_2 a._name = name_has_movement_2 b._name →
      a._activation_size_bytes ≤ b._activation_size_bytes →
      b._activation_size_bytes ≤ 2 ^ 64 - 2048 →
        ((a.calculate_movement_cycles oor).2.size_overhead
            = (b.calculate_movement_cycles oor).2.size_overhead →
          (a.calculate_movement_cycles oor).2.total ≤ (b.calculate_movement_cycles oor).2.total)
        ∧ ((a.calculate_movement_cycles oor).2.size_overhead
            = (b.calculate_movement_cycles oor).2.size_overhead →
          (b.calculate_movement_cycles oor).2.total < 2 ^ 64 →
          u64 (a.calculate_movement_cycles oor).2.total
            ≤ u64 (b.calculate_movement_cycles oor).2.total)
        ∧ ((b.calculate_movement_cycles oor).2.total
            < (a.calculate_movement_cycles oor).2.total →
          (a.calculate_movement_cycles oor).2.size_overhead
            ≠ (b.calculate_movement_cycles oor).2.size_overhead))
    ∧ (∀ (w : Nat) (a b : ExpertParamLoad),
      a._config.core_freq ≤ 22000 → a._config = b._config →
      (a.calculate_load_cycles oor w).2.param_bytes
        ≤ (b.calculate_load_cycles oor w).2.param_bytes →
      (b.calculate_load_cycles oor w).2.param_bytes ≤ 2 ^ 64 - 2048 →
        ((a.calculate_load_cycles oor w).2.size_overhead
            = (b.calculate_load_cycles oor w).2.size_overhead →
          (a.calculate_load_cycles oor w).2.total ≤ (b.calculate_load_cycles oor w).2.total)
        ∧ ((a.calculate_load_cycles oor w).2.size_overhead
            = (b.calculate_load_cycles oor w).2.size_overhead →
          (b.calculate_load_cycles oor w).2.total < 2 ^ 64 →
          u64 (a.calculate_load_cycles oor w).2.total
            ≤ u64 (b.calculate_load_cycles oor w).2.total)
        ∧ ((b.calculate_load_cycles oor w).2.total < (a.calculate_load_cycles oor w).2.total →
          (a.calculate_load_cycles oor w).2.size_overhead
            ≠ (b.calculate_load_cycles oor w).2.size_overhead)) := by
  constructor
  · intro a b hf hc hd hab hr
    have hf32 : b._config.core_freq < 2 ^ 32 := by
      rw [← hc]; exact lt_of_le_of_lt hf (by norm_num)
    have hfb : b._config.core_freq ≤ 22000 := by rw [← hc]; exact hf
    have hmono : (a.calculate_movement_cycles oor).2.size_overhead
          = (b.calculate_movement_cycles oor).2.size_overhead →
        (a.calculate_movement_cycles oor).2.total
          ≤ (b.calculate_movement_cycles oor).2.total := by
      intro ht
      rw [movement_total_eq, movement_total_eq, hc, hd, u32_of_lt hf32]
      simp only [movement_log_eq] at ht
      exact (movement_sum_mono oor _ _ hab ht
        (transfer_quotient_in_range b._config.core_freq _ hfb hr)).1
    refine ⟨hmono, fun ht hb => ?_, fun hlt ht => absurd (hmono ht) (not_le.mpr hlt)⟩
    rw [u64_of_lt hb, u64_of_lt (lt_of_le_of_lt (hmono ht) hb)]
    exact hmono ht
  · intro w a b hf hc hab hr
    have hf32 : b._config.core_freq < 2 ^ 32 := by
      rw [← hc]; exact lt_of_le_of_lt hf (by norm_num)
    have hfb : b._config.core_freq ≤ 22000 := by rw [← hc]; exact hf
    have hmono : (a.calculate_load_cycles oor w).2.size_overhead
          = (b.calculate_load_cycles oor w).2.size_overhead →
        (a.calculate_load_cycles oor w).2.total ≤ (b.calculate_load_cycles oor w).2.total := by
      intro ht
      rw [load_total_eq, load_total_eq, hc, u32_of_lt hf32]
      simp only [load_log_eq] at ht hab hr
      exact load_sum_mono oor _ _ hab ht
        (transfer_quotient_in_range b._config.core_freq _ hfb hr)
    refine ⟨hmono, fun ht hb => ?_, fun hlt ht => absurd (hmono ht) (not_le.mpr hlt)⟩
    rw [u64_of_lt hb, u64_of_lt (lt_of_le_of_lt (hmono ht) hb)]
    exact hmono ht

/-- C19, amended, at 32 MiB against 64 MiB of activations, and at 16 MiB against
32 MiB of weights, all in the top tier, at 1000 MHz. -/
theorem C19_total_monotone_within_tier_witness :
    (((ActivationMovement.new example_conversion example_config 0 "activation_movement_1"
        4096 4096).1.calculate_movement_cycles example_conversion).2.total
      ≤ ((ActivationMovement.new example_conversion example_config 1 "activation_movement_1"
        8192 4096).1.calculate_movement_cycles example_conversion).2.total)
    ∧ ((example_load.calculate_load_cycles example_conversion 32).2.total
      ≤ (ExpertParamLoad.calculate_load_cycles example_conversion 32
          { example_load with _param_size_bytes := 33554432 }).2.total) :=
  ⟨((C19_total_monotone_within_tier example_conversion).1
      (ActivationMovement.new example_conversion example_config 0 "activation_movement_1"
        4096 4096).1
      (ActivationMovement.new example_conversion example_config 1 "activation_movement_1"
        8192 4096).1
      (by simp [movement_new_self, example_config])
      (by simp [movement_new_self])
      (by simp [movement_new_self])
      (by simp only [movement_new_self, example_config]; decide)
      (by simp only [movement_new_self, example_config]; decide)).1
      (by simp only [movement_log_eq, movement_new_self, example_config]; decide),
   ((C19_total_monotone_within_tier example_conversion).2 32 example_load
      { example_load with _param_size_bytes := 33554432 }
      (by simp [example_load, example_config])
      rfl
      (by simp only [load_log_eq, example_load]; decide)
      (by simp only [load_log_eq, example_load]; decide)).1
      (by simp only [load_log_eq, example_load]; decide)⟩

/-! ## C20: repeated output binding -/

/-- C20: after `k ≥ 1` successful output-binding calls on the same freshly
constructed ActivationMovement (resp. ExpertParamLoad), here the calls on the
tensors of `earlier` followed by the call on `last`, the tile list holds exactly
`k` tiles, each with exactly one instruction, a DUMMY whose size is the cost
computed at construction, and the output list has length 1 (resp. 2), with the
dims of the input of the last call (resp. the dims of the data tensor, and
`[1]`). -/
theorem C20_k_bindings (oor : Nat → Nat) (ACCUM_SPAD_BASE : Nat) (cfg : SimulationConfig)
    (id : Nat) (name : String) (earlier : List BTensor) (last : BTensor) :
    (∀ T E : Nat,
      (ActivationMovement.bind_each ACCUM_SPAD_BASE (ActivationMovement.new oor cfg id name T E).1
          (earlier ++ [last]))._tiles.length = earlier.length + 1
      ∧ (∀ tile ∈ (ActivationMovement.bind_each ACCUM_SPAD_BASE
            (ActivationMovement.new oor cfg id name T E).1 (earlier ++ [last]))._tiles,
          ∃ instr, tile.instructions = [instr] ∧ instr.opcode = Opcode.DUMMY
            ∧ instr.size = (ActivationMovement.new oor cfg id name T E).1._movement_cycles)
      ∧ (∃ out, (ActivationMovement.bind_each ACCUM_SPAD_BASE
            (ActivationMovement.new oor cfg id name T E).1 (earlier ++ [last]))._outputs = [some out]
          ∧ out.get_dims = last.get_dims))
    ∧ (∀ (w expert_id : Nat) (weights : List NPUTensor) (data : BTensor)
        (r : ExpertParamLoad × ParamLoadLog),
      ExpertParamLoad.new oor w cfg id name expert_id weights data = .ok r →
        (ExpertParamLoad.bind_each ACCUM_SPAD_BASE r.1 (earlier ++ [last]))._tiles.length
          = earlier.length + 1
        ∧ (∀ tile ∈ (ExpertParamLoad.bind_each ACCUM_SPAD_BASE r.1 (earlier ++ [last]))._tiles,
            ∃ instr, tile.instructions = [instr] ∧ instr.opcode = Opcode.DUMMY
              ∧ instr.size = r.1._load_cycles)
        ∧ (∃ out0 out1,
            (ExpertParamLoad.bind_each ACCUM_SPAD_BASE r.1 (earlier ++ [last]))._outputs
              = [some out0, some out1]
            ∧ out0.get_dims = data.get_dims ∧ out1.get_dims = [1])) := by
  constructor
  · intro T E
    obtain ⟨-, -, -, ht⟩ := movement_bind_each_inv ACCUM_SPAD_BASE (earlier ++ [last])
      (ActivationMovement.new oor cfg id name T E).1
    have hfresh : (ActivationMovement.new oor cfg id name T E).1._tiles = [] := by
      rw [movement_new_self]
    refine ⟨?_, ?_, ?_⟩
    · rw [ht, hfresh]; simp
    · intro tile hmem
      rw [ht, hfresh] at hmem
      simp only [List.nil_append] at hmem
      rw [List.eq_of_mem_replicate hmem]
      exact ⟨_, rfl, rfl, rfl⟩
    · rw [movement_bind_each_append, movement_get_outputs_one, resize_one_set]
      exact ⟨_, rfl, rfl⟩
  · intro w expert_id weights data r hr
    obtain ⟨hfresh, -, -, -, hd⟩ := load_new_fresh _ _ _ _ _ _ _ _ _ hr
    obtain ⟨-, -, -, -, ht⟩ := load_bind_each_inv ACCUM_SPAD_BASE (earlier ++ [last]) r.1
    obtain ⟨-, -, hd2, -, -⟩ := load_bind_each_inv ACCUM_SPAD_BASE earlier r.1
    refine ⟨?_, ?_, ?_⟩
    · rw [ht, hfresh]; simp
    · intro tile hmem
      rw [ht, hfresh] at hmem
      simp only [List.nil_append] at hmem
      rw [List.eq_of_mem_replicate hmem]
      exact ⟨_, rfl, rfl, rfl⟩
    · rw [load_bind_each_append, load_get_outputs_one, resize_two_set]
      refine ⟨_, _, rfl, ?_, rfl⟩
      show (ExpertParamLoad.bind_each ACCUM_SPAD_BASE r.1 earlier)._data_tensor._dims = data._dims
      rw [hd2, hd]

/-- C20 at two successive bindings of the ExpertParamLoad of example B, the
first to a trigger of dims `[7, 3]`, the second to one of dims `[5]`. -/
theorem C20_k_bindings_witness :
    (ExpertParamLoad.bind_each 536870912 (example_load.calculate_load_cycles example_conversion 32).1
        ([example_tensor "t1" [7, 3]] ++ [example_tensor "t2" [5]]))._tiles.length
      = [example_tensor "t1" [7, 3]].length + 1
    ∧ ∃ out0 out1,
        (ExpertParamLoad.bind_each 536870912 (example_load.calculate_load_cycles example_conversion 32).1
          ([example_tensor "t1" [7, 3]] ++ [example_tensor "t2" [5]]))._outputs
          = [some out0, some out1]
        ∧ out0.get_dims = (example_tensor "x" [1, 4096]).get_dims ∧ out1.get_dims = [1] :=
  ⟨((C20_k_bindings example_conversion 536870912 example_config 0 "expert_0_param_load"
      [example_tensor "t1" [7, 3]] (example_tensor "t2" [5])).2 32 0 example_weights
      (example_tensor "x" [1, 4096]) (example_load.calculate_load_cycles example_conversion 32)
      (load_new_ok example_conversion 32 example_config 0 "expert_0_param_load" 0 example_weights
        (example_tensor "x" [1, 4096]) 16777216
        (by simp [ExpertParamLoad.sum_param_size, example_weights, example_weight, u64]))).1,
   ((C20_k_bindings example_conversion 536870912 example_config 0 "expert_0_param_load"
      [example_tensor "t1" [7, 3]] (example_tensor "t2" [5])).2 32 0 example_weights
      (example_tensor "x" [1, 4096]) (example_load.calculate_load_cycles example_conversion 32)
      (load_new_ok example_conversion 32 example_config 0 "expert_0_param_load" 0 example_weights
        (example_tensor "x" [1, 4096]) 16777216
        (by simp [ExpertParamLoad.sum_param_size, example_weights, example_weight, u64]))).2.2⟩

end DynaNDE
